import Mathlib

/-! Trait resolution and type-bound predicates of gccrs.

A shallow embedding of `TraitResolver` (rust-hir-trait-resolve.h) and of
`TypeBoundPredicate` (rust-tyty-bounds.cc).

* The type-check context and the other mutable collaborators are one explicit
  `State`: the trait cache plus the list of calls made on collaborators, in the
  order they were made.
* A `rust_assert` that fails ends the run: `Outcome.abort`.
* `TraitResolver::go` calls itself through `resolve_trait_path`; the embedding
  takes that callee as an argument and `TraitResolver.Resolve` ties the knot
  with a recursion-depth budget, `Outcome.out_of_fuel` standing for a
  recursion that has not returned within the budget.
* A C++ pointer into a vector or into the trait cache is represented by the
  index or the key of what it points at.
-/

namespace Rust

abbrev NodeId := Nat
abbrev HirId := Nat
abbrev DefId := Nat
abbrev Location := Nat

def UNKNOWN_DEFID : DefId := 0

/-- What running a piece of the type checker ends in: a value, a failed
`rust_assert` (with the text of the asserted condition), or a recursion that
did not return within the depth budget. -/
inductive Outcome (α : Type) where
  | ok (a : α)
  | abort (assertion : String)
  | out_of_fuel
  deriving DecidableEq, Repr

namespace Outcome

def bind {α β : Type} (x : Outcome α) (f : α → Outcome β) : Outcome β :=
  match x with
  | ok a => f a
  | abort m => abort m
  | out_of_fuel => out_of_fuel

end Outcome

/-! ## HIR declarations -/

namespace HIR

/-- A type expression of the HIR (`HIR::Type`). -/
structure Ty where
  hirid : HirId
  name : String
  deriving DecidableEq, Repr

/-- Generic arguments written at a use site, `Trait<A, B>`. -/
structure GenericArgs where
  type_args : List Ty
  locus : Location
  deriving DecidableEq, Repr

/-- A type path; `generic_args` are the arguments of its final segment when
that segment is a generic one that has arguments. -/
structure TypePath where
  nodeid : NodeId
  locus : Location
  generic_args : Option GenericArgs
  deriving DecidableEq, Repr

structure TypeParam where
  hirid : HirId
  type_representation : String
  locus : Location
  deriving DecidableEq, Repr

/-- The two kinds `HIR::GenericParam::GenericKind` that `go` switches on. -/
inductive GenericParam where
  | LIFETIME (hirid : HirId)
  | TYPE (typaram : TypeParam)
  deriving DecidableEq, Repr

inductive TypeParamBound where
  | TRAITBOUND (path : TypePath) (locus : Location)
  | LIFETIME (locus : Location)
  deriving DecidableEq, Repr

inductive TraitItemKind where
  | FUNC
  | CONST
  | TYPE
  deriving DecidableEq, Repr

/-- One member of a trait declaration. `has_default` says whether the
declaration supplies a default body or value; `deferred_paths` are the trait
paths that the deferred work on the item (type checking its signature and its
default body) resolves, in order. -/
structure TraitItem where
  kind : TraitItemKind
  name : String
  has_default : Bool
  deferred_paths : List TypePath
  locus : Location
  deriving DecidableEq, Repr

structure Trait where
  defid : DefId
  locus : Location
  generic_params : List GenericParam
  type_param_bounds : List TypeParamBound
  trait_items : List TraitItem
  deriving DecidableEq, Repr

end HIR

/-! ## TyTy: types, substitutions, predicates -/

namespace TyTy

/-- Type terms. Only the placeholder of a generic parameter is built by the
code embedded here; every other type is an `Other`. -/
inductive BaseType where
  | ParamType (ref : HirId) (symbol : String)
  | Other (ref : HirId) (name : String)
  deriving DecidableEq, Repr

/-- Modelled from the spec: `BaseType::clone` is not under src/; section 6 gives
it as `clone(type) -> type`, a deep copy. Values carry no identity here, so the
copy is the same term. -/
def BaseType.clone (t : BaseType) : BaseType := t

structure SubstitutionParamMapping where
  generic : HIR.TypeParam
  param : BaseType
  deriving DecidableEq, Repr

/-- Modelled from the spec: `SubstitutionParamMapping::clone` is not under
src/; section 4.1 gives it as a deep copy of the parameter binding. -/
def SubstitutionParamMapping.clone (m : SubstitutionParamMapping) :
    SubstitutionParamMapping :=
  { generic := m.generic, param := m.param.clone }

/-- A bound argument. `param` is the index, in the owner's substitution list,
of the `SubstitutionParamMapping` the C++ object points at; `argument` is the
bound type, `none` for `nullptr`. -/
structure SubstitutionArg where
  param : Nat
  argument : Option BaseType
  deriving DecidableEq, Repr

structure SubstitutionArgumentMappings where
  mappings : List SubstitutionArg
  locus : Location
  deriving DecidableEq, Repr

namespace SubstitutionArgumentMappings

/-- Modelled from the spec: `SubstitutionArgumentMappings::error` is not under
src/; section 4.1: the sentinel with no bindings. -/
def error : SubstitutionArgumentMappings := { mappings := [], locus := 0 }

def size (m : SubstitutionArgumentMappings) : Nat := m.mappings.length

def is_empty (m : SubstitutionArgumentMappings) : Bool := m.size == 0

/-- Modelled from the spec: the error sentinel is the mapping with no
bindings (section 4.1). -/
def is_error (m : SubstitutionArgumentMappings) : Bool := m.size == 0

end SubstitutionArgumentMappings

/-- The `SubstitutionRef` base (`substitutions`, `used_arguments`) together
with the members of `TypeBoundPredicate`. -/
structure TypeBoundPredicate where
  substitutions : List SubstitutionParamMapping
  used_arguments : SubstitutionArgumentMappings
  reference : DefId
  locus : Location
  error_flag : Bool
  deriving DecidableEq, Repr

end TyTy

/-! ## Resolver: trait references and the state -/

namespace Resolver

open TyTy

inductive TraitItemType where
  | FN
  | CONST
  | TYPE
  | ERROR
  deriving DecidableEq, Repr

structure TraitItemReference where
  identifier : String
  optional_flag : Bool
  type : TraitItemType
  hir_trait_item : Option HIR.TraitItem
  self : Option BaseType
  inherited_substitutions : List SubstitutionParamMapping
  locus : Location
  deriving DecidableEq, Repr

def TraitItemReference.error : TraitItemReference :=
  { identifier := "", optional_flag := false, type := TraitItemType.ERROR,
    hir_trait_item := none, self := none, inherited_substitutions := [],
    locus := 0 }

/-- Modelled from the spec: class `TraitReference` (rust-hir-trait-ref.h) is
not under src/. Section 3: a declaration, its items in declaration order, its
super-traits and its substitutions. `super_traits` holds, for each pointer into
the trait cache, the key of the entry pointed at. The error reference has no
declaration. -/
structure TraitReference where
  hir_trait_ref : Option HIR.Trait
  item_refs : List TraitItemReference
  super_traits : List DefId
  trait_substs : List SubstitutionParamMapping
  deriving DecidableEq, Repr

namespace TraitReference

def error_node : TraitReference :=
  { hir_trait_ref := none, item_refs := [], super_traits := [], trait_substs := [] }

def is_error (r : TraitReference) : Bool := r.hir_trait_ref.isNone

/-- The `get_mappings ().get_defid ()` of a reference; the error reference,
which has no declaration, answers `UNKNOWN_DEFID`. -/
def get_defid (r : TraitReference) : DefId :=
  match r.hir_trait_ref with
  | some t => t.defid
  | none => UNKNOWN_DEFID

def get_trait_substs (r : TraitReference) : List SubstitutionParamMapping :=
  r.trait_substs

end TraitReference

/-- A call made on a collaborator that is not part of the embedded code. -/
inductive Event where
  | rust_error_at (locus : Location) (msg : String)
  | insert_type (hirid : HirId) (ty : BaseType)
  | inherit_bounds (self : BaseType) (specified_bounds : List TypeBoundPredicate)
  | resolve_trait_item (identifier : String)
  | on_resolved (reference : DefId)
  deriving DecidableEq, Repr

/-- The mutable world of the resolver: the trait cache of the type-check
context and the calls made so far. -/
structure State where
  trait_context : List (DefId × TraitReference)
  events : List Event
  deriving DecidableEq, Repr

def lookup_entry (id : DefId) : List (DefId × TraitReference) → Option TraitReference
  | [] => none
  | (k, v) :: rest => if k = id then some v else lookup_entry id rest

namespace State

def empty : State := { trait_context := [], events := [] }

/-- Modelled from the spec: `TypeCheckContext::lookup_trait_reference` is not
under src/; the cache is keyed by declaration id. -/
def lookup_trait_reference (s : State) (id : DefId) : Option TraitReference :=
  lookup_entry id s.trait_context

/-- Modelled from the spec: `TypeCheckContext::insert_trait_reference` is not
under src/; section 4.2 step 8 inserts the reference keyed by declaration id and
step 9 fetches the reference just inserted. -/
def insert_trait_reference (s : State) (id : DefId) (r : TraitReference) : State :=
  { s with trait_context := (id, r) :: s.trait_context }

def emit (s : State) (e : Event) : State :=
  { s with events := s.events ++ [e] }

/-- Every entry of the cache of `s` is still the entry of `s1`. -/
def le (s s1 : State) : Prop :=
  ∀ d r, s.lookup_trait_reference d = some r → s1.lookup_trait_reference d = some r

/-- Every entry of the cache sits under the declaration id of its own
declaration. -/
def wf (s : State) : Prop :=
  ∀ d r, s.lookup_trait_reference d = some r → r.get_defid = d

/-- The state `s1` comes after `s`: the entries of the cache of `s` are still
there, well-formedness has been kept, and the calls recorded in `s` are the
first calls recorded in `s1`. -/
def later (s s1 : State) : Prop :=
  s.le s1 ∧ (s.wf → s1.wf) ∧ s.events <+: s1.events

end State

/-- The read-only collaborators: name resolution (`lookup_resolved_type`), the
node-to-HIR mapping and the declaration store, which section 6 gives as
`get_declaration(declaration_id) -> trait_declaration_node`. -/
structure Env where
  lookup_resolved_type : NodeId → Option NodeId
  lookup_node_to_hir : NodeId → Option HirId
  lookup_hir_item : HirId → Option HIR.Trait

end Resolver

/-! ## TypeBoundPredicate (rust-tyty-bounds.cc) -/

namespace TyTy

open Resolver

namespace TypeBoundPredicate

/-- `TypeBoundPredicate::is_error`: the declaration id has no entry in the
trait cache, or the error flag is set. -/
def is_error (s : State) (p : TypeBoundPredicate) : Bool :=
  let ok := (s.lookup_trait_reference p.reference).isSome
  !ok || p.error_flag

/-- The constructor from a `TraitReference`: the substitutions of the trait,
`used_arguments` the error sentinel onto which the dummy implicit self
argument, pointing at `get_substs ().front ()`, is pushed. -/
def from_trait_reference (trait_reference : TraitReference) (locus : Location) :
    TypeBoundPredicate :=
  let placeholder_self : SubstitutionArg := { param := 0, argument := none }
  { substitutions := trait_reference.get_trait_substs
    used_arguments :=
      { mappings := SubstitutionArgumentMappings.error.mappings ++ [placeholder_self]
        locus := SubstitutionArgumentMappings.error.locus }
    reference := trait_reference.get_defid
    locus := locus
    error_flag := false }

/-- The constructor from `(DefId, substitutions, Location)`. -/
def from_defid (reference : DefId) (substitutions : List SubstitutionParamMapping)
    (locus : Location) : TypeBoundPredicate :=
  let placeholder_self : SubstitutionArg := { param := 0, argument := none }
  { substitutions := substitutions
    used_arguments :=
      { mappings := SubstitutionArgumentMappings.error.mappings ++ [placeholder_self]
        locus := SubstitutionArgumentMappings.error.locus }
    reference := reference
    locus := locus
    error_flag := false }

/-- The loop shared by the copy constructor and `operator=`: argument `i` of
the source is rebuilt pointing at `substitutions.at (i)` of the copy, its type
cloned when it has one. `at` checks the range. -/
def copy_mappings (substitutions : List SubstitutionParamMapping) :
    List SubstitutionArg → Nat → List SubstitutionArg → Outcome (List SubstitutionArg)
  | [], _, mappings => Outcome.ok mappings
  | oa :: rest, i, mappings =>
    if i < substitutions.length then
      let argument := oa.argument.map BaseType.clone
      let arg : SubstitutionArg := { param := i, argument := argument }
      copy_mappings substitutions rest (i + 1) (mappings ++ [arg])
    else Outcome.abort "substitutions.at (i)"

/-- What the loop of `copy_mappings` makes of the arguments of the source,
starting at index `i`: argument `k` points at parameter `i + k` and has its
type cloned. -/
def rebuilt_mappings : List SubstitutionArg → Nat → List SubstitutionArg
  | [], _ => []
  | oa :: rest, i =>
    { param := i, argument := oa.argument.map BaseType.clone } :: rebuilt_mappings rest (i + 1)

/-- The copy constructor. It reads the trait cache through `other.is_error ()`. -/
def copy (s : State) (other : TypeBoundPredicate) : Outcome TypeBoundPredicate :=
  if other.is_error s then
    Outcome.ok
      { substitutions := []
        used_arguments := SubstitutionArgumentMappings.error
        reference := other.reference
        locus := other.locus
        error_flag := other.error_flag }
  else
    let substitutions := other.substitutions.map SubstitutionParamMapping.clone
    (copy_mappings substitutions other.used_arguments.mappings 0 []).bind fun mappings =>
    Outcome.ok
      { substitutions := substitutions
        used_arguments := { mappings := mappings, locus := other.used_arguments.locus }
        reference := other.reference
        locus := other.locus
        error_flag := other.error_flag }

/-- The copy assignment `operator=`, assigning `other` to `this`. -/
def assign (s : State) (this other : TypeBoundPredicate) : Outcome TypeBoundPredicate :=
  let this1 : TypeBoundPredicate :=
    { this with
      reference := other.reference
      locus := other.locus
      error_flag := other.error_flag
      used_arguments := SubstitutionArgumentMappings.error
      substitutions := [] }
  if other.is_error s then Outcome.ok this1
  else
    let substitutions := other.substitutions.map SubstitutionParamMapping.clone
    (copy_mappings substitutions other.used_arguments.mappings 0 []).bind fun mappings =>
    Outcome.ok
      { this1 with
        substitutions := substitutions
        used_arguments := { mappings := mappings, locus := other.used_arguments.locus } }

/-- `TypeBoundPredicate::error`. -/
def error : TypeBoundPredicate :=
  { from_defid UNKNOWN_DEFID [] 0 with error_flag := true }

/-- `TypeBoundPredicate::get`: the cached reference, behind `rust_assert (ok)`. -/
def get (s : State) (p : TypeBoundPredicate) : Outcome TraitReference :=
  match s.lookup_trait_reference p.reference with
  | some ref => Outcome.ok ref
  | none => Outcome.abort "ok"

/-- `TypeBoundPredicate::requires_generic_args`. -/
def requires_generic_args (s : State) (p : TypeBoundPredicate) : Bool :=
  if p.is_error s then false else decide (p.substitutions.length > 1)

/-- `TypeBoundPredicate::apply_generic_arguments`. The collaborator
`SubstitutionRef::get_mappings_from_generic_args`, which is not under src/, is
the argument `get_mappings_from_generic_args`; it reads the substitutions and
the used arguments of the predicate. -/
def apply_generic_arguments
    (get_mappings_from_generic_args :
      List SubstitutionParamMapping → SubstitutionArgumentMappings → HIR.GenericArgs →
        SubstitutionArgumentMappings)
    (p : TypeBoundPredicate) (generic_args : HIR.GenericArgs) :
    Outcome TypeBoundPredicate :=
  if p.used_arguments.is_empty then Outcome.abort "!used_arguments.is_empty ()"
  else if p.substitutions.isEmpty then Outcome.abort "!substitutions.empty ()"
  else
    let used_arguments :=
      get_mappings_from_generic_args p.substitutions p.used_arguments generic_args
    Outcome.ok
      { p with
        used_arguments := used_arguments
        error_flag := p.error_flag || used_arguments.is_error }

end TypeBoundPredicate

/-- Binds type argument number `k` of a use site to parameter `offs + k`. -/
def bind_type_args : List HIR.Ty → Nat → List SubstitutionArg
  | [], _ => []
  | arg :: rest, offs =>
    { param := offs, argument := some (BaseType.Other arg.hirid arg.name) } ::
      bind_type_args rest (offs + 1)

/-- Modelled from the spec: `SubstitutionRef::get_mappings_from_generic_args`
is not under src/. Sections 4.4 and 7 (c): the explicit arguments of the use
site are bound after the arguments already used, the receiver slot first among
them, and arguments that do not fit the parameter list give the error
sentinel. -/
def get_mappings_from_generic_args (substitutions : List SubstitutionParamMapping)
    (used_arguments : SubstitutionArgumentMappings) (args : HIR.GenericArgs) :
    SubstitutionArgumentMappings :=
  let offs := used_arguments.size
  if args.type_args.length + offs = substitutions.length then
    { mappings := used_arguments.mappings ++ bind_type_args args.type_args offs
      locus := args.locus }
  else SubstitutionArgumentMappings.error

end TyTy

/-! ## TraitResolver (rust-hir-trait-resolve.h) -/

namespace Resolver

open TyTy

/-- Modelled from the spec: `TypeResolveGenericParam::Resolve` is not under
src/; section 4.2 step 3: a placeholder type for the type parameter. -/
def TypeResolveGenericParam.Resolve (typaram : HIR.TypeParam) : BaseType :=
  BaseType.ParamType typaram.hirid typaram.type_representation

namespace ResolveTraitItemToRef

/-- Modelled from the spec: the three `visit` overloads are declared under
src/ and defined elsewhere. Section 4.3: dispatch on the kind of the item,
giving the matching variant bound to the receiver type and to the supplied
substitutions; section 3: `is_optional` is whether a default is supplied. -/
def visit (item : HIR.TraitItem) (self : BaseType)
    (substitutions : List SubstitutionParamMapping) : TraitItemReference :=
  let type :=
    match item.kind with
    | HIR.TraitItemKind.TYPE => TraitItemType.TYPE
    | HIR.TraitItemKind.CONST => TraitItemType.CONST
    | HIR.TraitItemKind.FUNC => TraitItemType.FN
  { identifier := item.name
    optional_flag := item.has_default
    type := type
    hir_trait_item := some item
    self := some self
    inherited_substitutions := substitutions
    locus := item.locus }

/-- `ResolveTraitItemToRef::Resolve`: the resolver starts from
`TraitItemReference::error ()` and the visited item overwrites it. -/
def Resolve (item : HIR.TraitItem) (self : BaseType)
    (substitutions : List SubstitutionParamMapping) : TraitItemReference :=
  visit item self substitutions

end ResolveTraitItemToRef

/-- The type of `TraitResolver::Resolve`, which `go` and the deferred work
reach through `resolve_trait_path`. -/
abbrev ResolveFn := HIR.TypePath → State → Outcome (TraitReference × State)

/-- Resolves the given trait paths one after the other. -/
def resolve_paths (resolve_trait_path : ResolveFn) :
    List HIR.TypePath → State → Outcome State
  | [], s => Outcome.ok s
  | p :: rest, s =>
    (resolve_trait_path p s).bind fun r => resolve_paths resolve_trait_path rest r.2

/-- Modelled from the spec: `TraitItemReference::on_resolved` is not under
src/; section 4.2 step 9: the deferred work of the item, which resolves the
traits it names through the resolver. -/
def TraitItemReference.on_resolved (resolve_trait_path : ResolveFn)
    (item : TraitItemReference) (s : State) : Outcome State :=
  match item.hir_trait_item with
  | none => Outcome.ok s
  | some hir => resolve_paths resolve_trait_path hir.deferred_paths s

def items_on_resolved (resolve_trait_path : ResolveFn) :
    List TraitItemReference → State → Outcome State
  | [], s => Outcome.ok s
  | item :: rest, s =>
    (item.on_resolved resolve_trait_path s).bind fun s1 =>
      items_on_resolved resolve_trait_path rest s1

/-- Modelled from the spec: `TraitReference::on_resolved` is not under src/;
section 4.2 step 9: the items-resolved hook runs the deferred work of every
item. The call itself is recorded first. -/
def TraitReference.on_resolved (resolve_trait_path : ResolveFn)
    (tref : TraitReference) (s : State) : Outcome State :=
  items_on_resolved resolve_trait_path tref.item_refs
    (s.emit (Event.on_resolved tref.get_defid))

namespace TraitResolver

/-- The loop of `go` over `get_generic_params ()`: lifetimes are skipped; a
type parameter gets its placeholder type, which is inserted into the context
and pushed onto `substitutions`, and the one named "Self" becomes `self`. -/
def generic_params_loop :
    List HIR.GenericParam → Option BaseType → List SubstitutionParamMapping → State →
      Option BaseType × List SubstitutionParamMapping × State
  | [], self, substitutions, s => (self, substitutions, s)
  | HIR.GenericParam.LIFETIME _ :: rest, self, substitutions, s =>
    generic_params_loop rest self substitutions s
  | HIR.GenericParam.TYPE typaram :: rest, self, substitutions, s =>
    let param_type := TypeResolveGenericParam.Resolve typaram
    let s1 := s.emit (Event.insert_type typaram.hirid param_type)
    let substitutions1 := substitutions ++ [{ generic := typaram, param := param_type }]
    let self1 := if typaram.type_representation = "Self" then some param_type else self
    generic_params_loop rest self1 substitutions1 s1

/-- The loop of `go` over `get_type_param_bounds ()`. A trait bound is
resolved through `resolve_trait_path`; the predicate built from the result is
pushed onto `specified_bounds` (a copy, the class having no move constructor)
and `predicate.get ()` is pushed onto `super_traits`. -/
def super_traits_loop (resolve_trait_path : ResolveFn) :
    List HIR.TypeParamBound → List TypeBoundPredicate → List DefId → State →
      Outcome (List TypeBoundPredicate × List DefId × State)
  | [], specified_bounds, super_traits, s => Outcome.ok (specified_bounds, super_traits, s)
  | HIR.TypeParamBound.LIFETIME _ :: rest, specified_bounds, super_traits, s =>
    super_traits_loop resolve_trait_path rest specified_bounds super_traits s
  | HIR.TypeParamBound.TRAITBOUND path locus :: rest, specified_bounds, super_traits, s =>
    (resolve_trait_path path s).bind fun r =>
    let trait := r.1
    let s1 := r.2
    let predicate := TypeBoundPredicate.from_trait_reference trait locus
    (TypeBoundPredicate.copy s1 predicate).bind fun pushed =>
    (predicate.get s1).bind fun _ =>
    super_traits_loop resolve_trait_path rest (specified_bounds ++ [pushed])
      (super_traits ++ [predicate.reference]) s1

/-- The loop of `go` over `get_trait_items ()`: each item is resolved with
clones of the substitutions. -/
def trait_items_loop (self : BaseType) (substitutions : List SubstitutionParamMapping) :
    List HIR.TraitItem → List TraitItemReference → State →
      List TraitItemReference × State
  | [], item_refs, s => (item_refs, s)
  | item :: rest, item_refs, s =>
    let item_subst := substitutions.map SubstitutionParamMapping.clone
    let trait_item_ref := ResolveTraitItemToRef.Resolve item self item_subst
    trait_items_loop self substitutions rest (item_refs ++ [trait_item_ref])
      (s.emit (Event.resolve_trait_item item.name))

/-- `TraitResolver::go`. The visitor call on the resolved item stores the
declaration in `trait_reference`. `specified_bounds.push_back` of the bound of
the trait itself copy-constructs it, in the state reached after the generic
parameters; later copies of an element of `specified_bounds` (growth of the
vector, `inherit_bounds`) reproduce the element and are left out. The test
`has_type_param_bounds ()` guards a loop that does nothing on an empty list.
`self->inherit_bounds (specified_bounds)` is recorded as a call. -/
def go (env : Env) (resolve_trait_path : ResolveFn) (path : HIR.TypePath) (s : State) :
    Outcome (TraitReference × State) :=
  match env.lookup_resolved_type path.nodeid with
  | none =>
    Outcome.ok (TraitReference.error_node,
      s.emit (Event.rust_error_at path.locus "Failed to resolve path to node-id"))
  | some ref =>
  match env.lookup_node_to_hir ref with
  | none =>
    Outcome.ok (TraitReference.error_node,
      s.emit (Event.rust_error_at path.locus "Failed to resolve path to hir-id"))
  | some hir_node =>
  match env.lookup_hir_item hir_node with
  | none => Outcome.abort "resolved_item != nullptr"
  | some trait_reference =>
  match s.lookup_trait_reference trait_reference.defid with
  | some tref => Outcome.ok (tref, s)
  | none =>
  match generic_params_loop trait_reference.generic_params none [] s with
  | (none, _, _) => Outcome.abort "self != nullptr"
  | (some self, substitutions, s1) =>
    let self_subst_copy := substitutions.map SubstitutionParamMapping.clone
    (TypeBoundPredicate.copy s1
      (TypeBoundPredicate.from_defid trait_reference.defid self_subst_copy
        trait_reference.locus)).bind fun self_bound =>
    (super_traits_loop resolve_trait_path trait_reference.type_param_bounds
      [self_bound] [] s1).bind fun r =>
    let specified_bounds := r.1
    let super_traits := r.2.1
    let s2 := r.2.2.emit (Event.inherit_bounds self specified_bounds)
    let r3 := trait_items_loop self substitutions trait_reference.trait_items [] s2
    let item_refs := r3.1
    let trait_object : TraitReference :=
      { hir_trait_ref := some trait_reference
        item_refs := item_refs
        super_traits := super_traits
        trait_substs := substitutions }
    let s4 := r3.2.insert_trait_reference trait_reference.defid trait_object
    match s4.lookup_trait_reference trait_reference.defid with
    | none => Outcome.abort "ok"
    | some tref =>
      (tref.on_resolved resolve_trait_path s4).bind fun s5 =>
      Outcome.ok (tref, s5)

/-- `TraitResolver::Resolve`, which is also `TypeCheckBase::resolve_trait_path`:
`go` with itself as the callee, to recursion depth `fuel`. -/
def Resolve (env : Env) : Nat → ResolveFn
  | 0 => fun _ _ => Outcome.out_of_fuel
  | fuel + 1 => go env (Resolve env fuel)

/-- `TraitResolver::lookup_path`, reached through `TraitResolver::Lookup`. -/
def lookup_path (env : Env) (path : HIR.TypePath) (s : State) :
    Outcome (TraitReference × State) :=
  match env.lookup_resolved_type path.nodeid with
  | none =>
    Outcome.ok (TraitReference.error_node,
      s.emit (Event.rust_error_at path.locus "Failed to resolve path to node-id"))
  | some ref =>
  match env.lookup_node_to_hir ref with
  | none =>
    Outcome.ok (TraitReference.error_node,
      s.emit (Event.rust_error_at path.locus "Failed to resolve path to hir-id"))
  | some hir_node =>
  match env.lookup_hir_item hir_node with
  | none => Outcome.abort "resolved_item != nullptr"
  | some trait_reference =>
  match s.lookup_trait_reference trait_reference.defid with
  | some tref => Outcome.ok (tref, s)
  | none => Outcome.ok (TraitReference.error_node, s)

def Lookup (env : Env) (path : HIR.TypePath) (s : State) :
    Outcome (TraitReference × State) :=
  lookup_path env path s

/-- The declaration a path leads to: the resolved node id, its HIR id, and the
item stored under it. -/
def path_declaration (env : Env) (path : HIR.TypePath) : Option HIR.Trait :=
  match env.lookup_resolved_type path.nodeid with
  | none => none
  | some ref =>
    match env.lookup_node_to_hir ref with
    | none => none
    | some hir_node => env.lookup_hir_item hir_node

/-- The declaration ids of the trait bounds among the given bounds, in
declaration order; a bound that is not a trait bound, or whose path leads to no
declaration, gives none. -/
def bound_defids (env : Env) : List HIR.TypeParamBound → List DefId
  | [] => []
  | HIR.TypeParamBound.LIFETIME _ :: rest => bound_defids env rest
  | HIR.TypeParamBound.TRAITBOUND path _ :: rest =>
    match path_declaration env path with
    | some u => u.defid :: bound_defids env rest
    | none => bound_defids env rest

/-- The type parameters among the generic parameters of a declaration, in
declaration order. -/
def type_params : List HIR.GenericParam → List HIR.TypeParam
  | [] => []
  | HIR.GenericParam.LIFETIME _ :: rest => type_params rest
  | HIR.GenericParam.TYPE typaram :: rest => typaram :: type_params rest

/-- The `SubstitutionParamMapping` that the generic-parameter loop of `go`
pushes for a type parameter. -/
def mapping_of (typaram : HIR.TypeParam) : SubstitutionParamMapping :=
  { generic := typaram, param := TypeResolveGenericParam.Resolve typaram }

end TraitResolver

/-- What the resolver guarantees at every recursion depth: the state it
returns comes after the state it was given, and the reference returned for a
path that leads to a declaration is the entry cached under the id of that
declaration. -/
def Sound (env : Env) (f : ResolveFn) : Prop :=
  ∀ p s r s1, f p s = Outcome.ok (r, s1) →
    s.later s1 ∧
      ∀ t, TraitResolver.path_declaration env p = some t →
        s1.lookup_trait_reference t.defid = some r

/-- The resolver `g` answers whatever `f` answers within its depth budget. -/
def Extends (f g : ResolveFn) : Prop :=
  ∀ p s x, f p s = x → x ≠ Outcome.out_of_fuel → g p s = x

end Resolver

/-! ## Queries on a predicate and the bound probe (rust-tyty-bounds.cc) -/

namespace HIR

/-- An `impl` block: its trait path when it is a trait impl, and the HIR id of
its `Self` type expression. -/
structure ImplBlock where
  hirid : HirId
  trait_ref : Option TypePath
  type_hirid : HirId
  deriving DecidableEq, Repr

end HIR

namespace Resolver

open TyTy

/-- Modelled from the spec: `TraitReference::lookup_trait_item` is not under
src/; section 4.4: the name is looked up among the items of the trait. -/
def TraitReference.lookup_trait_item (r : TraitReference) (ident : String) :
    Option TraitItemReference :=
  r.item_refs.find? fun item => item.identifier == ident

end Resolver

namespace TyTy

open Resolver

/-- The collaborators of the queries that are not under src/: the printing,
naming and object-safety queries of the backing trait, the canonical-path
table, the type of a trait item, the numeric value of each enumerator of
`TraitItemReference::TraitItemType`, and the substitution engine
(`SubstMapperInternal::Resolve`). -/
structure Collaborators where
  trait_as_string : TraitReference → String
  subst_as_string : TypeBoundPredicate → String
  trait_nodeid : TraitReference → NodeId
  lookup_canonical_path : NodeId → Option String
  trait_get_name : TraitReference → String
  trait_is_object_safe : TraitReference → Bool → Location → Bool
  get_tyty : TraitItemReference → BaseType
  enumerator : TraitItemType → Nat
  specialize : BaseType → SubstitutionArgumentMappings → BaseType

/-- The result of looking up an item on a predicate. The two pointers are
represented by what they point at, `none` for `nullptr`. -/
structure TypeBoundPredicateItem where
  parent : Option TypeBoundPredicate
  trait_item_ref : Option TraitItemReference
  deriving DecidableEq, Repr

namespace TypeBoundPredicate

/-- `TypeBoundPredicate::as_string`. -/
def as_string (c : Collaborators) (s : State) (p : TypeBoundPredicate) : Outcome String :=
  (p.get s).bind fun trait => Outcome.ok (c.trait_as_string trait ++ c.subst_as_string p)

/-- `TypeBoundPredicate::get_name`. -/
def get_name (c : Collaborators) (s : State) (p : TypeBoundPredicate) : Outcome String :=
  (p.get s).bind fun trait =>
    let nodeid := c.trait_nodeid trait
    match c.lookup_canonical_path nodeid with
    | some path => Outcome.ok path
    | none => Outcome.ok (c.trait_get_name trait)

/-- `TypeBoundPredicate::is_object_safe`; what `get ()` returns is never null. -/
def is_object_safe (c : Collaborators) (s : State) (p : TypeBoundPredicate)
    (emit_error : Bool) (locus : Location) : Outcome Bool :=
  (p.get s).bind fun trait => Outcome.ok (c.trait_is_object_safe trait emit_error locus)

/-- `TypeBoundPredicate::contains_item`. -/
def contains_item (s : State) (p : TypeBoundPredicate) (search : String) : Outcome Bool :=
  (p.get s).bind fun trait_ref => Outcome.ok (trait_ref.lookup_trait_item search).isSome

end TypeBoundPredicate

namespace TypeBoundPredicateItem

/-- Modelled from the spec: `TypeBoundPredicateItem::error` is not under src/;
the error item sentinel has neither a parent nor a trait item. -/
def error : TypeBoundPredicateItem := { parent := none, trait_item_ref := none }

/-- Modelled from the spec: `TypeBoundPredicateItem::is_error` is not under
src/; it holds of the item that lacks its parent or its trait item. -/
def is_error (item : TypeBoundPredicateItem) : Bool :=
  item.parent.isNone || item.trait_item_ref.isNone

/-- `TypeBoundPredicateItem::get_raw_item`. -/
def get_raw_item (item : TypeBoundPredicateItem) : Option TraitItemReference :=
  item.trait_item_ref

/-- `TypeBoundPredicateItem::needs_implementation`. Dereferencing `nullptr`
ends the run; it is recorded as an `Outcome.abort`. -/
def needs_implementation (item : TypeBoundPredicateItem) : Outcome Bool :=
  match item.get_raw_item with
  | none => Outcome.abort "get_raw_item () is nullptr"
  | some raw => Outcome.ok (!raw.optional_flag)

/-- `TypeBoundPredicateItem::get_tyty_for_receiver`. The value returned is the
type together with the parent predicate as the call leaves it. `gargs` is the
working copy of the argument mappings of the parent, whose slot 0 is
overwritten; `is_associated_type` is the enumerator of the item kind converted
to `bool`. -/
def get_tyty_for_receiver (c : Collaborators) (item : TypeBoundPredicateItem)
    (receiver : BaseType) : Outcome (BaseType × TypeBoundPredicate) :=
  match item.get_raw_item with
  | none => Outcome.abort "get_raw_item () is nullptr"
  | some tref =>
  match item.parent with
  | none => Outcome.abort "parent is nullptr"
  | some parent =>
    let trait_item_tyty := c.get_tyty tref
    if parent.used_arguments.is_empty then Outcome.ok (trait_item_tyty, parent)
    else
      let is_associated_type := decide (c.enumerator tref.type ≠ 0)
      if is_associated_type then Outcome.ok (trait_item_tyty, parent)
      else
        let gargs := parent.used_arguments
        if gargs.is_empty then Outcome.abort "!gargs.is_empty ()"
        else
          match gargs.mappings with
          | [] => Outcome.abort "gargs.get_mappings ().at (0)"
          | sarg :: others =>
            let self : SubstitutionArg :=
              { param := sarg.param, argument := some receiver.clone }
            let gargs1 : SubstitutionArgumentMappings :=
              { mappings := self :: others, locus := gargs.locus }
            Outcome.ok (c.specialize trait_item_tyty gargs1, parent)

end TypeBoundPredicateItem

namespace TypeBoundPredicate

/-- `TypeBoundPredicate::lookup_associated_item (const std::string &)`. -/
def lookup_associated_item (s : State) (p : TypeBoundPredicate) (search : String) :
    Outcome TypeBoundPredicateItem :=
  (p.get s).bind fun trait_ref =>
    match trait_ref.lookup_trait_item search with
    | none => Outcome.ok TypeBoundPredicateItem.error
    | some trait_item_ref =>
      Outcome.ok { parent := some p, trait_item_ref := some trait_item_ref }

/-- `TypeBoundPredicate::lookup_associated_item (const TraitItemReference *)`. -/
def lookup_associated_item_ref (s : State) (p : TypeBoundPredicate)
    (ref : TraitItemReference) : Outcome TypeBoundPredicateItem :=
  lookup_associated_item s p ref.identifier

end TypeBoundPredicate

end TyTy

namespace Resolver

open TyTy

/-- What `TypeBoundsProbe::scan` reads besides the resolver: the impl blocks in
the order `iterate_impl_blocks` visits them, the type-checked types of the
context, and `can_eq` of the type engine. -/
structure ProbeEnv where
  impl_blocks : List HIR.ImplBlock
  lookup_type : HirId → Option BaseType
  can_eq : BaseType → BaseType → Bool → Bool

namespace TypeBoundsProbe

/-- The visit of `scan` to every impl block, which fills
`possible_trait_paths`. -/
def possible_trait_paths (pe : ProbeEnv) (receiver : BaseType) :
    List HIR.ImplBlock → List (HIR.TypePath × HIR.ImplBlock) →
      List (HIR.TypePath × HIR.ImplBlock)
  | [], paths => paths
  | impl :: rest, paths =>
    match impl.trait_ref with
    | none => possible_trait_paths pe receiver rest paths
    | some trait_ref =>
      match pe.lookup_type impl.type_hirid with
      | none => possible_trait_paths pe receiver rest paths
      | some impl_type =>
        if !pe.can_eq receiver impl_type false then
          if !pe.can_eq impl_type receiver false then
            possible_trait_paths pe receiver rest paths
          else possible_trait_paths pe receiver rest (paths ++ [(trait_ref, impl)])
        else possible_trait_paths pe receiver rest (paths ++ [(trait_ref, impl)])

/-- The second loop of `scan`: every possible trait path is resolved and kept
when the reference is not the error reference. -/
def resolve_loop (resolve : ResolveFn) :
    List (HIR.TypePath × HIR.ImplBlock) → List (TraitReference × HIR.ImplBlock) → State →
      Outcome (List (TraitReference × HIR.ImplBlock) × State)
  | [], trait_references, s => Outcome.ok (trait_references, s)
  | path :: rest, trait_references, s =>
    (resolve path.1 s).bind fun r =>
      if !r.1.is_error then resolve_loop resolve rest (trait_references ++ [(r.1, path.2)]) r.2
      else resolve_loop resolve rest trait_references r.2

/-- `TypeBoundsProbe::scan`, which pushes onto the member `trait_references`. -/
def scan (resolve : ResolveFn) (pe : ProbeEnv) (receiver : BaseType)
    (trait_references : List (TraitReference × HIR.ImplBlock)) (s : State) :
    Outcome (List (TraitReference × HIR.ImplBlock) × State) :=
  resolve_loop resolve (possible_trait_paths pe receiver pe.impl_blocks [])
    trait_references s

/-- The conditions (1) to (3) of the claim on `scan`: the impl block has a
trait reference, its `Self` type has a type-checked type, and that type and the
receiver are `can_eq` in one direction or the other, without coercion. -/
def eligible (pe : ProbeEnv) (receiver : BaseType) (impl : HIR.ImplBlock) : Bool :=
  impl.trait_ref.isSome &&
    match pe.lookup_type impl.type_hirid with
    | none => false
    | some impl_type => pe.can_eq receiver impl_type false || pe.can_eq impl_type receiver false

/-- Resolves the trait path of every given impl block, in order, and pairs
each block with the reference its path resolved to. -/
def resolve_each (resolve : ResolveFn) :
    List HIR.ImplBlock → State → Outcome (List (TraitReference × HIR.ImplBlock) × State)
  | [], s => Outcome.ok ([], s)
  | impl :: rest, s =>
    match impl.trait_ref with
    | none => resolve_each resolve rest s
    | some trait_ref =>
      (resolve trait_ref s).bind fun r =>
      (resolve_each resolve rest r.2).bind fun more =>
      Outcome.ok ((r.1, impl) :: more.1, more.2)

/-- The claim on `scan`, in its words: of the impl blocks, in iteration order,
those that meet conditions (1) to (3) have their trait path resolved, and the
pairs whose reference is not the error reference are the result. -/
def scan_spec (resolve : ResolveFn) (pe : ProbeEnv) (receiver : BaseType) (s : State) :
    Outcome (List (TraitReference × HIR.ImplBlock) × State) :=
  (resolve_each resolve (pe.impl_blocks.filter (eligible pe receiver)) s).bind fun all =>
    Outcome.ok (all.1.filter (fun x => !x.1.is_error), all.2)

end TypeBoundsProbe

end Resolver

/-! ## Predicates of a bound (rust-tyty-bounds.cc) -/

namespace HIR

/-- Modelled from the spec: `HIR::GenericArgs::create_empty` is not under
src/; it gives generic arguments with no argument, at the locus given. -/
def GenericArgs.create_empty (locus : Location) : GenericArgs :=
  { type_args := [], locus := locus }

end HIR

namespace Resolver

open TyTy

/-- What `return predicate;` hands to the caller: the object itself when the
compiler elides the copy, and otherwise a copy made by the copy constructor,
the class having no move constructor. -/
def return_by_value (elided : Bool) (s : State) (predicate : TypeBoundPredicate) :
    Outcome TypeBoundPredicate :=
  if elided then Outcome.ok predicate else TypeBoundPredicate.copy s predicate

/-- `TypeCheckBase::get_predicate_from_bound`, with `resolve_trait_path` and
the collaborator of `apply_generic_arguments` as arguments. The temporary of
`TypeBoundPredicate::error ()` is returned in place. -/
def get_predicate_from_bound (resolve_trait_path : ResolveFn)
    (get_mappings_from_generic_args :
      List SubstitutionParamMapping → SubstitutionArgumentMappings → HIR.GenericArgs →
        SubstitutionArgumentMappings)
    (elided : Bool) (type_path : HIR.TypePath) (s : State) :
    Outcome (TypeBoundPredicate × State) :=
  (resolve_trait_path type_path s).bind fun res =>
    let trait := res.1
    let s1 := res.2
    if trait.is_error then Outcome.ok (TypeBoundPredicate.error, s1)
    else
      let predicate := TypeBoundPredicate.from_trait_reference trait type_path.locus
      let args0 := HIR.GenericArgs.create_empty type_path.locus
      let args :=
        match type_path.generic_args with
        | some final_args => final_args
        | none => args0
      if predicate.requires_generic_args s1 then
        (TypeBoundPredicate.apply_generic_arguments get_mappings_from_generic_args
          predicate args).bind fun predicate1 =>
        (return_by_value elided s1 predicate1).bind fun returned =>
        Outcome.ok (returned, s1)
      else
        (return_by_value elided s1 predicate).bind fun returned =>
        Outcome.ok (returned, s1)

end Resolver

/-! ## Symbol mangling (rust-mangle.cc)

A `std::string` is a `String` and its `size ()`, which counts bytes, is
`utf8ByteSize`; the strings built here hold ASCII characters only, one byte
each. A name handed to the
mangler is a `String` too: being valid UTF-8, `Utf8String::make_utf8_string`
has a value for it and `get_chars ()` is its list of characters.
`rust_unreachable ()` ends the run like a failed assertion. -/

namespace Compile

open TyTy

def kMangledSymbolPrefix : String := "_ZN"
def kMangledSymbolDelim : String := "E"
def kMangledGenericDelim : String := "$C$"
def kMangledSubstBegin : String := "$LT$"
def kMangledSubstEnd : String := "$GT$"
def kMangledSpace : String := "$u20$"
def kMangledRef : String := "$RF$"
def kMangledPtr : String := "$BP$"
def kMangledLeftSqParen : String := "$u5b$"
def kMangledRightSqParen : String := "$u5d$"
def kMangledLeftBrace : String := "$u7b$"
def kMangledRightBrace : String := "$u7d$"
def kQualPathBegin : String := "_" ++ kMangledSubstBegin
def kMangledComma : String := "$C$"

inductive MangleVersion where
  | LEGACY
  | V0
  deriving DecidableEq, Repr

/-- The kinds of `TyTy::TypeKind` that `v0_simple_type_prefix` names; `OTHER`
is any other kind. -/
inductive TypeKind where
  | BOOL
  | CHAR
  | STR
  | NEVER
  | ERROR
  | INFER
  | PLACEHOLDER
  | PARAM
  | TUPLE
  | UINT
  | INT
  | FLOAT
  | ISIZE
  | USIZE
  | OTHER
  deriving DecidableEq, Repr

/-- A canonical path: its segments, each a node id and a name, and the number
of its crate. -/
structure CanonicalPath where
  segs : List (NodeId × String)
  crate_num : Nat
  deriving DecidableEq, Repr

/-- The collaborators of the mangler that are not under src/: the FNV-128
hasher (`write` then `sum`, giving `hi` and `lo`), the queries on a type, the
crate names of the mappings, `encode_punycode` and `base62_integer`. -/
structure MangleEnv where
  fnv128_sum : String → Nat × Nat
  mangle_string : BaseType → String
  get_kind : BaseType → TypeKind
  is_unit : BaseType → Bool
  as_string : BaseType → String
  get_crate_name : Nat → Option String
  encode_punycode : String → Option String
  base62_integer : Nat → String

/-- The digits of `n` in lowercase hexadecimal, as `std::hex` and `%x` print
them. -/
def hex_digits (n : Nat) : List Char := Nat.toDigits 16 n

/-- Modelled from the spec: `Codepoint::is_ascii` is not under src/; an ASCII
character is one below 128. -/
def is_ascii (c : Char) : Bool := decide (c.val.toNat < 128)

/-- The loop of `legacy_mangle_name` over the characters from index `i` on.
A colon must be followed by a second colon, which the loop skips. -/
def legacy_mangle_loop : List Char → Nat → String → Outcome String
  | [], _, buffer => Outcome.ok buffer
  | c :: rest, i, buffer =>
    if c = ' ' then legacy_mangle_loop rest (i + 1) (buffer ++ kMangledSpace)
    else if c = '&' then legacy_mangle_loop rest (i + 1) (buffer ++ kMangledRef)
    else if i = 0 ∧ c = '<' then legacy_mangle_loop rest (i + 1) (buffer ++ kQualPathBegin)
    else if c = '<' then legacy_mangle_loop rest (i + 1) (buffer ++ kMangledSubstBegin)
    else if c = '>' then legacy_mangle_loop rest (i + 1) (buffer ++ kMangledSubstEnd)
    else if c = '*' then legacy_mangle_loop rest (i + 1) (buffer ++ kMangledPtr)
    else if c = '[' then legacy_mangle_loop rest (i + 1) (buffer ++ kMangledLeftSqParen)
    else if c = ']' then legacy_mangle_loop rest (i + 1) (buffer ++ kMangledRightSqParen)
    else if c = '\x7b' then legacy_mangle_loop rest (i + 1) (buffer ++ kMangledLeftBrace)
    else if c = '\x7d' then legacy_mangle_loop rest (i + 1) (buffer ++ kMangledRightBrace)
    else if c = ',' then legacy_mangle_loop rest (i + 1) (buffer ++ kMangledComma)
    else if c = ':' then
      match rest with
      | [] => Outcome.abort "i + 1 < chars.size ()"
      | c1 :: rest1 =>
        if c1 = ':' then legacy_mangle_loop rest1 (i + 2) (buffer ++ "..")
        else Outcome.abort "chars.at (i + 1) == ':'"
    else if is_ascii c then legacy_mangle_loop rest (i + 1) (buffer.push c)
    else
      legacy_mangle_loop rest (i + 1)
        (buffer ++ ("$u" ++ String.mk (hex_digits c.val.toNat) ++ "$"))

/-- `legacy_mangle_name`; `buffer.size ()` counts bytes. -/
def legacy_mangle_name (name : String) : Outcome String :=
  (legacy_mangle_loop name.data 0 "").bind fun buffer =>
    Outcome.ok (toString buffer.utf8ByteSize ++ buffer)

/-- `legacy_mangle_canonical_path`, from segment `i` on. -/
def legacy_mangle_segments : List (NodeId × String) → String → Outcome String
  | [], buffer => Outcome.ok buffer
  | seg :: rest, buffer =>
    (legacy_mangle_name seg.2).bind fun mangled =>
      legacy_mangle_segments rest (buffer ++ mangled)

/-- `legacy_mangle_canonical_path`. -/
def legacy_mangle_canonical_path (path : CanonicalPath) : Outcome String :=
  legacy_mangle_segments path.segs ""

/-- What `%08lx` prints: the hexadecimal digits, with zeros before them up to
eight characters. -/
def zero_padded_hex (n : Nat) : List Char :=
  List.replicate (8 - (hex_digits n).length) '0' ++ hex_digits n

/-- `legacy_hash`. `snprintf` writes at most the 16 first characters into
`hex`, and the format writes at least 16. -/
def legacy_hash (m : MangleEnv) (fingerprint : String) : String :=
  let sum := m.fnv128_sum fingerprint
  let hi := sum.1 % 2 ^ 64
  let lo := sum.2 % 2 ^ 64
  let hex := (zero_padded_hex lo ++ zero_padded_hex hi).take 16
  "h" ++ String.mk hex

/-- `v0_tuple_prefix`. -/
def v0_tuple_prefix (m : MangleEnv) (ty : BaseType) : String :=
  if m.is_unit ty then "u" else ""

/-- The table `num_prefixes` of `v0_numeric_prefix`. -/
def num_prefixes : List (String × String) :=
  [("[i8]", "a"), ("[u8]", "h"), ("[i16]", "s"), ("[u16]", "t"), ("[i32]", "l"),
   ("[u32]", "m"), ("[i64]", "x"), ("[u64]", "y"), ("[isize]", "i"), ("[usize]", "j"),
   ("[f32]", "f"), ("[f64]", "d")]

/-- `v0_numeric_prefix`. -/
def v0_numeric_prefix (m : MangleEnv) (ty : BaseType) : String :=
  let ty_kind := m.get_kind ty
  let ty_str := m.as_string ty
  if ty_kind = TypeKind.ISIZE then "i"
  else if ty_kind = TypeKind.USIZE then "j"
  else
    match num_prefixes.lookup ty_str with
    | some found => found
    | none => ""

/-- `v0_simple_type_prefix`. -/
def v0_simple_type_prefix (m : MangleEnv) (ty : BaseType) : String :=
  match m.get_kind ty with
  | TypeKind.BOOL => "b"
  | TypeKind.CHAR => "c"
  | TypeKind.STR => "e"
  | TypeKind.NEVER => "z"
  | TypeKind.ERROR => "p"
  | TypeKind.INFER => "p"
  | TypeKind.PLACEHOLDER => "p"
  | TypeKind.PARAM => "p"
  | TypeKind.TUPLE => v0_tuple_prefix m ty
  | TypeKind.UINT => v0_numeric_prefix m ty
  | TypeKind.INT => v0_numeric_prefix m ty
  | TypeKind.FLOAT => v0_numeric_prefix m ty
  | TypeKind.ISIZE => v0_numeric_prefix m ty
  | TypeKind.USIZE => v0_numeric_prefix m ty
  | TypeKind.OTHER => ""

/-- `v0_add_integer_62`; the value returned is `mangled` after the call. -/
def v0_add_integer_62 (m : MangleEnv) (mangled : String) (x : Nat) : String :=
  (if x > 0 then mangled ++ m.base62_integer (x - 1) else mangled) ++ "_"

/-- `v0_add_opt_integer_62`. -/
def v0_add_opt_integer_62 (m : MangleEnv) (mangled : String) (tag : String) (x : Nat) :
    String :=
  if x > 0 then v0_add_integer_62 m (mangled ++ tag) x else mangled

/-- `v0_add_disambiguator`. -/
def v0_add_disambiguator (m : MangleEnv) (mangled : String) (dis : Nat) : String :=
  v0_add_opt_integer_62 m mangled "s" dis

/-- `v0_add_identifier`; the value returned is `mangled` after the call. A
`String` is valid Unicode, so `make_utf8_string` has a value. -/
def v0_add_identifier (m : MangleEnv) (mangled : String) (identifier : String) :
    Outcome String :=
  match m.encode_punycode identifier with
  | none => Outcome.abort "punycode_opt.has_value ()"
  | some encoded =>
    let is_ascii_ident := identifier.data.all fun c => decide (c.val.toNat ≤ 127)
    let trimmed := if encoded.back = '-' then String.mk encoded.data.dropLast else encoded
    let punycode := String.mk (trimmed.data.map fun c => if c = '-' then '_' else c)
    let mangled1 := if is_ascii_ident then mangled else mangled ++ "u"
    let mangled2 := mangled1 ++ toString punycode.utf8ByteSize
    let mangled3 := if punycode.get 0 = '_' then mangled2 ++ "_" else mangled2
    Outcome.ok (mangled3 ++ punycode)

/-- `v0_type_prefix`. -/
def v0_type_prefix (m : MangleEnv) (ty : BaseType) : Outcome String :=
  let found := v0_simple_type_prefix m ty
  if found.isEmpty then Outcome.abort "rust_unreachable ()" else Outcome.ok found

/-- `legacy_mangle_item`. -/
def legacy_mangle_item (m : MangleEnv) (ty : BaseType) (path : CanonicalPath) :
    Outcome String :=
  let hash := legacy_hash m (m.mangle_string ty)
  (legacy_mangle_name hash).bind fun hash_sig =>
  (legacy_mangle_canonical_path path).bind fun mangled_path =>
  Outcome.ok (kMangledSymbolPrefix ++ mangled_path ++ hash_sig ++ kMangledSymbolDelim)

/-- `v0_mangle_item`: after the crate identifier, the disambiguator and the
type prefix, the function ends in `rust_unreachable ()`. -/
def v0_mangle_item (m : MangleEnv) (ty : BaseType) (path : CanonicalPath) :
    Outcome String :=
  match m.get_crate_name path.crate_num with
  | none => Outcome.abort "ok"
  | some crate_name =>
    (v0_add_identifier m "" crate_name).bind fun mangled =>
    let _mangled1 := v0_add_disambiguator m mangled 62
    ( v0_type_prefix m ty).bind fun _found =>
    Outcome.abort "rust_unreachable ()"

/-- `Mangler::mangle_item`, with the static `Mangler::version` as an argument. -/
def mangle_item (m : MangleEnv) (version : MangleVersion) (ty : BaseType)
    (path : CanonicalPath) : Outcome String :=
  match version with
  | MangleVersion.LEGACY => legacy_mangle_item m ty path
  | MangleVersion.V0 => v0_mangle_item m ty path

/-- Every colon of the characters is followed by a second colon, the pairs
counted from the left. -/
def colons_paired : List Char → Bool
  | [] => true
  | c :: rest =>
    if c = ':' then
      match rest with
      | [] => false
      | c1 :: rest1 => if c1 = ':' then colons_paired rest1 else false
    else colons_paired rest

/-- The escapes of single characters, as the specification lists them. -/
def legacy_escape_table : List (Char × String) :=
  [(' ', "$u20$"), ('&', "$RF$"), ('<', "$LT$"), ('>', "$GT$"), ('*', "$BP$"),
   ('[', "$u5b$"), (']', "$u5d$"), ('\x7b', "$u7b$"), ('\x7d', "$u7d$"), (',', "$C$")]

/-- The escape of the character `c` at index `i`, in the words of the
specification: a `<` at index 0 gives `_$LT$`, a character of the table its
entry, any other ASCII character itself, and a code point that is not ASCII
`$u`, its lowercase hexadecimal digits and `$`. -/
def legacy_escape (i : Nat) (c : Char) : String :=
  if i = 0 ∧ c = '<' then "_$LT$"
  else
    match legacy_escape_table.lookup c with
    | some escape => escape
    | none =>
      if c.val.toNat < 128 then String.singleton c
      else "$u" ++ String.mk (hex_digits c.val.toNat) ++ "$"

/-- The concatenation of the escapes of the characters from index `i` on, in
the words of the specification: two colons give two dots. -/
def legacy_escapes : List Char → Nat → String
  | [], _ => ""
  | [c], i => legacy_escape i c
  | c :: c1 :: rest1, i =>
    if c = ':' ∧ c1 = ':' then ".." ++ legacy_escapes rest1 (i + 2)
    else legacy_escape i c ++ legacy_escapes (c1 :: rest1) (i + 1)

/-- The words of the specification for `legacy_mangle_name`: the decimal byte
length of the escaped name, then the escaped name. -/
def legacy_mangle_name_spec (name : String) : String :=
  let b := legacy_escapes name.data 0
  toString b.utf8ByteSize ++ b

/-- A lowercase hexadecimal digit. -/
def is_lower_hex (c : Char) : Bool := "0123456789abcdef".data.contains c

/-- The punycode form of the specification: one trailing hyphen removed, the
remaining hyphens replaced by underscores. -/
def punycode_form (encoded : String) : String :=
  let chars :=
    if encoded.data.getLast? = some '-' then encoded.data.dropLast else encoded.data
  String.mk (chars.map fun c => if c = '-' then '_' else c)

/-- The words of the specification for `v0_add_identifier`: `u` when the
identifier has a code point that is not ASCII, the decimal length of the
punycode form, an extra underscore when that form starts with a digit or an
underscore, and the form. -/
def v0_add_identifier_spec (m : MangleEnv) (mangled : String) (identifier : String) :
    Outcome String :=
  match m.encode_punycode identifier with
  | none => Outcome.abort "punycode_opt.has_value ()"
  | some encoded =>
    let form := punycode_form encoded
    let u := if identifier.data.any (fun c => decide (127 < c.val.toNat)) then "u" else ""
    let extra :=
      match form.data.head? with
      | some c => if c.isDigit ∨ c = '_' then "_" else ""
      | none => ""
    Outcome.ok (mangled ++ u ++ toString form.utf8ByteSize ++ extra ++ form)

end Compile

/-! ## Sample programs -/

namespace Sample

open Resolver TyTy

def self_param (hirid : HirId) : HIR.GenericParam :=
  HIR.GenericParam.TYPE { hirid := hirid, type_representation := "Self", locus := hirid }

def t_param (hirid : HirId) : HIR.GenericParam :=
  HIR.GenericParam.TYPE { hirid := hirid, type_representation := "T", locus := hirid }

def path_to (nodeid : NodeId) : HIR.TypePath :=
  { nodeid := nodeid, locus := nodeid, generic_args := none }

/-- The declaration `trait Base { fn base (&self); }`. -/
def base_trait : HIR.Trait :=
  { defid := 1, locus := 100, generic_params := [self_param 50], type_param_bounds := []
    trait_items :=
      [{ kind := HIR.TraitItemKind.FUNC, name := "base", has_default := false,
         deferred_paths := [], locus := 101 }] }

/-- The declaration
`trait Derived<'a, T>: Base + 'a { type Out; fn run (&self) { .. Derived .. Base .. } }`,
whose default body names the trait itself and its super-trait. -/
def derived_trait : HIR.Trait :=
  { defid := 2, locus := 200
    generic_params := [HIR.GenericParam.LIFETIME 59, self_param 60, t_param 61]
    type_param_bounds :=
      [HIR.TypeParamBound.TRAITBOUND (path_to 10) 201, HIR.TypeParamBound.LIFETIME 202]
    trait_items :=
      [{ kind := HIR.TraitItemKind.TYPE, name := "Out", has_default := false,
         deferred_paths := [], locus := 203 },
       { kind := HIR.TraitItemKind.FUNC, name := "run", has_default := true,
         deferred_paths := [path_to 11, path_to 10], locus := 204 }] }

/-- A crate with `Base` (path 10) and `Derived` (path 11). Path 12 has no
resolved node id, path 13 a node id with no HIR mapping, and path 14 an HIR id
under which the declaration store holds nothing. -/
def crate : Env :=
  { lookup_resolved_type := fun n =>
      if n = 10 then some 20 else if n = 11 then some 21 else if n = 13 then some 23
      else if n = 14 then some 24 else none
    lookup_node_to_hir := fun n =>
      if n = 20 then some 30 else if n = 21 then some 31 else if n = 24 then some 34
      else none
    lookup_hir_item := fun h =>
      if h = 30 then some base_trait else if h = 31 then some derived_trait else none }

/-- The declaration `trait A: A {}`. -/
def a_trait : HIR.Trait :=
  { defid := 1, locus := 100, generic_params := [self_param 50]
    type_param_bounds := [HIR.TypeParamBound.TRAITBOUND (path_to 10) 101]
    trait_items := [] }

/-- The declarations `trait B: C {}` and `trait C: B {}`. -/
def b_trait : HIR.Trait :=
  { defid := 2, locus := 200, generic_params := [self_param 60]
    type_param_bounds := [HIR.TypeParamBound.TRAITBOUND (path_to 12) 201]
    trait_items := [] }

def c_trait : HIR.Trait :=
  { defid := 3, locus := 300, generic_params := [self_param 70]
    type_param_bounds := [HIR.TypeParamBound.TRAITBOUND (path_to 11) 301]
    trait_items := [] }

/-- A crate with `trait A: A {}` (path 10), `trait B: C {}` (path 11) and
`trait C: B {}` (path 12). -/
def cyclic_crate : Env :=
  { lookup_resolved_type := fun n =>
      if n = 10 then some 20 else if n = 11 then some 21 else if n = 12 then some 22
      else none
    lookup_node_to_hir := fun n =>
      if n = 20 then some 30 else if n = 21 then some 31 else if n = 22 then some 32
      else none
    lookup_hir_item := fun h =>
      if h = 30 then some a_trait else if h = 31 then some b_trait
      else if h = 32 then some c_trait else none }

/-- The declaration `trait Bad: Missing {}`, the path of whose bound (15) does
not resolve. -/
def bad_trait : HIR.Trait :=
  { defid := 4, locus := 400, generic_params := [self_param 80]
    type_param_bounds := [HIR.TypeParamBound.TRAITBOUND (path_to 15) 401]
    trait_items := [] }

/-- A declaration whose generic parameters list `T` before `Self`. -/
def late_self_trait : HIR.Trait :=
  { defid := 5, locus := 500, generic_params := [t_param 90, self_param 91]
    type_param_bounds := [], trait_items := [] }

/-- A crate with `Bad` (path 16) and the declaration with a late `Self`
(path 17); path 15 does not resolve. -/
def odd_crate : Env :=
  { lookup_resolved_type := fun n =>
      if n = 16 then some 26 else if n = 17 then some 27 else none
    lookup_node_to_hir := fun n =>
      if n = 26 then some 36 else if n = 27 then some 37 else none
    lookup_hir_item := fun h =>
      if h = 36 then some bad_trait else if h = 37 then some late_self_trait else none }

/-! The outcome of resolving `Base` and then `Derived` in `crate`, starting
from the empty state. -/

def base_self : BaseType := BaseType.ParamType 50 "Self"

def base_substs : List SubstitutionParamMapping :=
  [{ generic := { hirid := 50, type_representation := "Self", locus := 50 }
     param := base_self }]

def base_reference : TraitReference :=
  { hir_trait_ref := some base_trait
    item_refs :=
      [{ identifier := "base", optional_flag := false, type := TraitItemType.FN
         hir_trait_item :=
           some { kind := HIR.TraitItemKind.FUNC, name := "base", has_default := false,
                  deferred_paths := [], locus := 101 }
         self := some base_self, inherited_substitutions := base_substs, locus := 101 }]
    super_traits := []
    trait_substs := base_substs }

def base_events : List Event :=
  [Event.insert_type 50 base_self,
   Event.inherit_bounds base_self
     [{ substitutions := [], used_arguments := SubstitutionArgumentMappings.error,
        reference := 1, locus := 100, error_flag := false }],
   Event.resolve_trait_item "base",
   Event.on_resolved 1]

def base_state : State :=
  { trait_context := [(1, base_reference)], events := base_events }

def derived_self : BaseType := BaseType.ParamType 60 "Self"

def derived_substs : List SubstitutionParamMapping :=
  [{ generic := { hirid := 60, type_representation := "Self", locus := 60 }
     param := derived_self },
   { generic := { hirid := 61, type_representation := "T", locus := 61 }
     param := BaseType.ParamType 61 "T" }]

def derived_bounds : List TypeBoundPredicate :=
  [{ substitutions := [], used_arguments := SubstitutionArgumentMappings.error,
     reference := 2, locus := 200, error_flag := false },
   { substitutions := base_substs
     used_arguments := { mappings := [{ param := 0, argument := none }], locus := 0 }
     reference := 1, locus := 201, error_flag := false }]

def derived_reference : TraitReference :=
  { hir_trait_ref := some derived_trait
    item_refs :=
      [{ identifier := "Out", optional_flag := false, type := TraitItemType.TYPE
         hir_trait_item :=
           some { kind := HIR.TraitItemKind.TYPE, name := "Out", has_default := false,
                  deferred_paths := [], locus := 203 }
         self := some derived_self, inherited_substitutions := derived_substs
         locus := 203 },
       { identifier := "run", optional_flag := true, type := TraitItemType.FN
         hir_trait_item :=
           some { kind := HIR.TraitItemKind.FUNC, name := "run", has_default := true,
                  deferred_paths := [path_to 11, path_to 10], locus := 204 }
         self := some derived_self, inherited_substitutions := derived_substs
         locus := 204 }]
    super_traits := [1]
    trait_substs := derived_substs }

/-- The state in which the hook of `Derived` is invoked. -/
def derived_hook_state : State :=
  { trait_context := [(2, derived_reference), (1, base_reference)]
    events :=
      [Event.insert_type 60 derived_self,
       Event.insert_type 61 (BaseType.ParamType 61 "T")] ++ base_events ++
      [Event.inherit_bounds derived_self derived_bounds,
       Event.resolve_trait_item "Out",
       Event.resolve_trait_item "run"] }

def derived_state : State :=
  derived_hook_state.emit (Event.on_resolved 2)

/-- A use site `Derived<X>`: one type argument. -/
def one_arg : HIR.GenericArgs :=
  { type_args := [{ hirid := 300, name := "X" }], locus := 301 }

/-- The predicate of `Derived<X>`: the predicate built from the reference of
`Derived` after `apply_generic_arguments` with the one argument. -/
def derived_applied : TypeBoundPredicate :=
  { substitutions := derived_substs
    used_arguments :=
      { mappings :=
          [{ param := 0, argument := none },
           { param := 1, argument := some (BaseType.Other 300 "X") }]
        locus := 301 }
    reference := 2
    locus := 7
    error_flag := false }

/-- A use site `Derived<X, Y>`: two type arguments. -/
def two_args : HIR.GenericArgs :=
  { type_args := [{ hirid := 300, name := "X" }, { hirid := 302, name := "Y" }]
    locus := 301 }

/-! A trait with two parameters besides the receiver, and items of the three
kinds. -/

def named_param (hirid : HirId) (name : String) : HIR.GenericParam :=
  HIR.GenericParam.TYPE { hirid := hirid, type_representation := name, locus := hirid }

def arity_item : HIR.TraitItem :=
  { kind := HIR.TraitItemKind.CONST, name := "ARITY", has_default := true,
    deferred_paths := [], locus := 601 }

def call_item : HIR.TraitItem :=
  { kind := HIR.TraitItemKind.FUNC, name := "call", has_default := false,
    deferred_paths := [], locus := 602 }

def output_item : HIR.TraitItem :=
  { kind := HIR.TraitItemKind.TYPE, name := "Output", has_default := false,
    deferred_paths := [], locus := 603 }

/-- The declaration
`trait FnLike<A, B> { const ARITY: usize = 1; fn call (&self, a: A) -> B; type Output; }`. -/
def fnlike_trait : HIR.Trait :=
  { defid := 6, locus := 600
    generic_params := [self_param 100, named_param 101 "A", named_param 102 "B"]
    type_param_bounds := []
    trait_items := [arity_item, call_item, output_item] }

/-- The declaration `trait NoSelf<T> {}` as it would be without its receiver
parameter. -/
def no_self_trait : HIR.Trait :=
  { defid := 7, locus := 700, generic_params := [HIR.GenericParam.LIFETIME 109, t_param 110]
    type_param_bounds := [], trait_items := [] }

/-- A crate with `FnLike` (path 30) and `NoSelf` (path 31). -/
def fn_crate : Env :=
  { lookup_resolved_type := fun n =>
      if n = 30 then some 40 else if n = 31 then some 41 else none
    lookup_node_to_hir := fun n =>
      if n = 40 then some 50 else if n = 41 then some 51 else none
    lookup_hir_item := fun h =>
      if h = 50 then some fnlike_trait else if h = 51 then some no_self_trait else none }

def fnlike_self : BaseType := BaseType.ParamType 100 "Self"

def fnlike_substs : List SubstitutionParamMapping :=
  [{ generic := { hirid := 100, type_representation := "Self", locus := 100 }
     param := fnlike_self },
   { generic := { hirid := 101, type_representation := "A", locus := 101 }
     param := BaseType.ParamType 101 "A" },
   { generic := { hirid := 102, type_representation := "B", locus := 102 }
     param := BaseType.ParamType 102 "B" }]

def arity_ref : TraitItemReference :=
  { identifier := "ARITY", optional_flag := true, type := TraitItemType.CONST
    hir_trait_item := some arity_item, self := some fnlike_self
    inherited_substitutions := fnlike_substs, locus := 601 }

def call_ref : TraitItemReference :=
  { identifier := "call", optional_flag := false, type := TraitItemType.FN
    hir_trait_item := some call_item, self := some fnlike_self
    inherited_substitutions := fnlike_substs, locus := 602 }

def output_ref : TraitItemReference :=
  { identifier := "Output", optional_flag := false, type := TraitItemType.TYPE
    hir_trait_item := some output_item, self := some fnlike_self
    inherited_substitutions := fnlike_substs, locus := 603 }

def fnlike_reference : TraitReference :=
  { hir_trait_ref := some fnlike_trait
    item_refs := [arity_ref, call_ref, output_ref]
    super_traits := []
    trait_substs := fnlike_substs }

/-- The state after resolving `FnLike` from the empty state. -/
def fnlike_state : State :=
  { trait_context := [(6, fnlike_reference)]
    events :=
      [Event.insert_type 100 fnlike_self,
       Event.insert_type 101 (BaseType.ParamType 101 "A"),
       Event.insert_type 102 (BaseType.ParamType 102 "B"),
       Event.inherit_bounds fnlike_self
         [{ substitutions := [], used_arguments := SubstitutionArgumentMappings.error,
            reference := 6, locus := 600, error_flag := false }],
       Event.resolve_trait_item "ARITY",
       Event.resolve_trait_item "call",
       Event.resolve_trait_item "Output",
       Event.on_resolved 6] }

/-- The predicate of `FnLike` as the constructor leaves it. -/
def fnlike_predicate : TypeBoundPredicate :=
  TypeBoundPredicate.from_trait_reference fnlike_reference 7

/-- The predicate of `FnLike<X, Y>`. -/
def fnlike_applied : TypeBoundPredicate :=
  { substitutions := fnlike_substs
    used_arguments :=
      { mappings :=
          [{ param := 0, argument := none },
           { param := 1, argument := some (BaseType.Other 300 "X") },
           { param := 2, argument := some (BaseType.Other 302 "Y") }]
        locus := 301 }
    reference := 6
    locus := 7
    error_flag := false }

/-- The predicate of `Base` with its error flag set. -/
def flagged_predicate : TypeBoundPredicate :=
  { TypeBoundPredicate.from_trait_reference base_reference 7 with error_flag := true }

/-- Collaborators for the samples: the enumerators of `TraitItemType` have
the values of the declaration order `FN, CONST, TYPE, ERROR`, the type of an
item is a type named after it, and specialization wraps the type in a type
that records the receiver bound in slot 0. -/
def queries : Collaborators :=
  { trait_as_string := fun r => toString r.get_defid
    subst_as_string := fun p => toString p.used_arguments.size
    trait_nodeid := fun r => r.get_defid + 1000
    lookup_canonical_path := fun n => if n = 1001 then some "example::Base" else none
    trait_get_name := fun r => toString r.get_defid
    trait_is_object_safe := fun _ _ _ => true
    get_tyty := fun i => BaseType.Other i.locus i.identifier
    enumerator := fun t =>
      match t with
      | TraitItemType.FN => 0
      | TraitItemType.CONST => 1
      | TraitItemType.TYPE => 2
      | TraitItemType.ERROR => 3
    specialize := fun ty m =>
      match ty, m.mappings with
      | BaseType.Other ref name, { param := _, argument := some (BaseType.Other _ r) } :: _ =>
        BaseType.Other ref (name ++ " for " ++ r)
      | _, _ => ty }

/-- A receiver type `Point`. -/
def point : BaseType := BaseType.Other 400 "Point"

/-! Impl blocks for the bound probe, with `Point` as the receiver. -/

def impl_point : HIR.ImplBlock :=
  { hirid := 500, trait_ref := some (path_to 10), type_hirid := 510 }

def impl_inherent : HIR.ImplBlock :=
  { hirid := 501, trait_ref := none, type_hirid := 510 }

def impl_generic : HIR.ImplBlock :=
  { hirid := 502, trait_ref := some (path_to 10), type_hirid := 511 }

def impl_untyped : HIR.ImplBlock :=
  { hirid := 503, trait_ref := some (path_to 10), type_hirid := 513 }

def impl_line : HIR.ImplBlock :=
  { hirid := 504, trait_ref := some (path_to 10), type_hirid := 514 }

def impl_missing : HIR.ImplBlock :=
  { hirid := 505, trait_ref := some (path_to 12), type_hirid := 510 }

def impl_point_again : HIR.ImplBlock :=
  { hirid := 506, trait_ref := some (path_to 10), type_hirid := 510 }

/-- The impl blocks `impl Base for Point`, `impl Point`, `impl<T> Base for T`,
an impl of `Base` whose `Self` type has no type-checked type, `impl Base for
Line`, an impl for `Point` of a trait whose path does not resolve, and a second
`impl Base for Point`. Here `can_eq (a, b)` holds when the types are the same
or `a` is a type parameter: for the receiver `Point` and the impl type `T` it
fails from the receiver and holds from the impl type. -/
def probe : ProbeEnv :=
  { impl_blocks :=
      [impl_point, impl_inherent, impl_generic, impl_untyped, impl_line, impl_missing,
       impl_point_again]
    lookup_type := fun h =>
      if h = 510 then some point else if h = 511 then some (BaseType.ParamType 512 "T")
      else if h = 514 then some (BaseType.Other 401 "Line") else none
    can_eq := fun a b _ =>
      match a with
      | BaseType.ParamType _ _ => true
      | BaseType.Other _ _ => decide (a = b) }

/-! Collaborators of the mangler for the samples. -/

/-- The FNV-1a hash of 128 bits over the given bytes. -/
def fnv1a_128 (bytes : List Nat) : Nat :=
  bytes.foldl
    (fun h b => ((h ^^^ b) * 0x0000000001000000000000000000013B) % 2 ^ 128)
    0x6c62272e07bb014262b821756295c58d

/-- The digits of `base62_integer`, the least significant first. -/
def base62_digits : Nat → Nat → List Char
  | 0, _ => []
  | fuel + 1, value =>
    "0123456789abcdefghijklmnopqrstuvwxyzABCDEFGHIJKLMNOPQRSTUVWXYZ".data.getD
        (value % 62) '0' ::
      (if value / 62 = 0 then [] else base62_digits fuel (value / 62))

/-- Sample collaborators: FNV-1a over the characters of an ASCII fingerprint,
types whose kind is `PARAM` for a type parameter and is not named otherwise, the
crate `example` as crate 0, punycode of an ASCII identifier (the identifier
and the delimiter), and the base-62 digits. -/
def mangle_env : Compile.MangleEnv :=
  { fnv128_sum := fun fingerprint =>
      let h := fnv1a_128 (fingerprint.data.map fun c => c.val.toNat)
      (h / 2 ^ 64, h % 2 ^ 64)
    mangle_string := fun ty =>
      match ty with
      | BaseType.ParamType _ symbol => symbol
      | BaseType.Other _ name => name
    get_kind := fun ty =>
      match ty with
      | BaseType.ParamType _ _ => Compile.TypeKind.PARAM
      | BaseType.Other _ _ => Compile.TypeKind.OTHER
    is_unit := fun _ => false
    as_string := fun ty =>
      match ty with
      | BaseType.ParamType _ symbol => symbol
      | BaseType.Other _ name => name
    get_crate_name := fun n => if n = 0 then some "example" else none
    encode_punycode := fun identifier =>
      if identifier.data.all (fun c => decide (c.val.toNat < 128)) then some (identifier ++ "-")
      else none
    base62_integer := fun value => String.mk (base62_digits (value + 1) value).reverse }

/-- The canonical path `example::Foo<T>::new`. -/
def new_path : Compile.CanonicalPath :=
  { segs := [(1, "example"), (2, "Foo<T>"), (3, "new")], crate_num := 0 }

/-- A canonical path with a segment name in which a colon stands alone. -/
def lone_colon_path : Compile.CanonicalPath :=
  { segs := [(1, "example"), (2, "a:b")], crate_num := 0 }

/-- The use site `Base<X>`: a path to `Base` with one explicit argument. -/
def base_with_arg : HIR.TypePath :=
  { nodeid := 10, locus := 10, generic_args := some one_arg }

/-- The use site `FnLike<X, Y>`. -/
def fnlike_with_args : HIR.TypePath :=
  { nodeid := 30, locus := 30, generic_args := some two_args }

end Sample

/-! ## Basic facts -/

namespace Outcome

theorem bind_eq_ok {α β : Type} {x : Outcome α} {f : α → Outcome β} {b : β} :
    x.bind f = ok b ↔ ∃ a, x = ok a ∧ f a = ok b := by
  cases x <;> simp [bind]

theorem bind_ok {α β : Type} (a : α) (f : α → Outcome β) : (ok a).bind f = f a := rfl

theorem bind_out_of_fuel {α β : Type} (f : α → Outcome β) :
    (out_of_fuel : Outcome α).bind f = out_of_fuel := rfl

theorem bind_abort {α β : Type} (m : String) (f : α → Outcome β) :
    (abort m : Outcome α).bind f = abort m := rfl

end Outcome

namespace TyTy

open Resolver

namespace TypeBoundPredicate

theorem copy_mappings_length (substs : List SubstitutionParamMapping) :
    ∀ (oas : List SubstitutionArg) (i : Nat) (acc m : List SubstitutionArg),
      copy_mappings substs oas i acc = Outcome.ok m → m.length = acc.length + oas.length := by
  intro oas
  induction oas with
  | nil =>
    intro i acc m h
    simp only [copy_mappings, Outcome.ok.injEq] at h
    subst h
    simp
  | cons oa rest ih =>
    intro i acc m h
    simp only [copy_mappings] at h
    split at h
    · have := ih _ _ _ h
      simp only [List.length_append, List.length_singleton] at this
      simp only [List.length_cons]
      omega
    · cases h

theorem copy_mappings_ok (substs : List SubstitutionParamMapping) :
    ∀ (oas : List SubstitutionArg) (i : Nat) (acc : List SubstitutionArg),
      i + oas.length ≤ substs.length → ∃ m, copy_mappings substs oas i acc = Outcome.ok m := by
  intro oas
  induction oas with
  | nil => intro i acc _; exact ⟨acc, rfl⟩
  | cons oa rest ih =>
    intro i acc h
    simp only [List.length_cons] at h
    have hi : i < substs.length := by omega
    simp only [copy_mappings, hi, if_true]
    exact ih _ _ (by omega)

theorem copy_mappings_eq (substs : List SubstitutionParamMapping) :
    ∀ (oas : List SubstitutionArg) (i : Nat) (acc m : List SubstitutionArg),
      copy_mappings substs oas i acc = Outcome.ok m →
        m = acc ++ rebuilt_mappings oas i ∧ (oas ≠ [] → i + oas.length ≤ substs.length) := by
  intro oas
  induction oas with
  | nil =>
    intro i acc m h
    simp only [copy_mappings, Outcome.ok.injEq] at h
    subst h
    simp [rebuilt_mappings]
  | cons oa rest ih =>
    intro i acc m h
    simp only [copy_mappings] at h
    split at h
    · rename_i hi
      obtain ⟨h1, h2⟩ := ih _ _ _ h
      refine ⟨by simp [h1, rebuilt_mappings], fun _ => ?_⟩
      simp only [List.length_cons]
      by_cases hr : rest = []
      · subst hr
        simp only [List.length_nil]
        omega
      · have := h2 hr
        omega
    · cases h

theorem copy_mappings_of_fit (substs : List SubstitutionParamMapping) :
    ∀ (oas : List SubstitutionArg) (i : Nat) (acc : List SubstitutionArg),
      (oas ≠ [] → i + oas.length ≤ substs.length) →
        copy_mappings substs oas i acc = Outcome.ok (acc ++ rebuilt_mappings oas i) := by
  intro oas
  induction oas with
  | nil => intro i acc _; simp [copy_mappings, rebuilt_mappings]
  | cons oa rest ih =>
    intro i acc h
    have hfit := h (List.cons_ne_nil _ _)
    simp only [List.length_cons] at hfit
    have hi : i < substs.length := by omega
    simp only [copy_mappings, hi, if_true]
    rw [ih _ _ (fun _ => by omega)]
    simp [rebuilt_mappings]

theorem rebuilt_mappings_length :
    ∀ (oas : List SubstitutionArg) (i : Nat), (rebuilt_mappings oas i).length = oas.length := by
  intro oas
  induction oas with
  | nil => intro i; rfl
  | cons oa rest ih => intro i; simp [rebuilt_mappings, ih]

theorem rebuilt_mappings_idem :
    ∀ (oas : List SubstitutionArg) (i : Nat),
      rebuilt_mappings (rebuilt_mappings oas i) i = rebuilt_mappings oas i := by
  intro oas
  induction oas with
  | nil => intro i; rfl
  | cons oa rest ih =>
    intro i
    simp only [rebuilt_mappings, ih, List.cons.injEq, and_true]
    cases oa.argument <;> rfl

theorem map_clone_idem (substs : List SubstitutionParamMapping) :
    (substs.map SubstitutionParamMapping.clone).map SubstitutionParamMapping.clone =
      substs.map SubstitutionParamMapping.clone := by
  simp only [List.map_map]
  rfl

/-- Copying a copy, in a state that still holds the cache entries of the state
in which the copy was made, gives the copy again: the later copies that
`std::vector` and `inherit_bounds` make of an element of `specified_bounds`
change nothing. -/
theorem copy_copy {s1 s2 : State} {x c : TypeBoundPredicate}
    (h : copy s1 x = Outcome.ok c) (hle : s1.le s2) : copy s2 c = Outcome.ok c := by
  unfold copy at h
  split at h
  · simp only [Outcome.ok.injEq] at h
    subst h
    unfold copy
    split
    · rfl
    · simp [copy_mappings, SubstitutionArgumentMappings.error, Outcome.bind_ok]
  · rename_i hne
    simp only [Outcome.bind_eq_ok, Outcome.ok.injEq] at h
    obtain ⟨m, hm, h⟩ := h
    subst h
    obtain ⟨hm1, hfit⟩ := copy_mappings_eq _ _ _ _ _ hm
    simp only [List.nil_append] at hm1
    subst hm1
    have hcached : ∃ r, s1.lookup_trait_reference x.reference = some r ∧ x.error_flag = false := by
      cases hc : s1.lookup_trait_reference x.reference with
      | none => simp [is_error, hc] at hne
      | some r =>
        refine ⟨r, rfl, ?_⟩
        simpa [is_error, hc] using hne
    obtain ⟨r, hr, hflag⟩ := hcached
    have hne2 : is_error s2
        { substitutions := x.substitutions.map SubstitutionParamMapping.clone
          used_arguments :=
            { mappings := rebuilt_mappings x.used_arguments.mappings 0
              locus := x.used_arguments.locus }
          reference := x.reference
          locus := x.locus
          error_flag := x.error_flag } = false := by
      simp [is_error, hle _ _ hr, hflag]
    have hfit2 : rebuilt_mappings x.used_arguments.mappings 0 ≠ [] →
        0 + (rebuilt_mappings x.used_arguments.mappings 0).length ≤
          ((x.substitutions.map SubstitutionParamMapping.clone).map
            SubstitutionParamMapping.clone).length := by
      intro hnil
      have hx : x.used_arguments.mappings ≠ [] := by
        intro e
        rw [e] at hnil
        exact hnil rfl
      have := hfit hx
      simp only [rebuilt_mappings_length, List.length_map] at this ⊢
      exact this
    unfold copy
    simp only [hne2, Bool.false_eq_true, if_false]
    rw [copy_mappings_of_fit _ _ _ _ hfit2]
    simp only [Outcome.bind_ok, List.nil_append, rebuilt_mappings_idem, map_clone_idem]

theorem copy_reference {s : State} {other c : TypeBoundPredicate}
    (h : copy s other = Outcome.ok c) : c.reference = other.reference := by
  unfold copy at h
  split at h
  · simp only [Outcome.ok.injEq] at h
    subst h
    rfl
  · simp only [Outcome.bind_eq_ok, Outcome.ok.injEq] at h
    obtain ⟨m, _, h⟩ := h
    subst h
    rfl

theorem bind_type_args_length :
    ∀ (args : List HIR.Ty) (offs : Nat), (bind_type_args args offs).length = args.length := by
  intro args
  induction args with
  | nil => intro offs; rfl
  | cons a rest ih => intro offs; simp [bind_type_args, ih]

/-- Assignment overwrites every member of `this`: it gives what copy
construction gives. -/
theorem assign_eq_copy (s : State) (this other : TypeBoundPredicate) :
    assign s this other = copy s other := by
  unfold assign copy
  split <;> rfl

end TypeBoundPredicate

end TyTy

namespace Resolver

open TyTy

namespace State

theorem lookup_emit (s : State) (e : Event) (d : DefId) :
    (s.emit e).lookup_trait_reference d = s.lookup_trait_reference d := rfl

theorem trait_context_emit (s : State) (e : Event) :
    (s.emit e).trait_context = s.trait_context := rfl

theorem lookup_insert_self (s : State) (d : DefId) (r : TraitReference) :
    (s.insert_trait_reference d r).lookup_trait_reference d = some r := by
  simp [insert_trait_reference, lookup_trait_reference, lookup_entry]

theorem lookup_insert_other (s : State) (d k : DefId) (r : TraitReference) (h : d ≠ k) :
    (s.insert_trait_reference d r).lookup_trait_reference k = s.lookup_trait_reference k := by
  simp [insert_trait_reference, lookup_trait_reference, lookup_entry, h]

theorem lookup_of_trait_context_eq {s s1 : State} (h : s1.trait_context = s.trait_context)
    (d : DefId) : s1.lookup_trait_reference d = s.lookup_trait_reference d := by
  simp [lookup_trait_reference, h]

theorem le_refl (s : State) : s.le s := fun _ _ h => h

theorem le_trans {a b c : State} (h1 : a.le b) (h2 : b.le c) : a.le c :=
  fun d r h => h2 d r (h1 d r h)

theorem le_of_trait_context_eq {s s1 : State} (h : s1.trait_context = s.trait_context) :
    s.le s1 := by
  intro d r hd
  rw [lookup_of_trait_context_eq h]
  exact hd

theorem wf_empty : State.empty.wf := by
  intro d r h
  simp [State.empty, lookup_trait_reference, lookup_entry] at h

theorem wf_of_trait_context_eq {s s1 : State} (h : s1.trait_context = s.trait_context)
    (hw : s.wf) : s1.wf := by
  intro d r hd
  rw [lookup_of_trait_context_eq h] at hd
  exact hw d r hd

theorem wf_insert {s : State} (hw : s.wf) (d : DefId) (r : TraitReference)
    (hr : r.get_defid = d) : (s.insert_trait_reference d r).wf := by
  intro k x hk
  by_cases hdk : d = k
  · subst hdk
    rw [lookup_insert_self] at hk
    cases hk
    exact hr
  · rw [lookup_insert_other _ _ _ _ hdk] at hk
    exact hw k x hk

theorem events_insert (s : State) (d : DefId) (r : TraitReference) :
    (s.insert_trait_reference d r).events = s.events := rfl

theorem later_refl (s : State) : s.later s :=
  ⟨le_refl s, id, List.prefix_refl _⟩

theorem later_trans {a b c : State} (h1 : a.later b) (h2 : b.later c) : a.later c :=
  ⟨le_trans h1.1 h2.1, fun hw => h2.2.1 (h1.2.1 hw), List.IsPrefix.trans h1.2.2 h2.2.2⟩

theorem later_emit (s : State) (e : Event) : s.later (s.emit e) :=
  ⟨le_of_trait_context_eq rfl, wf_of_trait_context_eq rfl, List.prefix_append _ _⟩

end State

theorem resolve_paths_later {env : Env} {f : ResolveFn} (hf : Sound env f) :
    ∀ (ps : List HIR.TypePath) (s s1 : State),
      resolve_paths f ps s = Outcome.ok s1 → s.later s1 := by
  intro ps
  induction ps with
  | nil =>
    intro s s1 h
    simp only [resolve_paths, Outcome.ok.injEq] at h
    subst h
    exact State.later_refl _
  | cons p rest ih =>
    intro s s1 h
    simp only [resolve_paths, Outcome.bind_eq_ok] at h
    obtain ⟨⟨r, s2⟩, h1, h2⟩ := h
    exact State.later_trans (hf p s r s2 h1).1 (ih s2 s1 h2)

theorem items_on_resolved_later {env : Env} {f : ResolveFn} (hf : Sound env f) :
    ∀ (items : List TraitItemReference) (s s1 : State),
      items_on_resolved f items s = Outcome.ok s1 → s.later s1 := by
  intro items
  induction items with
  | nil =>
    intro s s1 h
    simp only [items_on_resolved, Outcome.ok.injEq] at h
    subst h
    exact State.later_refl _
  | cons item rest ih =>
    intro s s1 h
    simp only [items_on_resolved, Outcome.bind_eq_ok] at h
    obtain ⟨s2, h1, h2⟩ := h
    have hitem : s.later s2 := by
      unfold TraitItemReference.on_resolved at h1
      split at h1
      · simp only [Outcome.ok.injEq] at h1
        subst h1
        exact State.later_refl _
      · exact resolve_paths_later hf _ _ _ h1
    exact State.later_trans hitem (ih s2 s1 h2)

theorem on_resolved_later {env : Env} {f : ResolveFn} (hf : Sound env f)
    (tref : TraitReference) (s s1 : State)
    (h : tref.on_resolved f s = Outcome.ok s1) : s.later s1 := by
  unfold TraitReference.on_resolved at h
  exact State.later_trans (State.later_emit _ _) (items_on_resolved_later hf _ _ _ h)

namespace TraitResolver

theorem generic_params_loop_trait_context :
    ∀ (gps : List HIR.GenericParam) (self : Option BaseType)
      (substs : List SubstitutionParamMapping) (s : State),
      (generic_params_loop gps self substs s).2.2.trait_context = s.trait_context := by
  intro gps
  induction gps with
  | nil => intro self substs s; rfl
  | cons g rest ih =>
    intro self substs s
    cases g with
    | LIFETIME h => simpa [generic_params_loop] using ih self substs s
    | TYPE tp =>
      simp only [generic_params_loop]
      rw [ih]
      rfl

theorem generic_params_loop_later :
    ∀ (gps : List HIR.GenericParam) (self : Option BaseType)
      (substs : List SubstitutionParamMapping) (s : State),
      s.later (generic_params_loop gps self substs s).2.2 := by
  intro gps
  induction gps with
  | nil => intro self substs s; exact State.later_refl _
  | cons g rest ih =>
    intro self substs s
    cases g with
    | LIFETIME h => simpa [generic_params_loop] using ih self substs s
    | TYPE tp =>
      simp only [generic_params_loop]
      exact State.later_trans (State.later_emit _ _) (ih _ _ _)

theorem generic_params_loop_substs :
    ∀ (gps : List HIR.GenericParam) (self : Option BaseType)
      (substs : List SubstitutionParamMapping) (s : State),
      (generic_params_loop gps self substs s).2.1 =
        substs ++ (type_params gps).map mapping_of := by
  intro gps
  induction gps with
  | nil => intro self substs s; simp [generic_params_loop, type_params]
  | cons g rest ih =>
    intro self substs s
    cases g with
    | LIFETIME h => simpa [generic_params_loop, type_params] using ih self substs s
    | TYPE tp =>
      simp only [generic_params_loop, type_params]
      rw [ih]
      simp [mapping_of]

theorem generic_params_loop_self_kept :
    ∀ (gps : List HIR.GenericParam) (self : Option BaseType)
      (substs : List SubstitutionParamMapping) (s : State),
      (∀ q ∈ type_params gps, q.type_representation ≠ "Self") →
        (generic_params_loop gps self substs s).1 = self := by
  intro gps
  induction gps with
  | nil => intro self substs s _; rfl
  | cons g rest ih =>
    intro self substs s hq
    cases g with
    | LIFETIME h =>
      simp only [generic_params_loop]
      exact ih self substs s (by simpa [type_params] using hq)
    | TYPE tp =>
      simp only [type_params, List.mem_cons, forall_eq_or_imp] at hq
      simp only [generic_params_loop, hq.1, if_false]
      exact ih _ _ _ hq.2

theorem generic_params_loop_self_first :
    ∀ (gps : List HIR.GenericParam) (self : Option BaseType)
      (substs : List SubstitutionParamMapping) (s : State) (tp : HIR.TypeParam)
      (rest : List HIR.TypeParam),
      type_params gps = tp :: rest → tp.type_representation = "Self" →
      (∀ q ∈ rest, q.type_representation ≠ "Self") →
        (generic_params_loop gps self substs s).1 =
          some (TypeResolveGenericParam.Resolve tp) := by
  intro gps
  induction gps with
  | nil => intro self substs s tp rest h; simp [type_params] at h
  | cons g more ih =>
    intro self substs s tp rest h hself hrest
    cases g with
    | LIFETIME l =>
      simp only [generic_params_loop]
      exact ih self substs s tp rest (by simpa [type_params] using h) hself hrest
    | TYPE tp1 =>
      simp only [type_params, List.cons.injEq] at h
      obtain ⟨h1, h2⟩ := h
      subst h1
      simp only [generic_params_loop, hself, if_true]
      exact generic_params_loop_self_kept more _ _ _ (by rw [h2]; exact hrest)

theorem trait_items_loop_trait_context (self : BaseType)
    (substs : List SubstitutionParamMapping) :
    ∀ (items : List HIR.TraitItem) (acc : List TraitItemReference) (s : State),
      (trait_items_loop self substs items acc s).2.trait_context = s.trait_context := by
  intro items
  induction items with
  | nil => intro acc s; rfl
  | cons item rest ih =>
    intro acc s
    simp only [trait_items_loop]
    rw [ih]
    rfl

theorem trait_items_loop_later (self : BaseType)
    (substs : List SubstitutionParamMapping) :
    ∀ (items : List HIR.TraitItem) (acc : List TraitItemReference) (s : State),
      s.later (trait_items_loop self substs items acc s).2 := by
  intro items
  induction items with
  | nil => intro acc s; exact State.later_refl _
  | cons item rest ih =>
    intro acc s
    simp only [trait_items_loop]
    exact State.later_trans (State.later_emit _ _) (ih _ _)

theorem trait_items_loop_refs (self : BaseType) (substs : List SubstitutionParamMapping) :
    ∀ (items : List HIR.TraitItem) (acc : List TraitItemReference) (s : State),
      (trait_items_loop self substs items acc s).1 =
        acc ++ items.map fun item =>
          ResolveTraitItemToRef.Resolve item self
            (substs.map SubstitutionParamMapping.clone) := by
  intro items
  induction items with
  | nil => intro acc s; simp [trait_items_loop]
  | cons item rest ih =>
    intro acc s
    simp only [trait_items_loop]
    rw [ih]
    simp

theorem super_traits_loop_later {env : Env} {f : ResolveFn} (hf : Sound env f) :
    ∀ (bs : List HIR.TypeParamBound) (sb sb1 : List TypeBoundPredicate)
      (st st1 : List DefId) (s s1 : State),
      super_traits_loop f bs sb st s = Outcome.ok (sb1, st1, s1) → s.later s1 := by
  intro bs
  induction bs with
  | nil =>
    intro sb sb1 st st1 s s1 h
    simp only [super_traits_loop, Outcome.ok.injEq, Prod.mk.injEq] at h
    obtain ⟨_, _, h3⟩ := h
    subst h3
    exact State.later_refl _
  | cons b rest ih =>
    intro sb sb1 st st1 s s1 h
    cases b with
    | LIFETIME l =>
      simp only [super_traits_loop] at h
      exact ih _ _ _ _ _ _ h
    | TRAITBOUND path locus =>
      simp only [super_traits_loop, Outcome.bind_eq_ok] at h
      obtain ⟨⟨r, s2⟩, h1, pushed, _, _, _, h4⟩ := h
      exact State.later_trans (hf path s r s2 h1).1 (ih _ _ _ _ _ _ h4)

/-- What the super-trait loop accumulates, from a well-formed cache and with
every trait bound leading to a declaration: the predicates pushed carry the
declaration ids of the trait bounds, in order, and so do the super-traits. -/
theorem super_traits_loop_ids {env : Env} {f : ResolveFn} (hf : Sound env f) :
    ∀ (bs : List HIR.TypeParamBound) (sb sb1 : List TypeBoundPredicate)
      (st st1 : List DefId) (s s1 : State),
      s.wf →
      (∀ q l, HIR.TypeParamBound.TRAITBOUND q l ∈ bs → ∃ u, path_declaration env q = some u) →
      super_traits_loop f bs sb st s = Outcome.ok (sb1, st1, s1) →
        sb1.map (fun b => b.reference) =
            sb.map (fun b => b.reference) ++ bound_defids env bs ∧
          st1 = st ++ bound_defids env bs := by
  intro bs
  induction bs with
  | nil =>
    intro sb sb1 st st1 s s1 _ _ h
    simp only [super_traits_loop, Outcome.ok.injEq, Prod.mk.injEq] at h
    obtain ⟨h1, h2, _⟩ := h
    subst h1 h2
    simp [bound_defids]
  | cons b rest ih =>
    intro sb sb1 st st1 s s1 hw hb h
    cases b with
    | LIFETIME l =>
      simp only [super_traits_loop] at h
      have hb1 : ∀ q l, HIR.TypeParamBound.TRAITBOUND q l ∈ rest →
          ∃ u, path_declaration env q = some u :=
        fun q l hm => hb q l (List.mem_cons_of_mem _ hm)
      simpa [bound_defids] using ih _ _ _ _ _ _ hw hb1 h
    | TRAITBOUND path locus =>
      simp only [super_traits_loop, Outcome.bind_eq_ok] at h
      obtain ⟨⟨r, s2⟩, h1, pushed, hcopy, _, _, h4⟩ := h
      obtain ⟨u, hu⟩ := hb path locus (List.mem_cons_self _ _)
      obtain ⟨hlater, hcached⟩ := hf path s r s2 h1
      have hw2 : s2.wf := hlater.2.1 hw
      have hid : r.get_defid = u.defid := hw2 _ _ (hcached u hu)
      have hb1 : ∀ q l, HIR.TypeParamBound.TRAITBOUND q l ∈ rest →
          ∃ u, path_declaration env q = some u :=
        fun q l hm => hb q l (List.mem_cons_of_mem _ hm)
      obtain ⟨i1, i2⟩ := ih _ _ _ _ _ _ hw2 hb1 h4
      have hpr : pushed.reference = u.defid := by
        rw [TypeBoundPredicate.copy_reference hcopy]
        exact hid
      have hfr : (TypeBoundPredicate.from_trait_reference r locus).reference = u.defid := hid
      simp only [bound_defids, hu]
      rw [i1, i2, hfr]
      simp [hpr]

theorem path_declaration_eq_some {env : Env} {p : HIR.TypePath} {t : HIR.Trait}
    (hp : path_declaration env p = some t) :
    ∃ ref hir_node, env.lookup_resolved_type p.nodeid = some ref ∧
      env.lookup_node_to_hir ref = some hir_node ∧
      env.lookup_hir_item hir_node = some t := by
  unfold path_declaration at hp
  split at hp
  · cases hp
  · rename_i ref h1
    split at hp
    · cases hp
    · rename_i hir_node h2
      exact ⟨ref, hir_node, h1, h2, hp⟩

/-- The fast path of `go`: a cached reference is returned as it is. -/
theorem go_cached {env : Env} (f : ResolveFn) {p : HIR.TypePath} {t : HIR.Trait}
    {s : State} {r : TraitReference} (hp : path_declaration env p = some t)
    (hc : s.lookup_trait_reference t.defid = some r) :
    go env f p s = Outcome.ok (r, s) := by
  obtain ⟨ref, hir_node, h1, h2, h3⟩ := path_declaration_eq_some hp
  simp only [go, h1, h2, h3, hc]

theorem lookup_path_of_declaration {env : Env} {p : HIR.TypePath} {t : HIR.Trait}
    (s : State) (hp : path_declaration env p = some t) :
    lookup_path env p s =
      Outcome.ok ((s.lookup_trait_reference t.defid).getD TraitReference.error_node, s) := by
  obtain ⟨ref, hir_node, h1, h2, h3⟩ := path_declaration_eq_some hp
  simp only [lookup_path, h1, h2, h3]
  cases s.lookup_trait_reference t.defid <;> rfl

/-- The steps of a fresh resolution, in the order `go` takes them. -/
theorem go_fresh {env : Env} {f : ResolveFn} {p : HIR.TypePath} {t : HIR.Trait}
    {s s1 : State} {r : TraitReference} (hp : path_declaration env p = some t)
    (hc : s.lookup_trait_reference t.defid = none)
    (h : go env f p s = Outcome.ok (r, s1)) :
    ∃ self substitutions sg self_bound specified_bounds super_traits sl,
      generic_params_loop t.generic_params none [] s = (some self, substitutions, sg) ∧
      TypeBoundPredicate.copy sg
        (TypeBoundPredicate.from_defid t.defid
          (substitutions.map SubstitutionParamMapping.clone) t.locus) =
        Outcome.ok self_bound ∧
      super_traits_loop f t.type_param_bounds [self_bound] [] sg =
        Outcome.ok (specified_bounds, super_traits, sl) ∧
      r = { hir_trait_ref := some t
            item_refs :=
              (trait_items_loop self substitutions t.trait_items []
                (sl.emit (Event.inherit_bounds self specified_bounds))).1
            super_traits := super_traits
            trait_substs := substitutions } ∧
      r.on_resolved f
        ((trait_items_loop self substitutions t.trait_items []
          (sl.emit (Event.inherit_bounds self specified_bounds))).2.insert_trait_reference
            t.defid r) = Outcome.ok s1 := by
  obtain ⟨ref, hir_node, h1, h2, h3⟩ := path_declaration_eq_some hp
  simp only [go, h1, h2, h3, hc] at h
  generalize hg : generic_params_loop t.generic_params none [] s = g at h
  obtain ⟨self, substitutions, sg⟩ := g
  cases self with
  | none => simp at h
  | some self =>
    simp only [Outcome.bind_eq_ok] at h
    obtain ⟨self_bound, hb, ⟨specified_bounds, super_traits, sl⟩, hl, h⟩ := h
    simp only [State.lookup_insert_self, Outcome.bind_eq_ok, Outcome.ok.injEq,
      Prod.mk.injEq] at h
    obtain ⟨s5, hh, hr, hs⟩ := h
    subst hs
    refine ⟨self, substitutions, sg, self_bound, specified_bounds, super_traits, sl,
      rfl, hb, hl, hr.symm, ?_⟩
    rw [← hr]
    exact hh

theorem go_sound {env : Env} {f : ResolveFn} (hf : Sound env f) : Sound env (go env f) := by
  intro p s r s1 h
  cases hd : path_declaration env p with
  | none =>
    have hs : ∃ e, s1 = s.emit e := by
      unfold path_declaration at hd
      unfold go at h
      split at hd
      · rename_i h1
        simp only [h1, Outcome.ok.injEq, Prod.mk.injEq] at h
        exact ⟨_, h.2.symm⟩
      · rename_i ref h1
        split at hd
        · rename_i h2
          simp only [h1, h2, Outcome.ok.injEq, Prod.mk.injEq] at h
          exact ⟨_, h.2.symm⟩
        · rename_i hir_node h2
          simp [h1, h2, hd] at h
    obtain ⟨e, he⟩ := hs
    subst he
    exact ⟨State.later_emit _ _, fun t ht => by cases ht⟩
  | some t =>
    cases hc : s.lookup_trait_reference t.defid with
    | some x =>
      rw [go_cached f hd hc] at h
      simp only [Outcome.ok.injEq, Prod.mk.injEq] at h
      obtain ⟨h1, h2⟩ := h
      subst h1 h2
      refine ⟨State.later_refl _, fun t1 ht => ?_⟩
      cases ht
      exact hc
    | none =>
      obtain ⟨self, substitutions, sg, self_bound, specified_bounds, super_traits, sl,
        hg, _, hl, hr, hh⟩ := go_fresh hd hc h
      have hlg : s.later sg := by
        have := generic_params_loop_later t.generic_params none [] s
        rw [hg] at this
        exact this
      have hll := super_traits_loop_later hf _ _ _ _ _ _ _ hl
      have hli := trait_items_loop_later self substitutions t.trait_items []
        (sl.emit (Event.inherit_bounds self specified_bounds))
      have hitems := trait_items_loop_trait_context self substitutions t.trait_items []
        (sl.emit (Event.inherit_bounds self specified_bounds))
      generalize trait_items_loop self substitutions t.trait_items []
        (sl.emit (Event.inherit_bounds self specified_bounds)) = r3 at hitems hh hr hli
      have hlh := on_resolved_later hf _ _ _ hh
      have hl3 : s.later r3.2 :=
        State.later_trans hlg
          (State.later_trans hll (State.later_trans (State.later_emit _ _) hli))
      have hdef : r.get_defid = t.defid := by rw [hr]; rfl
      refine ⟨⟨?_, ?_, ?_⟩, ?_⟩
      · intro k x hk
        apply hlh.1
        have hne : t.defid ≠ k := by
          intro e
          rw [← e, hc] at hk
          cases hk
        rw [State.lookup_insert_other _ _ _ _ hne]
        exact hl3.1 k x hk
      · intro hw
        apply hlh.2.1
        exact State.wf_insert (hl3.2.1 hw) _ _ hdef
      · exact List.IsPrefix.trans hl3.2.2 hlh.2.2
      · intro t1 ht
        cases ht
        exact hlh.1 _ _ (State.lookup_insert_self _ _ _)

theorem Resolve_sound (env : Env) : ∀ fuel, Sound env (Resolve env fuel) := by
  intro fuel
  induction fuel with
  | zero =>
    intro p s r s1 h
    simp [Resolve] at h
  | succ n ih => exact go_sound ih

end TraitResolver

/-! ### A larger depth budget changes no answer -/

theorem bind_extends {α β : Type} {x y : Outcome α} {k1 k2 : α → Outcome β}
    {z : Outcome β} (hxy : x ≠ Outcome.out_of_fuel → y = x)
    (hk : ∀ a, x = Outcome.ok a → k1 a = z → k2 a = z)
    (h : x.bind k1 = z) (hz : z ≠ Outcome.out_of_fuel) : y.bind k2 = z := by
  cases x with
  | ok a =>
    rw [hxy (by simp)]
    exact hk a rfl h
  | abort m =>
    rw [hxy (by simp)]
    exact h
  | out_of_fuel => exact absurd h.symm hz

theorem resolve_paths_extends {f g : ResolveFn} (hfg : Extends f g) :
    ∀ (ps : List HIR.TypePath) (s : State) (x : Outcome State),
      resolve_paths f ps s = x → x ≠ Outcome.out_of_fuel → resolve_paths g ps s = x := by
  intro ps
  induction ps with
  | nil => intro s x h _; exact h
  | cons p rest ih =>
    intro s x h hx
    simp only [resolve_paths] at h ⊢
    exact bind_extends (fun hne => hfg p s _ rfl hne) (fun a _ ha => ih _ _ ha hx) h hx

theorem items_on_resolved_extends {f g : ResolveFn} (hfg : Extends f g) :
    ∀ (items : List TraitItemReference) (s : State) (x : Outcome State),
      items_on_resolved f items s = x → x ≠ Outcome.out_of_fuel →
        items_on_resolved g items s = x := by
  intro items
  induction items with
  | nil => intro s x h _; exact h
  | cons item rest ih =>
    intro s x h hx
    simp only [items_on_resolved] at h ⊢
    refine bind_extends (fun hne => ?_) (fun a _ ha => ih _ _ ha hx) h hx
    unfold TraitItemReference.on_resolved at hne ⊢
    cases hi : item.hir_trait_item with
    | none => rfl
    | some hir =>
      simp only [hi] at hne ⊢
      exact resolve_paths_extends hfg _ _ _ rfl hne

namespace TraitResolver

theorem super_traits_loop_extends {f g : ResolveFn} (hfg : Extends f g) :
    ∀ (bs : List HIR.TypeParamBound) (sb : List TypeBoundPredicate) (st : List DefId)
      (s : State) (x : Outcome (List TypeBoundPredicate × List DefId × State)),
      super_traits_loop f bs sb st s = x → x ≠ Outcome.out_of_fuel →
        super_traits_loop g bs sb st s = x := by
  intro bs
  induction bs with
  | nil => intro sb st s x h _; exact h
  | cons b rest ih =>
    intro sb st s x h hx
    cases b with
    | LIFETIME l =>
      simp only [super_traits_loop] at h ⊢
      exact ih _ _ _ _ h hx
    | TRAITBOUND path locus =>
      simp only [super_traits_loop] at h ⊢
      refine bind_extends (fun hne => hfg path s _ rfl hne) (fun a _ ha => ?_) h hx
      refine bind_extends (fun _ => rfl) (fun c _ hc => ?_) ha hx
      refine bind_extends (fun _ => rfl) (fun d _ hd => ?_) hc hx
      exact ih _ _ _ _ hd hx

theorem go_extends (env : Env) {f g : ResolveFn} (hfg : Extends f g) :
    Extends (go env f) (go env g) := by
  intro p s x h hx
  unfold go at h ⊢
  cases h1 : env.lookup_resolved_type p.nodeid with
  | none => simp only [h1] at h ⊢; exact h
  | some ref =>
    cases h2 : env.lookup_node_to_hir ref with
    | none => simp only [h1, h2] at h ⊢; exact h
    | some hir_node =>
      cases h3 : env.lookup_hir_item hir_node with
      | none => simp only [h1, h2, h3] at h ⊢; exact h
      | some t =>
        cases h4 : s.lookup_trait_reference t.defid with
        | some tref => simp only [h1, h2, h3, h4] at h ⊢; exact h
        | none =>
          simp only [h1, h2, h3, h4] at h ⊢
          generalize generic_params_loop t.generic_params none [] s = gp at h ⊢
          obtain ⟨self, substitutions, sg⟩ := gp
          cases self with
          | none => exact h
          | some self =>
            simp only [State.lookup_insert_self] at h ⊢
            refine bind_extends (fun _ => rfl) (fun a _ ha => ?_) h hx
            refine bind_extends (fun hne => super_traits_loop_extends hfg _ _ _ _ _ rfl hne)
              (fun r _ hr => ?_) ha hx
            refine bind_extends (fun hne => ?_) (fun _ _ hb => hb) hr hx
            unfold TraitReference.on_resolved at hne ⊢
            exact items_on_resolved_extends hfg _ _ _ rfl hne

/-- An answer of `Resolve` at one recursion depth, a value or a failed
assertion, is its answer at every greater depth. -/
theorem Resolve_extends (env : Env) :
    ∀ fuel, Extends (Resolve env fuel) (Resolve env (fuel + 1)) := by
  intro fuel
  induction fuel with
  | zero =>
    intro p s x h hx
    exact absurd h.symm hx
  | succ n ih => exact go_extends env ih

end TraitResolver

end Resolver

/-! ## Traits that are their own super-trait -/

namespace Sample

open Resolver TyTy TraitResolver

theorem lookup_none_of_empty {s : State} (hs : s.trait_context = []) (d : DefId) :
    s.lookup_trait_reference d = none := by
  simp [State.lookup_trait_reference, hs, lookup_entry]

/-- A resolution whose first declared bound is a trait bound that does not
return within the depth budget does not return either. -/
theorem go_first_bound_out_of_fuel {env : Env} {f : ResolveFn} {p q : HIR.TypePath}
    {t : HIR.Trait} {s sg : State} {self : BaseType}
    {substitutions : List SubstitutionParamMapping} {locus : Location}
    {rest : List HIR.TypeParamBound}
    (hp : path_declaration env p = some t)
    (hc : s.lookup_trait_reference t.defid = none)
    (hg : generic_params_loop t.generic_params none [] s = (some self, substitutions, sg))
    (hb : t.type_param_bounds = HIR.TypeParamBound.TRAITBOUND q locus :: rest)
    (hq : f q sg = Outcome.out_of_fuel) :
    go env f p s = Outcome.out_of_fuel := by
  obtain ⟨ref, hir_node, h1, h2, h3⟩ := path_declaration_eq_some hp
  have hsg : sg.lookup_trait_reference t.defid = none := by
    have := generic_params_loop_trait_context t.generic_params none [] s
    rw [hg] at this
    rw [State.lookup_of_trait_context_eq this]
    exact hc
  simp only [go, h1, h2, h3, hc, hg, hb, TypeBoundPredicate.copy,
    TypeBoundPredicate.is_error, TypeBoundPredicate.from_defid, hsg, Option.isSome_none,
    Bool.not_false, Bool.true_or, if_true, Outcome.bind_ok, super_traits_loop, hq,
    Outcome.bind_out_of_fuel]

/-- While `A` is not cached, resolving `trait A: A {}` re-enters the
resolution of `A` and no recursion depth is enough for it to return. -/
theorem resolve_a_out_of_fuel :
    ∀ (fuel : Nat) (s : State), s.trait_context = [] →
      Resolve cyclic_crate fuel (path_to 10) s = Outcome.out_of_fuel := by
  intro fuel
  induction fuel with
  | zero => intro s _; rfl
  | succ n ih =>
    intro s hs
    exact go_first_bound_out_of_fuel (t := a_trait) rfl (lookup_none_of_empty hs _) rfl rfl
      (ih (s.emit (Event.insert_type 50 (BaseType.ParamType 50 "Self"))) hs)

/-- While neither `B` nor `C` is cached, resolving `trait B: C {}` or
`trait C: B {}` goes from the one to the other and never returns. -/
theorem resolve_b_c_out_of_fuel :
    ∀ (fuel : Nat) (s : State), s.trait_context = [] →
      Resolve cyclic_crate fuel (path_to 11) s = Outcome.out_of_fuel ∧
        Resolve cyclic_crate fuel (path_to 12) s = Outcome.out_of_fuel := by
  intro fuel
  induction fuel with
  | zero => intro s _; exact ⟨rfl, rfl⟩
  | succ n ih =>
    intro s hs
    constructor
    · exact go_first_bound_out_of_fuel (t := b_trait) rfl (lookup_none_of_empty hs _) rfl
        rfl (ih (s.emit (Event.insert_type 60 (BaseType.ParamType 60 "Self"))) hs).2
    · exact go_first_bound_out_of_fuel (t := c_trait) rfl (lookup_none_of_empty hs _) rfl
        rfl (ih (s.emit (Event.insert_type 70 (BaseType.ParamType 70 "Self"))) hs).1

end Sample

/-! ## Facts about the queries -/

namespace TyTy

open Resolver

namespace TypeBoundPredicate

theorem get_of_cached {s : State} {p : TypeBoundPredicate} {tref : TraitReference}
    (h : s.lookup_trait_reference p.reference = some tref) : p.get s = Outcome.ok tref := by
  simp [get, h]

theorem get_of_absent {s : State} {p : TypeBoundPredicate}
    (h : s.lookup_trait_reference p.reference = none) : p.get s = Outcome.abort "ok" := by
  simp [get, h]

theorem cached_of_not_error {s : State} {p : TypeBoundPredicate}
    (h : p.is_error s = false) :
    ∃ tref, s.lookup_trait_reference p.reference = some tref ∧ p.error_flag = false := by
  cases hc : s.lookup_trait_reference p.reference with
  | none => simp [is_error, hc] at h
  | some r =>
    refine ⟨r, rfl, ?_⟩
    simpa [is_error, hc] using h

end TypeBoundPredicate

namespace TypeBoundPredicateItem

/-- `get_tyty_for_receiver` on a predicate without argument mappings. -/
theorem get_tyty_for_receiver_of_empty (c : Collaborators) (parent : TypeBoundPredicate)
    (tref : TraitItemReference) (receiver : BaseType)
    (hm : parent.used_arguments.is_empty = true) :
    get_tyty_for_receiver c { parent := some parent, trait_item_ref := some tref } receiver =
      Outcome.ok (c.get_tyty tref, parent) := by
  simp [get_tyty_for_receiver, get_raw_item, hm]

/-- `get_tyty_for_receiver` on an item whose kind has an enumerator other
than 0: the conversion to `bool` gives true. -/
theorem get_tyty_for_receiver_of_nonzero (c : Collaborators) (parent : TypeBoundPredicate)
    (tref : TraitItemReference) (receiver : BaseType)
    (hk : c.enumerator tref.type ≠ 0) :
    get_tyty_for_receiver c { parent := some parent, trait_item_ref := some tref } receiver =
      Outcome.ok (c.get_tyty tref, parent) := by
  simp only [get_tyty_for_receiver, get_raw_item]
  split
  · rfl
  · simp [hk]

/-- `get_tyty_for_receiver` on an item whose kind has the enumerator 0, with
argument mappings `sarg :: others`. -/
theorem get_tyty_for_receiver_of_zero (c : Collaborators) (parent : TypeBoundPredicate)
    (tref : TraitItemReference) (receiver : BaseType) (sarg : SubstitutionArg)
    (others : List SubstitutionArg)
    (hm : parent.used_arguments.mappings = sarg :: others)
    (hk : c.enumerator tref.type = 0) :
    get_tyty_for_receiver c { parent := some parent, trait_item_ref := some tref } receiver =
      Outcome.ok
        (c.specialize (c.get_tyty tref)
          { mappings := { param := sarg.param, argument := some receiver.clone } :: others
            locus := parent.used_arguments.locus }, parent) := by
  have he : parent.used_arguments.is_empty = false := by
    simp [SubstitutionArgumentMappings.is_empty, SubstitutionArgumentMappings.size, hm]
  simp [get_tyty_for_receiver, get_raw_item, he, hk, hm]

end TypeBoundPredicateItem

end TyTy

/-! ## Facts about the bound probe -/

namespace Resolver

open TyTy

namespace TypeBoundsProbe

/-- The impl blocks that the first loop of `scan` keeps are the eligible
ones, in order, each with its trait path. -/
theorem possible_trait_paths_eq (pe : ProbeEnv) (receiver : BaseType) :
    ∀ (impls : List HIR.ImplBlock) (paths : List (HIR.TypePath × HIR.ImplBlock)),
      possible_trait_paths pe receiver impls paths =
        paths ++ (impls.filter (eligible pe receiver)).filterMap
          fun impl => impl.trait_ref.map fun path => (path, impl) := by
  intro impls
  induction impls with
  | nil => intro paths; simp [possible_trait_paths]
  | cons impl rest ih =>
    intro paths
    simp only [possible_trait_paths]
    cases ht : impl.trait_ref with
    | none => simp [ih, eligible, ht]
    | some path =>
      cases hl : pe.lookup_type impl.type_hirid with
      | none => simp [ih, eligible, ht, hl]
      | some impl_type =>
        cases h1 : pe.can_eq receiver impl_type false <;>
          cases h2 : pe.can_eq impl_type receiver false <;>
          simp [ih, eligible, ht, hl, h1, h2]

/-- The second loop of `scan` keeps, of what the paths resolve to, the pairs
whose reference is not the error reference. -/
theorem resolve_loop_eq (f : ResolveFn) :
    ∀ (impls : List HIR.ImplBlock) (refs : List (TraitReference × HIR.ImplBlock))
      (s : State),
      resolve_loop f (impls.filterMap fun impl => impl.trait_ref.map fun path => (path, impl))
          refs s =
        (resolve_each f impls s).bind fun all =>
          Outcome.ok (refs ++ all.1.filter (fun x => !x.1.is_error), all.2) := by
  intro impls
  induction impls with
  | nil => intro refs s; simp [resolve_loop, resolve_each, Outcome.bind_ok]
  | cons impl rest ih =>
    intro refs s
    cases ht : impl.trait_ref with
    | none =>
      simp only [List.filterMap_cons, ht, Option.map_none', resolve_each]
      exact ih refs s
    | some path =>
      simp only [List.filterMap_cons, ht, Option.map_some', resolve_loop, resolve_each]
      cases hr : f path s with
      | abort m => rfl
      | out_of_fuel => rfl
      | ok r =>
        simp only [Outcome.bind_ok]
        cases he : r.1.is_error with
        | true =>
          simp only [Bool.not_true, Bool.false_eq_true, if_false]
          rw [ih]
          cases resolve_each f rest r.2 with
          | abort m => rfl
          | out_of_fuel => rfl
          | ok more => simp [Outcome.bind_ok, he]
        | false =>
          simp only [Bool.not_false, if_true]
          rw [ih]
          cases resolve_each f rest r.2 with
          | abort m => rfl
          | out_of_fuel => rfl
          | ok more => simp [Outcome.bind_ok, he]

/-- Every impl block that has a trait path gets one pair from `resolve_each`,
in order. -/
theorem resolve_each_blocks (f : ResolveFn) :
    ∀ (impls : List HIR.ImplBlock) (s s1 : State)
      (all : List (TraitReference × HIR.ImplBlock)),
      (∀ impl ∈ impls, impl.trait_ref.isSome = true) →
      resolve_each f impls s = Outcome.ok (all, s1) →
        all.map (fun x => x.2) = impls := by
  intro impls
  induction impls with
  | nil =>
    intro s s1 all _ h
    simp only [resolve_each, Outcome.ok.injEq, Prod.mk.injEq] at h
    rw [← h.1]
    rfl
  | cons impl rest ih =>
    intro s s1 all hall h
    have hsome := hall impl (List.mem_cons_self _ _)
    cases ht : impl.trait_ref with
    | none => simp [ht] at hsome
    | some path =>
      simp only [resolve_each, ht, Outcome.bind_eq_ok, Outcome.ok.injEq, Prod.mk.injEq] at h
      obtain ⟨r, _, more, hmore, hall1, _⟩ := h
      have := ih r.2 more.2 more.1 (fun i hi => hall i (List.mem_cons_of_mem _ hi)) hmore
      rw [← hall1]
      simp [this]

theorem eligible_has_trait_ref {pe : ProbeEnv} {receiver : BaseType} {impl : HIR.ImplBlock}
    (h : eligible pe receiver impl = true) : impl.trait_ref.isSome = true := by
  simp only [eligible, Bool.and_eq_true] at h
  exact h.1

end TypeBoundsProbe

end Resolver

/-! ## Facts about the mangler -/

namespace Compile

open TyTy

theorem digitChar_ne_colon : ∀ d, d < 16 → Nat.digitChar d ≠ ':' := by decide

theorem toDigitsCore_no_colon :
    ∀ (fuel n : Nat) (ds : List Char), (∀ c ∈ ds, c ≠ ':') →
      ∀ c ∈ Nat.toDigitsCore 16 fuel n ds, c ≠ ':' := by
  intro fuel
  induction fuel with
  | zero => intro n ds h c hc; exact h c (by simpa [Nat.toDigitsCore] using hc)
  | succ k ih =>
    intro n ds h c hc
    have hd : ∀ x ∈ Nat.digitChar (n % 16) :: ds, x ≠ ':' := by
      intro x hx
      rcases List.mem_cons.mp hx with hx | hx
      · rw [hx]
        exact digitChar_ne_colon _ (Nat.mod_lt _ (by decide))
      · exact h x hx
    simp only [Nat.toDigitsCore] at hc
    split at hc
    · exact hd c hc
    · exact ih _ _ hd c hc

theorem hex_digits_no_colon (n : Nat) : ∀ c ∈ hex_digits n, c ≠ ':' :=
  toDigitsCore_no_colon _ _ [] (by simp)

theorem zero_padded_hex_no_colon (n : Nat) : ∀ c ∈ zero_padded_hex n, c ≠ ':' := by
  intro c hc
  simp only [zero_padded_hex, List.mem_append, List.mem_replicate] at hc
  rcases hc with ⟨_, hc⟩ | hc
  · rw [hc]
    decide
  · exact hex_digits_no_colon n c hc

theorem legacy_hash_no_colon (m : MangleEnv) (fingerprint : String) :
    ∀ c ∈ (legacy_hash m fingerprint).data, c ≠ ':' := by
  intro c hc
  simp only [legacy_hash, String.data_append, List.mem_append] at hc
  rcases hc with hc | hc
  · have : c = 'h' := by simpa using hc
    rw [this]
    decide
  · have hmem := List.mem_of_mem_take hc
    rcases List.mem_append.mp hmem with h | h
    · exact zero_padded_hex_no_colon _ c h
    · exact zero_padded_hex_no_colon _ c h

theorem colons_paired_of_no_colon :
    ∀ cs : List Char, (∀ c ∈ cs, c ≠ ':') → colons_paired cs = true := by
  intro cs
  induction cs with
  | nil => intro _; rfl
  | cons c rest ih =>
    intro h
    have hc : c ≠ ':' := h c (List.mem_cons_self _ _)
    rw [colons_paired.eq_def]
    simp only [hc, if_false]
    exact ih fun x hx => h x (List.mem_cons_of_mem _ hx)

theorem ite_returns {α : Type} (p : Prop) [Decidable p] (a b : Outcome α)
    (ha : ∃ out, a = Outcome.ok out) (hb : ∃ out, b = Outcome.ok out) :
    ∃ out, (if p then a else b) = Outcome.ok out := by
  split
  · exact ha
  · exact hb

/-- The loop of `legacy_mangle_name` returns on characters whose colons are
paired. -/
theorem legacy_mangle_loop_ok :
    ∀ (n : Nat) (cs : List Char), cs.length ≤ n → colons_paired cs = true →
      ∀ (i : Nat) (buffer : String), ∃ out, legacy_mangle_loop cs i buffer = Outcome.ok out := by
  intro n
  induction n with
  | zero =>
    intro cs hn _ i buffer
    have : cs = [] := List.length_eq_zero.mp (Nat.le_zero.mp hn)
    subst this
    exact ⟨buffer, rfl⟩
  | succ k ih =>
    intro cs hn hp i buffer
    cases cs with
    | nil => exact ⟨buffer, rfl⟩
    | cons c rest =>
      simp only [List.length_cons] at hn
      by_cases hc : c = ':'
      · subst hc
        cases rest with
        | nil => simp [colons_paired] at hp
        | cons c1 rest1 =>
          by_cases hc1 : c1 = ':'
          · subst hc1
            simp only [colons_paired, if_true] at hp
            simp only [List.length_cons] at hn
            obtain ⟨out, hout⟩ := ih rest1 (by omega) hp (i + 2) (buffer ++ "..")
            refine ⟨out, ?_⟩
            rw [← hout]
            simp [legacy_mangle_loop]
          · simp [colons_paired, hc1] at hp
      · rw [colons_paired.eq_def] at hp
        simp only [hc, if_false] at hp
        have hrest : ∀ (buf : String), ∃ out,
            legacy_mangle_loop rest (i + 1) buf = Outcome.ok out :=
          fun buf => ih rest (by omega) hp (i + 1) buf
        rw [legacy_mangle_loop.eq_def]
        simp only [hc, if_false]
        repeat' apply ite_returns
        all_goals exact hrest _

theorem legacy_mangle_name_ok (name : String) (h : colons_paired name.data = true) :
    ∃ out, legacy_mangle_name name = Outcome.ok out := by
  obtain ⟨buffer, hb⟩ := legacy_mangle_loop_ok _ name.data (Nat.le_refl _) h 0 ""
  exact ⟨toString buffer.utf8ByteSize ++ buffer, by simp [legacy_mangle_name, hb, Outcome.bind_ok]⟩

theorem legacy_mangle_segments_ok :
    ∀ (segs : List (NodeId × String)) (buffer : String),
      (∀ seg ∈ segs, colons_paired seg.2.data = true) →
        ∃ out, legacy_mangle_segments segs buffer = Outcome.ok out := by
  intro segs
  induction segs with
  | nil => intro buffer _; exact ⟨buffer, rfl⟩
  | cons seg rest ih =>
    intro buffer h
    obtain ⟨m, hm⟩ := legacy_mangle_name_ok seg.2 (h seg (List.mem_cons_self _ _))
    obtain ⟨out, hout⟩ := ih (buffer ++ m) fun x hx => h x (List.mem_cons_of_mem _ hx)
    exact ⟨out, by simp [legacy_mangle_segments, hm, Outcome.bind_ok, hout]⟩

theorem toDigitsCore_forall (b : Nat) (hb : 0 < b) (P : Char → Prop)
    (hP : ∀ d, d < b → P (Nat.digitChar d)) :
    ∀ (fuel n : Nat) (ds : List Char), (∀ c ∈ ds, P c) →
      ∀ c ∈ Nat.toDigitsCore b fuel n ds, P c := by
  intro fuel
  induction fuel with
  | zero => intro n ds h c hc; exact h c (by simpa [Nat.toDigitsCore] using hc)
  | succ k ih =>
    intro n ds h c hc
    have hd : ∀ x ∈ Nat.digitChar (n % b) :: ds, P x := by
      intro x hx
      rcases List.mem_cons.mp hx with hx | hx
      · rw [hx]
        exact hP _ (Nat.mod_lt _ hb)
      · exact h x hx
    simp only [Nat.toDigitsCore] at hc
    split at hc
    · exact hd c hc
    · exact ih _ _ hd c hc

theorem hex_digits_lower (n : Nat) : ∀ c ∈ hex_digits n, is_lower_hex c = true :=
  toDigitsCore_forall 16 (by decide) (fun c => is_lower_hex c = true) (by decide) _ _ []
    (by simp)

theorem toString_ascii (n : Nat) : ∀ c ∈ (toString n).data, is_ascii c = true :=
  toDigitsCore_forall 10 (by decide) (fun c => is_ascii c = true) (by decide) _ _ []
    (by simp)

/-- With enough fuel, a number of `k + 1` hexadecimal digits is printed with
`k + 1` digits. -/
theorem toDigitsCore_length :
    ∀ (k fuel n : Nat) (ds : List Char), 16 ^ k ≤ n → n < 16 ^ (k + 1) → k < fuel →
      (Nat.toDigitsCore 16 fuel n ds).length = ds.length + k + 1 := by
  intro k
  induction k with
  | zero =>
    intro fuel n ds _ hlt hf
    obtain ⟨f, rfl⟩ : ∃ f, fuel = f + 1 := ⟨fuel - 1, by omega⟩
    have h0 : n / 16 = 0 := by omega
    simp [Nat.toDigitsCore, h0]
  | succ j ih =>
    intro fuel n ds hle hlt hf
    obtain ⟨f, rfl⟩ : ∃ f, fuel = f + 1 := ⟨fuel - 1, by omega⟩
    have h1 : 16 ^ j ≤ n / 16 := by
      rw [Nat.le_div_iff_mul_le (by decide)]
      rw [pow_succ] at hle
      exact hle
    have h2 : n / 16 < 16 ^ (j + 1) := by
      rw [Nat.div_lt_iff_lt_mul (by decide)]
      rw [pow_succ] at hlt
      exact hlt
    have h0 : n / 16 ≠ 0 := by
      have : 0 < 16 ^ j := by positivity
      omega
    simp only [Nat.toDigitsCore, h0, if_false]
    rw [ih f (n / 16) _ h1 h2 (by omega)]
    simp only [List.length_cons]
    omega

theorem hex_digits_length (k n : Nat) (hle : 16 ^ k ≤ n) (hlt : n < 16 ^ (k + 1)) :
    (hex_digits n).length = k + 1 := by
  have hk : k < n + 1 := by
    have : k < 16 ^ k := Nat.lt_pow_self (by decide) k
    omega
  have := toDigitsCore_length k (n + 1) n [] hle hlt hk
  simpa [hex_digits, Nat.toDigits] using this


theorem push_eq_append (s : String) (c : Char) : s.push c = s ++ String.singleton c := by
  apply String.ext
  simp [String.singleton]

theorem legacy_mangle_loop_cons (c : Char) (rest : List Char) (i : Nat) (buffer : String)
    (hc : c ≠ ':') :
    legacy_mangle_loop (c :: rest) i buffer =
      legacy_mangle_loop rest (i + 1) (buffer ++ legacy_escape i c) := by
  rw [legacy_mangle_loop.eq_def]
  simp only [hc, if_false]
  by_cases h1 : c = ' '
  · subst h1; simp [legacy_escape, legacy_escape_table, List.lookup, kMangledSpace]
  by_cases h2 : c = '&'
  · subst h2; simp [legacy_escape, legacy_escape_table, List.lookup, kMangledRef]
  by_cases h3 : c = '<'
  · subst h3
    by_cases hi : i = 0
    · simp [legacy_escape, hi, kQualPathBegin, kMangledSubstBegin]
    · simp [legacy_escape, legacy_escape_table, List.lookup, hi, kMangledSubstBegin]
  by_cases h4 : c = '>'
  · subst h4; simp [legacy_escape, legacy_escape_table, List.lookup, kMangledSubstEnd]
  by_cases h5 : c = '*'
  · subst h5; simp [legacy_escape, legacy_escape_table, List.lookup, kMangledPtr]
  by_cases h6 : c = '['
  · subst h6; simp [legacy_escape, legacy_escape_table, List.lookup, kMangledLeftSqParen]
  by_cases h7 : c = ']'
  · subst h7; simp [legacy_escape, legacy_escape_table, List.lookup, kMangledRightSqParen]
  by_cases h8 : c = '\x7b'
  · subst h8; simp [legacy_escape, legacy_escape_table, List.lookup, kMangledLeftBrace]
  by_cases h9 : c = '\x7d'
  · subst h9; simp [legacy_escape, legacy_escape_table, List.lookup, kMangledRightBrace]
  by_cases h10 : c = ','
  · subst h10; simp [legacy_escape, legacy_escape_table, List.lookup, kMangledComma]
  have hl : legacy_escape_table.lookup c = none := by
    simp only [legacy_escape_table, List.lookup, beq_false_of_ne h1, beq_false_of_ne h2,
      beq_false_of_ne h3, beq_false_of_ne h4, beq_false_of_ne h5, beq_false_of_ne h6,
      beq_false_of_ne h7, beq_false_of_ne h8, beq_false_of_ne h9, beq_false_of_ne h10]
  simp only [h1, h2, h3, h4, h5, h6, h7, h8, h9, h10, and_false, if_false, legacy_escape, hl,
    is_ascii, decide_eq_true_eq]
  split
  · rw [push_eq_append]
  · rfl

theorem legacy_escapes_cons (c : Char) (rest : List Char) (i : Nat) (hc : c ≠ ':') :
    legacy_escapes (c :: rest) i = legacy_escape i c ++ legacy_escapes rest (i + 1) := by
  cases rest with
  | nil => simp [legacy_escapes]
  | cons c1 rest1 => simp [legacy_escapes, hc]

theorem legacy_escapes_colons (rest : List Char) (i : Nat) :
    legacy_escapes (':' :: ':' :: rest) i = ".." ++ legacy_escapes rest (i + 2) := by
  simp [legacy_escapes]

/-- On characters whose colons are paired, the loop of `legacy_mangle_name`
appends the escapes of the specification to the buffer. -/
theorem legacy_mangle_loop_eq :
    ∀ (n : Nat) (cs : List Char), cs.length ≤ n → colons_paired cs = true →
      ∀ (i : Nat) (buffer : String),
        legacy_mangle_loop cs i buffer = Outcome.ok (buffer ++ legacy_escapes cs i) := by
  intro n
  induction n with
  | zero =>
    intro cs hn _ i buffer
    have : cs = [] := List.length_eq_zero.mp (Nat.le_zero.mp hn)
    subst this
    simp [legacy_mangle_loop, legacy_escapes]
  | succ k ih =>
    intro cs hn hp i buffer
    cases cs with
    | nil => simp [legacy_mangle_loop, legacy_escapes]
    | cons c rest =>
      simp only [List.length_cons] at hn
      by_cases hc : c = ':'
      · subst hc
        cases rest with
        | nil => simp [colons_paired] at hp
        | cons c1 rest1 =>
          by_cases hc1 : c1 = ':'
          · subst hc1
            simp only [colons_paired, if_true] at hp
            simp only [List.length_cons] at hn
            rw [legacy_escapes_colons, ← String.append_assoc, ← ih rest1 (by omega) hp]
            simp [legacy_mangle_loop]
          · simp [colons_paired, hc1] at hp
      · rw [colons_paired.eq_def] at hp
        simp only [hc, if_false] at hp
        rw [legacy_mangle_loop_cons c rest i buffer hc, legacy_escapes_cons c rest i hc,
          ← String.append_assoc]
        exact ih rest (by omega) hp (i + 1) _


theorem utf8Size_of_ascii (c : Char) (h : is_ascii c = true) : c.utf8Size = 1 := by
  simp only [is_ascii, decide_eq_true_eq] at h
  have h1 : c.val ≤ 127 := by
    rw [UInt32.le_def]
    show c.val.val ≤ (127 : UInt32).val
    rw [Fin.le_def]
    have : c.val.val.val = c.val.toNat := rfl
    rw [this]
    show c.val.toNat ≤ 127
    omega
  simp [Char.utf8Size, h1]

theorem utf8ByteSize_go_of_ascii :
    ∀ cs : List Char, (∀ c ∈ cs, is_ascii c = true) →
      String.utf8ByteSize.go cs = cs.length := by
  intro cs
  induction cs with
  | nil => intro _; rfl
  | cons c rest ih =>
    intro h
    simp only [String.utf8ByteSize.go, List.length_cons]
    rw [ih fun x hx => h x (List.mem_cons_of_mem _ hx),
      utf8Size_of_ascii c (h c (List.mem_cons_self _ _))]

theorem utf8ByteSize_of_ascii (s : String) (h : ∀ c ∈ s.data, is_ascii c = true) :
    s.utf8ByteSize = s.length := by
  cases s with
  | mk cs => exact utf8ByteSize_go_of_ascii cs h

theorem lookup_mem {α : Type} (c : Char) (e : α) :
    ∀ table : List (Char × α), table.lookup c = some e → (c, e) ∈ table := by
  intro table
  induction table with
  | nil => intro h; simp [List.lookup] at h
  | cons p rest ih =>
    intro h
    obtain ⟨k, v⟩ := p
    simp only [List.lookup] at h
    split at h
    · rename_i hk
      have hk1 : c = k := by simpa using hk
      simp only [Option.some.injEq] at h
      subst h
      subst hk1
      exact List.mem_cons_self _ _
    · exact List.mem_cons_of_mem _ (ih h)

theorem is_ascii_of_lower_hex (c : Char) (h : is_lower_hex c = true) : is_ascii c = true := by
  have hall : ∀ x ∈ "0123456789abcdef".data, is_ascii x = true := by decide
  exact hall c (by simpa [is_lower_hex] using h)

theorem legacy_escape_ascii (i : Nat) (c : Char) :
    ∀ x ∈ (legacy_escape i c).data, is_ascii x = true := by
  intro x hx
  unfold legacy_escape at hx
  split at hx
  · have hall : ∀ y ∈ "_$LT$".data, is_ascii y = true := by decide
    exact hall x hx
  · split at hx
    · rename_i escape hl
      have hall : ∀ p ∈ legacy_escape_table, ∀ y ∈ p.2.data, is_ascii y = true := by decide
      exact hall _ (lookup_mem c escape _ hl) x hx
    · split at hx
      · rename_i hlt
        have : x = c := by simpa [String.singleton] using hx
        rw [this]
        simpa [is_ascii] using hlt
      · simp only [String.data_append, List.mem_append] at hx
        rcases hx with (hx | hx) | hx
        · have hall : ∀ y ∈ "$u".data, is_ascii y = true := by decide
          exact hall x hx
        · exact is_ascii_of_lower_hex x (hex_digits_lower _ x hx)
        · have hall : ∀ y ∈ "$".data, is_ascii y = true := by decide
          exact hall x hx

theorem legacy_escapes_ascii :
    ∀ (n : Nat) (cs : List Char), cs.length ≤ n → ∀ (i : Nat),
      ∀ x ∈ (legacy_escapes cs i).data, is_ascii x = true := by
  intro n
  induction n with
  | zero =>
    intro cs hn i x hx
    have : cs = [] := List.length_eq_zero.mp (Nat.le_zero.mp hn)
    subst this
    simp [legacy_escapes] at hx
  | succ k ih =>
    intro cs hn i x hx
    match cs, hn, hx with
    | [], _, hx => simp [legacy_escapes] at hx
    | [c], _, hx => exact legacy_escape_ascii i c x (by simpa [legacy_escapes] using hx)
    | c :: c1 :: rest1, hn, hx =>
      simp only [List.length_cons] at hn
      simp only [legacy_escapes] at hx
      split at hx
      · simp only [String.data_append, List.mem_append] at hx
        rcases hx with hx | hx
        · have hall : ∀ y ∈ "..".data, is_ascii y = true := by decide
          exact hall x hx
        · exact ih rest1 (by omega) _ x hx
      · simp only [String.data_append, List.mem_append] at hx
        rcases hx with hx | hx
        · exact legacy_escape_ascii i c x hx
        · exact ih (c1 :: rest1) (by simp only [List.length_cons]; omega) _ x hx

theorem zero_padded_hex_length (n : Nat) : 8 ≤ (zero_padded_hex n).length := by
  simp only [zero_padded_hex, List.length_append, List.length_replicate]
  omega

theorem zero_padded_hex_lower (n : Nat) : ∀ c ∈ zero_padded_hex n, is_lower_hex c = true := by
  intro c hc
  simp only [zero_padded_hex, List.mem_append, List.mem_replicate] at hc
  rcases hc with ⟨_, hc⟩ | hc
  · rw [hc]
    decide
  · exact hex_digits_lower n c hc

theorem zero_padded_hex_of_large (n : Nat) (hle : 2 ^ 60 ≤ n) (hlt : n < 2 ^ 64) :
    zero_padded_hex n = hex_digits n ∧ (hex_digits n).length = 16 := by
  have hl : (hex_digits n).length = 16 :=
    hex_digits_length 15 n (by norm_num at hle ⊢; exact hle) (by norm_num at hlt ⊢; exact hlt)
  refine ⟨?_, hl⟩
  simp [zero_padded_hex, hl]

theorem legacy_hash_data (m : MangleEnv) (fingerprint : String) :
    (legacy_hash m fingerprint).data =
      'h' :: (zero_padded_hex ((m.fnv128_sum fingerprint).2 % 2 ^ 64) ++
        zero_padded_hex ((m.fnv128_sum fingerprint).1 % 2 ^ 64)).take 16 := by
  simp [legacy_hash]

theorem legacy_hash_length (m : MangleEnv) (fingerprint : String) :
    (legacy_hash m fingerprint).length = 17 := by
  have h1 := zero_padded_hex_length ((m.fnv128_sum fingerprint).2 % 2 ^ 64)
  have h2 := zero_padded_hex_length ((m.fnv128_sum fingerprint).1 % 2 ^ 64)
  simp only [String.length, legacy_hash_data, List.length_cons, List.length_take,
    List.length_append]
  omega

theorem legacy_hash_lower (m : MangleEnv) (fingerprint : String) :
    ∀ c ∈ (legacy_hash m fingerprint).data.tail, is_lower_hex c = true := by
  intro c hc
  rw [legacy_hash_data, List.tail_cons] at hc
  rcases List.mem_append.mp (List.mem_of_mem_take hc) with h | h
  · exact zero_padded_hex_lower _ c h
  · exact zero_padded_hex_lower _ c h

theorem legacy_escape_of_ne_lt (i : Nat) (c : Char) (h : c ≠ '<') :
    legacy_escape i c = legacy_escape 1 c := by
  simp [legacy_escape, h]

theorem legacy_escape_plain (i : Nat) (c : Char) (h : c ∈ "0123456789abcdefh".data) :
    c ≠ ':' ∧ legacy_escape i c = String.singleton c := by
  have hall : ∀ y ∈ "0123456789abcdefh".data,
      y ≠ ':' ∧ y ≠ '<' ∧ legacy_escape 1 y = String.singleton y := by decide
  obtain ⟨h1, h2, h3⟩ := hall c h
  exact ⟨h1, by rw [legacy_escape_of_ne_lt i c h2, h3]⟩

theorem legacy_escapes_plain :
    ∀ (cs : List Char) (i : Nat), (∀ c ∈ cs, c ∈ "0123456789abcdefh".data) →
      legacy_escapes cs i = String.mk cs := by
  intro cs
  induction cs with
  | nil => intro i _; rfl
  | cons c rest ih =>
    intro i h
    obtain ⟨h1, h2⟩ := legacy_escape_plain i c (h c (List.mem_cons_self _ _))
    rw [legacy_escapes_cons c rest i h1, h2, ih (i + 1) fun x hx => h x (List.mem_cons_of_mem _ hx)]
    apply String.ext
    simp [String.singleton]

theorem legacy_hash_plain (m : MangleEnv) (fingerprint : String) :
    ∀ c ∈ (legacy_hash m fingerprint).data, c ∈ "0123456789abcdefh".data := by
  intro c hc
  rw [legacy_hash_data] at hc
  rcases List.mem_cons.mp hc with h | h
  · rw [h]
    decide
  · have hl := legacy_hash_lower m fingerprint c (by rw [legacy_hash_data]; exact h)
    have hsub : ∀ y ∈ "0123456789abcdef".data, y ∈ "0123456789abcdefh".data := by decide
    exact hsub c (by simpa [is_lower_hex] using hl)

/-- The hash segment of a legacy symbol: `17` and the hash. -/
theorem legacy_mangle_name_hash (m : MangleEnv) (fingerprint : String) :
    legacy_mangle_name (legacy_hash m fingerprint) =
      Outcome.ok ("17" ++ legacy_hash m fingerprint) := by
  have hplain := legacy_hash_plain m fingerprint
  have hpaired : colons_paired (legacy_hash m fingerprint).data = true :=
    colons_paired_of_no_colon _ (legacy_hash_no_colon m fingerprint)
  have hascii : ∀ c ∈ (legacy_hash m fingerprint).data, is_ascii c = true := by
    intro c hc
    have hall : ∀ y ∈ "0123456789abcdefh".data, is_ascii y = true := by decide
    exact hall c (hplain c hc)
  simp only [legacy_mangle_name, legacy_mangle_loop_eq _ _ (Nat.le_refl _) hpaired 0 "",
    Outcome.bind_ok, String.empty_append, legacy_escapes_plain _ 0 hplain,
    utf8ByteSize_of_ascii _ hascii, legacy_hash_length]
  rfl

theorem back_eq_hyphen (s : String) : s.back = '-' ↔ s.data.getLast? = some '-' := by
  rw [String.back_eq, List.getLastD_eq_getLast?]
  cases s.data.getLast? with
  | none => simp
  | some c => simp

theorem get_zero_eq_underscore (s : String) : s.get 0 = '_' ↔ s.data.head? = some '_' := by
  have h : s.get 0 = s.data.headD default := String.front_eq s
  rw [h]
  cases hs : s.data with
  | nil => simp
  | cons c rest => simp

theorem all_ascii_iff (cs : List Char) :
    (cs.all fun c => decide (c.val.toNat ≤ 127)) = !(cs.any fun c => decide (127 < c.val.toNat)) := by
  induction cs with
  | nil => rfl
  | cons c rest ih =>
    simp only [List.all_cons, List.any_cons, ih, Bool.not_or]
    congr 1
    by_cases h : c.val.toNat ≤ 127
    · simp [h]
    · simp [h]
      omega

/-- The punycode form that `v0_add_identifier` computes is the form of the
specification. -/
theorem v0_form_eq (encoded : String) :
    String.mk ((if encoded.back = '-' then String.mk encoded.data.dropLast else encoded).data.map
      fun c => if c = '-' then '_' else c) = punycode_form encoded := by
  unfold punycode_form
  by_cases h : encoded.back = '-'
  · simp [h, (back_eq_hyphen encoded).mp h]
  · have h1 : ¬ encoded.data.getLast? = some '-' := fun e => h ((back_eq_hyphen encoded).mpr e)
    simp [h, h1]

/-- `v0_add_identifier` does what the specification says whenever the punycode
form does not start with a digit. -/
theorem v0_add_identifier_eq_spec (m : MangleEnv) (mangled identifier : String)
    (h : ∀ encoded c, m.encode_punycode identifier = some encoded →
      (punycode_form encoded).data.head? = some c → c.isDigit = false) :
    v0_add_identifier m mangled identifier = v0_add_identifier_spec m mangled identifier := by
  unfold v0_add_identifier v0_add_identifier_spec
  cases he : m.encode_punycode identifier with
  | none => rfl
  | some encoded =>
    simp only [v0_form_eq, all_ascii_iff, get_zero_eq_underscore]
    have hd := h encoded
    cases hf : (punycode_form encoded).data.head? with
    | none =>
      cases ha : identifier.data.any fun c => decide (127 < c.val.toNat) <;> simp [String.append_assoc]
    | some c =>
      have hc := hd c he hf
      cases ha : identifier.data.any fun c => decide (127 < c.val.toNat) <;>
        by_cases hu : c = '_' <;> simp [hc, hu, String.append_assoc]

end Compile

/-! ## Facts about copies and the predicate of a bound -/

namespace TyTy

open Resolver

namespace TypeBoundPredicate

theorem rebuilt_mappings_getElem? :
    ∀ (oas : List SubstitutionArg) (i k : Nat) (oa : SubstitutionArg),
      oas[k]? = some oa →
        (rebuilt_mappings oas i)[k]? =
          some { param := i + k, argument := oa.argument.map BaseType.clone } := by
  intro oas
  induction oas with
  | nil => intro i k oa h; simp at h
  | cons o rest ih =>
    intro i k oa h
    cases k with
    | zero =>
      simp only [List.getElem?_cons_zero, Option.some.injEq] at h
      subst h
      simp [rebuilt_mappings]
    | succ j =>
      simp only [List.getElem?_cons_succ] at h
      simp only [rebuilt_mappings, List.getElem?_cons_succ]
      rw [ih (i + 1) j oa h]
      simp only [Option.some.injEq, SubstitutionArg.mk.injEq, and_true]
      omega

/-- The copy of a predicate whose declaration id is not cached. -/
theorem copy_of_absent {s : State} {other : TypeBoundPredicate}
    (h : s.lookup_trait_reference other.reference = none) :
    copy s other =
      Outcome.ok
        { substitutions := []
          used_arguments := SubstitutionArgumentMappings.error
          reference := other.reference
          locus := other.locus
          error_flag := other.error_flag } := by
  simp [copy, is_error, h]

/-- The copy of a predicate that is not in error state and has no more
arguments than parameters. -/
theorem copy_of_cached {s : State} {other : TypeBoundPredicate} {r : TraitReference}
    (hr : s.lookup_trait_reference other.reference = some r)
    (hflag : other.error_flag = false)
    (hfit : other.used_arguments.size ≤ other.substitutions.length) :
    copy s other =
      Outcome.ok
        { substitutions := other.substitutions.map SubstitutionParamMapping.clone
          used_arguments :=
            { mappings := rebuilt_mappings other.used_arguments.mappings 0
              locus := other.used_arguments.locus }
          reference := other.reference
          locus := other.locus
          error_flag := other.error_flag } := by
  have hne : is_error s other = false := by simp [is_error, hr, hflag]
  have hfit1 : other.used_arguments.mappings ≠ [] →
      0 + other.used_arguments.mappings.length ≤
        (other.substitutions.map SubstitutionParamMapping.clone).length := by
    intro _
    simpa [SubstitutionArgumentMappings.size] using hfit
  simp only [copy, hne, Bool.false_eq_true, if_false,
    copy_mappings_of_fit _ _ 0 [] hfit1, Outcome.bind_ok, List.nil_append]

/-- A copy with nothing in it is copied to itself in every state. -/
theorem copy_of_empty (s : State) (reference : DefId) (locus : Location) ( flag : Bool) :
    copy s
        { substitutions := []
          used_arguments := SubstitutionArgumentMappings.error
          reference := reference
          locus := locus
          error_flag := flag } =
      Outcome.ok
        { substitutions := []
          used_arguments := SubstitutionArgumentMappings.error
          reference := reference
          locus := locus
          error_flag := flag } := by
  unfold copy
  split
  · rfl
  · simp [copy_mappings, SubstitutionArgumentMappings.error, Outcome.bind_ok]

end TypeBoundPredicate

end TyTy

namespace Resolver

open TyTy TraitResolver

theorem map_clone_eq (substs : List SubstitutionParamMapping) :
    substs.map SubstitutionParamMapping.clone = substs := by
  induction substs with
  | nil => rfl
  | cons m rest ih =>
    simp only [List.map_cons, ih]
    rfl

/-- Returning by value a predicate built from a cached reference with at least
one parameter gives that predicate, with or without the copy. -/
theorem return_by_value_fresh (elided : Bool) {s : State} {r r1 : TraitReference}
    (locus : Location) (hc : s.lookup_trait_reference r.get_defid = some r1)
    (hl : 1 ≤ r.trait_substs.length) :
    return_by_value elided s (TypeBoundPredicate.from_trait_reference r locus) =
      Outcome.ok (TypeBoundPredicate.from_trait_reference r locus) := by
  cases elided with
  | true => rfl
  | false =>
    have hcopy := @TypeBoundPredicate.copy_of_cached s
      (TypeBoundPredicate.from_trait_reference r locus) r1 hc rfl
      (by simpa [TypeBoundPredicate.from_trait_reference, SubstitutionArgumentMappings.size,
        SubstitutionArgumentMappings.error, TraitReference.get_trait_substs] using hl)
    simp only [return_by_value, Bool.false_eq_true, if_false, hcopy, map_clone_eq]
    rfl

/-- For a reference with the receiver as its only parameter
`get_predicate_from_bound` applies no generic arguments. -/
theorem get_predicate_from_bound_receiver_only {resolve : ResolveFn}
    (mapper : List SubstitutionParamMapping → SubstitutionArgumentMappings →
      HIR.GenericArgs → SubstitutionArgumentMappings)
    (elided : Bool) {p : HIR.TypePath} {s s1 : State} {r r1 : TraitReference}
    (h : resolve p s = Outcome.ok (r, s1)) (hr : r.is_error = false)
    (hc : s1.lookup_trait_reference r.get_defid = some r1)
    (hl : r.trait_substs.length = 1) :
    get_predicate_from_bound resolve mapper elided p s =
      Outcome.ok (TypeBoundPredicate.from_trait_reference r p.locus, s1) := by
  have hreq : (TypeBoundPredicate.from_trait_reference r p.locus).requires_generic_args s1 =
      false := by
    simp [TypeBoundPredicate.requires_generic_args, TypeBoundPredicate.from_trait_reference,
      TraitReference.get_trait_substs, hl]
  simp only [get_predicate_from_bound, h, Outcome.bind_ok, hr, Bool.false_eq_true, if_false,
    hreq, return_by_value_fresh elided p.locus hc (Nat.le_of_eq hl.symm)]

end Resolver
/-! ## The claims -/

namespace Claims

open Resolver TyTy TraitResolver Sample

/-- C1: when a trait path leads to a declaration and `resolve` returns
for it, the reference returned is the one the cache now holds for that
declaration, and resolving the path again from the resulting state returns the
same reference (declaration, items and super-traits alike) at once and leaves
the state as it was: no item is resolved again and the hook is not invoked
again. -/
theorem C1_resolve_idempotent (env : Env) (fuel n : Nat) (p : HIR.TypePath)
    (t : HIR.Trait) (s s1 : State) (r : TraitReference)
    (hp : path_declaration env p = some t)
    (h : Resolve env fuel p s = Outcome.ok (r, s1)) :
    s1.lookup_trait_reference t.defid = some r ∧
      Resolve env (n + 1) p s1 = Outcome.ok (r, s1) := by
  have hc := (Resolve_sound env fuel p s r s1 h).2 t hp
  exact ⟨hc, go_cached _ hp hc⟩

theorem C1_resolve_idempotent_witness :
    Resolve crate 1 (path_to 10) State.empty = Outcome.ok (base_reference, base_state) ∧
      base_reference.is_error = false ∧
      base_state.lookup_trait_reference 1 = some base_reference ∧
      Resolve crate 1 (path_to 10) base_state = Outcome.ok (base_reference, base_state) :=
  ⟨rfl, rfl,
    C1_resolve_idempotent crate 1 0 (path_to 10) base_trait State.empty base_state
      base_reference rfl rfl⟩

/-- C2: for a path that leads to a declaration, `Lookup` returns the
reference cached under the id of that declaration, or the error reference when
there is none, and the state it returns is the state it was given; and after
`resolve` has returned for the path, `Lookup` returns the reference `resolve`
returned. -/
theorem C2_lookup_cache_only (env : Env) (p : HIR.TypePath) (t : HIR.Trait) (s : State)
    (hp : path_declaration env p = some t) :
    (∀ r, s.lookup_trait_reference t.defid = some r →
        Lookup env p s = Outcome.ok (r, s)) ∧
      (s.lookup_trait_reference t.defid = none →
        Lookup env p s = Outcome.ok (TraitReference.error_node, s)) ∧
      ∀ fuel r s1, Resolve env fuel p s = Outcome.ok (r, s1) →
        Lookup env p s1 = Outcome.ok (r, s1) := by
  refine ⟨?_, ?_, ?_⟩
  · intro r hc
    simp [Lookup, lookup_path_of_declaration s hp, hc]
  · intro hc
    simp [Lookup, lookup_path_of_declaration s hp, hc]
  · intro fuel r s1 h
    have hc := (Resolve_sound env fuel p s r s1 h).2 t hp
    simp [Lookup, lookup_path_of_declaration s1 hp, hc]

theorem C2_lookup_cache_only_witness :
    Lookup crate (path_to 10) State.empty =
        Outcome.ok (TraitReference.error_node, State.empty) ∧
      Lookup crate (path_to 10) base_state = Outcome.ok (base_reference, base_state) :=
  have h := C2_lookup_cache_only crate (path_to 10) base_trait State.empty rfl
  ⟨h.2.1 rfl, h.2.2 1 base_reference base_state rfl⟩

/-- C3: for `trait A: A {}`, and for `trait B: C {}` with `trait C: B {}`,
`resolve` does not return at any recursion depth: the super-trait loop of `go`
re-enters the resolution of a declaration that is not cached yet. -/
theorem C3_super_trait_cycle_never_returns :
    ∀ fuel : Nat,
      Resolve cyclic_crate fuel (path_to 10) State.empty = Outcome.out_of_fuel ∧
        Resolve cyclic_crate fuel (path_to 11) State.empty = Outcome.out_of_fuel ∧
        Resolve cyclic_crate fuel (path_to 12) State.empty = Outcome.out_of_fuel :=
  fun fuel =>
    ⟨resolve_a_out_of_fuel fuel State.empty rfl,
      resolve_b_c_out_of_fuel fuel State.empty rfl⟩

/-- C4: in a fresh resolution of a declaration that returns, the hook
`on_resolved` is invoked in a state `sh` whose cache already maps the
declaration id to the reference returned, and that reference has one item
reference per declared item, in declaration order. So in `sh`, and in every
state whose cache still holds the entries of `sh`, resolving or looking up a
path to the declaration returns that reference through the cached branch and
leaves the state as it is. -/
theorem C4_hook_sees_populated_reference (env : Env) (fuel : Nat) (p : HIR.TypePath)
    (t : HIR.Trait) (s s1 : State) (r : TraitReference)
    (hp : path_declaration env p = some t)
    (hc : s.lookup_trait_reference t.defid = none)
    (h : Resolve env (fuel + 1) p s = Outcome.ok (r, s1)) :
    ∃ sh : State,
      sh.lookup_trait_reference t.defid = some r ∧
      r.item_refs.map (fun i => i.hir_trait_item) = t.trait_items.map some ∧
      r.item_refs.map (fun i => i.identifier) = t.trait_items.map (fun i => i.name) ∧
      r.on_resolved (Resolve env fuel) sh = Outcome.ok s1 ∧
      ∀ sx : State, sh.le sx → ∀ (n : Nat) (q : HIR.TypePath),
        path_declaration env q = some t →
          Resolve env (n + 1) q sx = Outcome.ok (r, sx) ∧
            Lookup env q sx = Outcome.ok (r, sx) := by
  obtain ⟨self, substitutions, sg, self_bound, specified_bounds, super_traits, sl,
    _, _, _, hr, hh⟩ := go_fresh hp hc h
  have hrefs := trait_items_loop_refs self substitutions t.trait_items []
    (sl.emit (Event.inherit_bounds self specified_bounds))
  generalize trait_items_loop self substitutions t.trait_items []
    (sl.emit (Event.inherit_bounds self specified_bounds)) = r3 at hrefs hh hr
  refine ⟨r3.2.insert_trait_reference t.defid r, State.lookup_insert_self _ _ _, ?_, ?_, hh,
    ?_⟩
  · rw [hr, hrefs]
    simp [ResolveTraitItemToRef.Resolve, ResolveTraitItemToRef.visit, Function.comp_def]
  · rw [hr, hrefs]
    simp [ResolveTraitItemToRef.Resolve, ResolveTraitItemToRef.visit, Function.comp_def]
  · intro sx hle n q hq
    have hx := hle _ _ (State.lookup_insert_self r3.2 t.defid r)
    refine ⟨go_cached _ hq hx, ?_⟩
    simp [Lookup, lookup_path_of_declaration sx hq, hx]

theorem C4_hook_sees_populated_reference_witness :
    Resolve crate 2 (path_to 11) State.empty =
        Outcome.ok (derived_reference, derived_state) ∧
      ∃ sh : State,
        sh.lookup_trait_reference 2 = some derived_reference ∧
        derived_reference.item_refs.map (fun i => i.hir_trait_item) =
          derived_trait.trait_items.map some ∧
        derived_reference.item_refs.map (fun i => i.identifier) = ["Out", "run"] ∧
        derived_reference.on_resolved (Resolve crate 1) sh = Outcome.ok derived_state ∧
        ∀ sx : State, sh.le sx → ∀ (n : Nat) (q : HIR.TypePath),
          path_declaration crate q = some derived_trait →
            Resolve crate (n + 1) q sx = Outcome.ok (derived_reference, sx) ∧
              Lookup crate q sx = Outcome.ok (derived_reference, sx) :=
  ⟨rfl,
    C4_hook_sees_populated_reference crate 1 (path_to 11) derived_trait State.empty
      derived_state derived_reference rfl rfl rfl⟩

/-- C5, as amended: in a fresh resolution that returns, when the first type
parameter of the declaration is named "Self" and no later type parameter bears
that name (lifetime parameters may come before it), the receiver that `go`
records, and hands to every item, is the placeholder of that parameter and
element 0 of the substitution list of the reference returned is the mapping of
that same parameter. -/
theorem C5_receiver_is_first_substitution (env : Env) (fuel : Nat) (p : HIR.TypePath)
    (t : HIR.Trait) (s s1 : State) (r : TraitReference) (tp : HIR.TypeParam)
    (rest : List HIR.TypeParam)
    (hp : path_declaration env p = some t)
    (hc : s.lookup_trait_reference t.defid = none)
    (h : Resolve env (fuel + 1) p s = Outcome.ok (r, s1))
    (htp : type_params t.generic_params = tp :: rest)
    (hself : tp.type_representation = "Self")
    (hrest : ∀ q ∈ rest, q.type_representation ≠ "Self") :
    (generic_params_loop t.generic_params none [] s).1 =
        some (TypeResolveGenericParam.Resolve tp) ∧
      r.trait_substs.head? =
        some { generic := tp, param := TypeResolveGenericParam.Resolve tp } ∧
      ∀ i ∈ r.item_refs, i.self = some (TypeResolveGenericParam.Resolve tp) := by
  obtain ⟨self, substitutions, sg, self_bound, specified_bounds, super_traits, sl,
    hg, _, _, hr, _⟩ := go_fresh hp hc h
  have hfirst := generic_params_loop_self_first t.generic_params none [] s tp rest htp
    hself hrest
  have hself1 : self = TypeResolveGenericParam.Resolve tp := by
    rw [hg] at hfirst
    exact Option.some.inj hfirst
  refine ⟨hfirst, ?_, ?_⟩
  · have hs := generic_params_loop_substs t.generic_params none [] s
    rw [hg] at hs
    simp only [List.nil_append] at hs
    rw [hr]
    simp only
    rw [hs, htp]
    rfl
  · intro i hi
    rw [hr] at hi
    simp only [trait_items_loop_refs, List.nil_append, List.mem_map] at hi
    obtain ⟨item, _, hitem⟩ := hi
    rw [← hitem, hself1]
    rfl

theorem C5_receiver_is_first_substitution_witness :
    Resolve crate 2 (path_to 11) State.empty =
        Outcome.ok (derived_reference, derived_state) ∧
      (generic_params_loop derived_trait.generic_params none [] State.empty).1 =
        some derived_self ∧
      derived_reference.trait_substs.head? =
        some { generic := { hirid := 60, type_representation := "Self", locus := 60 }
               param := derived_self } ∧
      ∀ i ∈ derived_reference.item_refs, i.self = some derived_self :=
  ⟨rfl,
    C5_receiver_is_first_substitution crate 1 (path_to 11) derived_trait State.empty
      derived_state derived_reference
      { hirid := 60, type_representation := "Self", locus := 60 }
      [{ hirid := 61, type_representation := "T", locus := 61 }] rfl rfl rfl rfl rfl
      (by decide)⟩

/-- C5, the claim as stated fails: for a declaration whose generic parameters
are `T, Self`, resolution returns a reference whose substitution 0 is the
parameter `T`, while the receiver recorded is the placeholder of `Self`. -/
theorem C5_counterexample :
    ∃ (r : TraitReference) (s1 : State),
      Resolve odd_crate 1 (path_to 17) State.empty = Outcome.ok (r, s1) ∧
      r.is_error = false ∧
      (generic_params_loop late_self_trait.generic_params none [] State.empty).1 =
        some (BaseType.ParamType 91 "Self") ∧
      r.trait_substs.head?.map (fun m => m.param) = some (BaseType.ParamType 90 "T") ∧
      BaseType.ParamType 90 "T" ≠ BaseType.ParamType 91 "Self" :=
  ⟨_, _, rfl, rfl, rfl, rfl, by decide⟩

/-- C6, as amended: right after construction, from a `TraitReference` or from
`(DefId, substitutions, Location)`, the predicate holds the parameters it was
given and exactly one used argument, the unbound receiver slot, so its two
sizes agree exactly when there is one parameter; copy construction and
assignment from a source that is not in error state and has no more arguments
than parameters return a predicate with the two sizes of the source;
`apply_generic_arguments` leaves the substitutions as they are and stores what
the argument mapper returns as the used arguments, and with the argument
mapper of the spec a call that leaves the error flag clear leaves the two
sizes equal, the receiver slot among them. -/
theorem C6_predicate_sizes :
    (∀ (tref : TraitReference) (locus : Location),
      (TypeBoundPredicate.from_trait_reference tref locus).substitutions =
          tref.trait_substs ∧
        (TypeBoundPredicate.from_trait_reference tref locus).used_arguments.mappings =
          [{ param := 0, argument := none }] ∧
        ((TypeBoundPredicate.from_trait_reference tref locus).substitutions.length =
            (TypeBoundPredicate.from_trait_reference tref locus).used_arguments.size ↔
          tref.trait_substs.length = 1)) ∧
    (∀ (d : DefId) (substs : List SubstitutionParamMapping) (locus : Location),
      (TypeBoundPredicate.from_defid d substs locus).substitutions = substs ∧
        (TypeBoundPredicate.from_defid d substs locus).used_arguments.mappings =
          [{ param := 0, argument := none }] ∧
        ((TypeBoundPredicate.from_defid d substs locus).substitutions.length =
            (TypeBoundPredicate.from_defid d substs locus).used_arguments.size ↔
          substs.length = 1)) ∧
    (∀ (s : State) (this other : TypeBoundPredicate),
      other.is_error s = false →
      other.used_arguments.size ≤ other.substitutions.length →
      ∃ c, TypeBoundPredicate.copy s other = Outcome.ok c ∧
        TypeBoundPredicate.assign s this other = Outcome.ok c ∧
        c.substitutions.length = other.substitutions.length ∧
        c.used_arguments.size = other.used_arguments.size) ∧
    (∀ (mapper : List SubstitutionParamMapping → SubstitutionArgumentMappings →
          HIR.GenericArgs → SubstitutionArgumentMappings)
        (p p1 : TypeBoundPredicate) (args : HIR.GenericArgs),
      TypeBoundPredicate.apply_generic_arguments mapper p args = Outcome.ok p1 →
      p1.substitutions = p.substitutions ∧
        p1.used_arguments = mapper p.substitutions p.used_arguments args) ∧
    (∀ (p p1 : TypeBoundPredicate) (args : HIR.GenericArgs),
      TypeBoundPredicate.apply_generic_arguments get_mappings_from_generic_args p args =
        Outcome.ok p1 →
      p1.error_flag = false →
      p1.substitutions.length = p1.used_arguments.size ∧ 1 ≤ p1.used_arguments.size) := by
  refine ⟨?_, ?_, ?_, ?_, ?_⟩
  · intro tref locus
    simp [TypeBoundPredicate.from_trait_reference, TraitReference.get_trait_substs,
      SubstitutionArgumentMappings.error, SubstitutionArgumentMappings.size]
  · intro d substs locus
    simp [TypeBoundPredicate.from_defid, SubstitutionArgumentMappings.error,
      SubstitutionArgumentMappings.size]
  · intro s this other hne hle
    obtain ⟨m, hm⟩ := TypeBoundPredicate.copy_mappings_ok
      (other.substitutions.map SubstitutionParamMapping.clone) other.used_arguments.mappings
      0 [] (by simpa [SubstitutionArgumentMappings.size] using hle)
    have hlen := TypeBoundPredicate.copy_mappings_length _ _ _ _ _ hm
    have hcopy : TypeBoundPredicate.copy s other = Outcome.ok
        { substitutions := other.substitutions.map SubstitutionParamMapping.clone
          used_arguments := { mappings := m, locus := other.used_arguments.locus }
          reference := other.reference
          locus := other.locus
          error_flag := other.error_flag } := by
      simp [TypeBoundPredicate.copy, hne, hm, Outcome.bind_ok]
    refine ⟨_, hcopy, ?_, ?_, ?_⟩
    · rw [TypeBoundPredicate.assign_eq_copy, hcopy]
    · simp
    · simpa [SubstitutionArgumentMappings.size] using hlen
  · intro mapper p p1 args h
    unfold TypeBoundPredicate.apply_generic_arguments at h
    split at h
    · cases h
    · split at h
      · cases h
      · simp only [Outcome.ok.injEq] at h
        subst h
        exact ⟨rfl, rfl⟩
  · intro p p1 args h hflag
    unfold TypeBoundPredicate.apply_generic_arguments at h
    split at h
    · cases h
    · split at h
      · cases h
      · rename_i hu _
        simp only [Outcome.ok.injEq] at h
        subst h
        simp only [Bool.or_eq_false_iff] at hflag
        have hne := hflag.2
        simp only [get_mappings_from_generic_args] at hne ⊢
        split at hne
        · rename_i hfit
          rw [if_pos hfit]
          simp only [SubstitutionArgumentMappings.size, List.length_append,
            TypeBoundPredicate.bind_type_args_length]
          simp only [SubstitutionArgumentMappings.is_empty, SubstitutionArgumentMappings.size,
            beq_iff_eq] at hu
          simp only [SubstitutionArgumentMappings.size] at hfit
          omega
        · simp [SubstitutionArgumentMappings.is_error, SubstitutionArgumentMappings.size,
            SubstitutionArgumentMappings.error] at hne

theorem C6_predicate_sizes_witness :
    (TypeBoundPredicate.from_trait_reference base_reference 7).is_error base_state = false ∧
      (∃ c, TypeBoundPredicate.copy base_state
            (TypeBoundPredicate.from_trait_reference base_reference 7) = Outcome.ok c ∧
          TypeBoundPredicate.assign base_state TypeBoundPredicate.error
            (TypeBoundPredicate.from_trait_reference base_reference 7) = Outcome.ok c ∧
          c.substitutions.length = 1 ∧ c.used_arguments.size = 1) ∧
      (TypeBoundPredicate.from_trait_reference derived_reference 7).substitutions =
        derived_substs ∧
      (∀ p1, TypeBoundPredicate.apply_generic_arguments get_mappings_from_generic_args
          (TypeBoundPredicate.from_trait_reference derived_reference 7) one_arg =
            Outcome.ok p1 →
        p1.substitutions = derived_substs) ∧
      derived_applied.substitutions.length = derived_applied.used_arguments.size ∧
        1 ≤ derived_applied.used_arguments.size :=
  ⟨rfl, C6_predicate_sizes.2.2.1 base_state TypeBoundPredicate.error
      (TypeBoundPredicate.from_trait_reference base_reference 7) rfl (by decide),
    (C6_predicate_sizes.1 derived_reference 7).1,
    fun p1 h => (C6_predicate_sizes.2.2.2.1 get_mappings_from_generic_args _ p1 one_arg h).1,
    C6_predicate_sizes.2.2.2.2 (TypeBoundPredicate.from_trait_reference derived_reference 7)
      derived_applied one_arg rfl rfl⟩

/-- C6, the claim as stated fails: the predicate built from the cached
reference of `Derived`, a trait with the parameters `Self` and `T`, is not in
error state and has two substitutions but one used argument. -/
theorem C6_counterexample :
    (TypeBoundPredicate.from_trait_reference derived_reference 7).is_error derived_state =
        false ∧
      (TypeBoundPredicate.from_trait_reference derived_reference 7).substitutions.length =
        2 ∧
      (TypeBoundPredicate.from_trait_reference derived_reference 7).used_arguments.size = 1 :=
  ⟨rfl, rfl, rfl⟩

/-- C7: in a fresh resolution of a trait that returns, started from a
well-formed cache and with every trait bound of the declaration leading to a
declaration, `inherit_bounds` is called on the receiver with a bound list whose
declaration ids are the id of the trait itself followed by the ids of the
declared trait bounds, in declaration order (bounds that are not trait bounds
give nothing), and the super-trait list of the reference returned is the list
of those ids. -/
theorem C7_receiver_bounds (env : Env) (fuel : Nat) (p : HIR.TypePath) (t : HIR.Trait)
    (s s1 : State) (r : TraitReference)
    (hp : path_declaration env p = some t)
    (hc : s.lookup_trait_reference t.defid = none)
    (hw : s.wf)
    (hb : ∀ q l, HIR.TypeParamBound.TRAITBOUND q l ∈ t.type_param_bounds →
      ∃ u, path_declaration env q = some u)
    (h : Resolve env (fuel + 1) p s = Outcome.ok (r, s1)) :
    ∃ (self : BaseType) (specified_bounds : List TypeBoundPredicate)
        (before after : List Event),
      (generic_params_loop t.generic_params none [] s).1 = some self ∧
      s1.events =
        s.events ++ before ++ Event.inherit_bounds self specified_bounds :: after ∧
      specified_bounds.map (fun b => b.reference) =
        t.defid :: bound_defids env t.type_param_bounds ∧
      r.super_traits = bound_defids env t.type_param_bounds := by
  have hf := Resolve_sound env fuel
  obtain ⟨self, substitutions, sg, self_bound, specified_bounds, super_traits, sl,
    hg, hsb, hl, hr, hh⟩ := go_fresh hp hc h
  have hlg : s.later sg := by
    have := generic_params_loop_later t.generic_params none [] s
    rw [hg] at this
    exact this
  obtain ⟨i1, i2⟩ := super_traits_loop_ids hf _ _ _ _ _ _ _ (hlg.2.1 hw) hb hl
  have hll := super_traits_loop_later hf _ _ _ _ _ _ _ hl
  have hli := trait_items_loop_later self substitutions t.trait_items []
    (sl.emit (Event.inherit_bounds self specified_bounds))
  generalize trait_items_loop self substitutions t.trait_items []
    (sl.emit (Event.inherit_bounds self specified_bounds)) = r3 at hh hr hli
  have hlh := on_resolved_later hf _ _ _ hh
  obtain ⟨before, hbefore⟩ := List.IsPrefix.trans hlg.2.2 hll.2.2
  obtain ⟨after, hafter⟩ := List.IsPrefix.trans hli.2.2 hlh.2.2
  refine ⟨self, specified_bounds, before, after, by rw [hg], ?_, ?_, ?_⟩
  · rw [← hafter, hbefore]
    simp [State.emit]
  · rw [i1]
    simp [TypeBoundPredicate.copy_reference hsb, TypeBoundPredicate.from_defid]
  · rw [hr]
    simpa using i2

theorem C7_receiver_bounds_witness :
    Resolve crate 2 (path_to 11) State.empty =
        Outcome.ok (derived_reference, derived_state) ∧
      ∃ (self : BaseType) (specified_bounds : List TypeBoundPredicate)
          (before after : List Event),
        (generic_params_loop derived_trait.generic_params none [] State.empty).1 =
          some self ∧
        derived_state.events =
          State.empty.events ++ before ++
            Event.inherit_bounds self specified_bounds :: after ∧
        specified_bounds.map (fun b => b.reference) = [2, 1] ∧
        derived_reference.super_traits = [1] :=
  ⟨rfl,
    C7_receiver_bounds crate 1 (path_to 11) derived_trait State.empty derived_state
      derived_reference rfl rfl State.wf_empty
      (by
        intro q l hm
        simp only [derived_trait, List.mem_cons, HIR.TypeParamBound.TRAITBOUND.injEq,
          List.mem_singleton] at hm
        rcases hm with ⟨hq, _⟩ | hm
        · subst hq
          exact ⟨base_trait, rfl⟩
        · simp at hm)
      rfl⟩

/-- C8, as amended: a path with no resolved node id, and a path whose node id
has no HIR mapping, make `resolve` return the error reference, for which
`is_error` holds, after one diagnostic and with the cache as it was; a
declaration missing from the declaration store is not recovered: `resolve`
fails `rust_assert (resolved_item != nullptr)`. -/
theorem C8_resolution_failures (env : Env) (fuel : Nat) (p : HIR.TypePath) (s : State) :
    (env.lookup_resolved_type p.nodeid = none →
      Resolve env (fuel + 1) p s =
        Outcome.ok (TraitReference.error_node,
          s.emit (Event.rust_error_at p.locus "Failed to resolve path to node-id"))) ∧
    (∀ ref, env.lookup_resolved_type p.nodeid = some ref →
      env.lookup_node_to_hir ref = none →
      Resolve env (fuel + 1) p s =
        Outcome.ok (TraitReference.error_node,
          s.emit (Event.rust_error_at p.locus "Failed to resolve path to hir-id"))) ∧
    (∀ ref hir_node, env.lookup_resolved_type p.nodeid = some ref →
      env.lookup_node_to_hir ref = some hir_node →
      env.lookup_hir_item hir_node = none →
      Resolve env (fuel + 1) p s = Outcome.abort "resolved_item != nullptr") ∧
    TraitReference.error_node.is_error = true ∧
    ∀ e : Event, (s.emit e).trait_context = s.trait_context := by
  refine ⟨?_, ?_, ?_, rfl, fun _ => rfl⟩
  · intro h1
    simp only [Resolve, go, h1]
  · intro ref h1 h2
    simp only [Resolve, go, h1, h2]
  · intro ref hir_node h1 h2 h3
    simp only [Resolve, go, h1, h2, h3]

theorem C8_resolution_failures_witness :
    Resolve crate 1 (path_to 12) base_state =
        Outcome.ok (TraitReference.error_node,
          base_state.emit (Event.rust_error_at 12 "Failed to resolve path to node-id")) ∧
      Resolve crate 1 (path_to 13) base_state =
        Outcome.ok (TraitReference.error_node,
          base_state.emit (Event.rust_error_at 13 "Failed to resolve path to hir-id")) ∧
      Resolve crate 1 (path_to 14) base_state = Outcome.abort "resolved_item != nullptr" :=
  have h (q : HIR.TypePath) := C8_resolution_failures crate 0 q base_state
  ⟨(h (path_to 12)).1 rfl, (h (path_to 13)).2.1 23 rfl rfl,
    (h (path_to 14)).2.2.1 24 34 rfl rfl rfl⟩

/-- C8, the claim as stated fails: path 14 has a resolved node id and an HIR
id, the declaration store holds nothing under that id, and `resolve` ends in
the failed assertion instead of returning the error reference. -/
theorem C8_counterexample :
    crate.lookup_resolved_type (path_to 14).nodeid = some 24 ∧
      crate.lookup_node_to_hir 24 = some 34 ∧
      crate.lookup_hir_item 34 = none ∧
      Resolve crate 1 (path_to 14) State.empty = Outcome.abort "resolved_item != nullptr" :=
  ⟨rfl, rfl, rfl, rfl⟩

/-- C9: for `trait Bad: Missing {}`, where the path of the bound does not
resolve, the inner `resolve` returns the error reference and the resolution of
`Bad` then ends in the failed `rust_assert (ok)` of `TypeBoundPredicate::get`,
at every recursion depth that lets the inner call return. -/
theorem C9_unresolved_super_trait_aborts :
    ∀ fuel : Nat,
      Resolve odd_crate (fuel + 1) (path_to 15) State.empty =
          Outcome.ok (TraitReference.error_node,
            State.empty.emit
              (Event.rust_error_at 15 "Failed to resolve path to node-id")) ∧
        Resolve odd_crate (fuel + 2) (path_to 16) State.empty = Outcome.abort "ok" :=
  fun _ => ⟨rfl, rfl⟩

/-- C10, as amended: when the argument mapper yields the error sentinel,
`apply_generic_arguments` (its two assertions holding) sets the error flag and
replaces the used arguments by that sentinel, which has no binding, so the
receiver slot is gone and the size is 0; the substitutions, the declaration id
and the locus are as before. -/
theorem C10_apply_mismatch
    (mapper : List SubstitutionParamMapping → SubstitutionArgumentMappings →
      HIR.GenericArgs → SubstitutionArgumentMappings)
    (p : TypeBoundPredicate) (args : HIR.GenericArgs)
    (hu : p.used_arguments.is_empty = false)
    (hs : p.substitutions.isEmpty = false)
    (he : (mapper p.substitutions p.used_arguments args).is_error = true) :
    ∃ p1, TypeBoundPredicate.apply_generic_arguments mapper p args = Outcome.ok p1 ∧
      p1.error_flag = true ∧
      p1.used_arguments = mapper p.substitutions p.used_arguments args ∧
      p1.used_arguments.size = 0 ∧
      p1.substitutions = p.substitutions ∧
      p1.reference = p.reference ∧
      p1.locus = p.locus := by
  have hrun : TypeBoundPredicate.apply_generic_arguments mapper p args =
      Outcome.ok
        { p with
          used_arguments := mapper p.substitutions p.used_arguments args
          error_flag := p.error_flag || (mapper p.substitutions p.used_arguments args).is_error } := by
    simp [TypeBoundPredicate.apply_generic_arguments, hu, hs]
  refine ⟨_, hrun, ?_, rfl, ?_, rfl, rfl, rfl⟩
  · simp [he]
  · simpa [SubstitutionArgumentMappings.is_error] using he

theorem C10_apply_mismatch_witness :
    ∃ p1, TypeBoundPredicate.apply_generic_arguments get_mappings_from_generic_args
        (TypeBoundPredicate.from_trait_reference derived_reference 7) two_args =
          Outcome.ok p1 ∧
      p1.error_flag = true ∧
      p1.used_arguments =
        get_mappings_from_generic_args derived_substs
          (TypeBoundPredicate.from_trait_reference derived_reference 7).used_arguments
          two_args ∧
      p1.used_arguments.size = 0 ∧
      p1.substitutions = derived_substs ∧
      p1.reference = 2 ∧
      p1.locus = 7 :=
  C10_apply_mismatch get_mappings_from_generic_args
    (TypeBoundPredicate.from_trait_reference derived_reference 7) two_args rfl rfl rfl

/-- C10, the claim as stated fails: two arguments applied to the predicate of
`Derived`, a trait with one parameter besides the receiver, set the error flag
and leave no used argument where there was one before the call. -/
theorem C10_counterexample :
    (TypeBoundPredicate.from_trait_reference derived_reference 7).used_arguments.size = 1 ∧
      TypeBoundPredicate.apply_generic_arguments get_mappings_from_generic_args
          (TypeBoundPredicate.from_trait_reference derived_reference 7) two_args =
        Outcome.ok
          { substitutions := derived_substs
            used_arguments := SubstitutionArgumentMappings.error
            reference := 2
            locus := 7
            error_flag := true } ∧
      SubstitutionArgumentMappings.error.size = 0 :=
  ⟨rfl, rfl, rfl⟩

/-- C11: for a predicate that is not in error state, with `tref` the cached
reference of its trait: `lookup_associated_item` returns the error item
sentinel exactly when no item of the trait has the name as its identifier,
which is exactly when `contains_item` answers false; and when the trait has
such an item the result pairs the predicate with an item reference of the
trait that bears the name (the first one). -/
theorem C11_lookup_associated_item (s : State) (p : TypeBoundPredicate) (name : String)
    (hne : p.is_error s = false) :
    ∃ (tref : TraitReference) (item : TypeBoundPredicateItem) (found : Bool),
      s.lookup_trait_reference p.reference = some tref ∧
      p.lookup_associated_item s name = Outcome.ok item ∧
      p.contains_item s name = Outcome.ok found ∧
      (item = TypeBoundPredicateItem.error ↔ ∀ i ∈ tref.item_refs, i.identifier ≠ name) ∧
      (item = TypeBoundPredicateItem.error ↔ found = false) ∧
      ((∃ i ∈ tref.item_refs, i.identifier = name) →
        ∃ i ∈ tref.item_refs, i.identifier = name ∧
          tref.lookup_trait_item name = some i ∧
          item = { parent := some p, trait_item_ref := some i }) := by
  obtain ⟨tref, hc, _⟩ := TypeBoundPredicate.cached_of_not_error hne
  cases hf : tref.lookup_trait_item name with
  | none =>
    have hall : ∀ i ∈ tref.item_refs, i.identifier ≠ name := by
      intro i hi
      have := List.find?_eq_none.mp hf i hi
      simpa using this
    refine ⟨tref, TypeBoundPredicateItem.error, false, hc, ?_, ?_, ?_, ?_, ?_⟩
    · simp [TypeBoundPredicate.lookup_associated_item, TypeBoundPredicate.get_of_cached hc,
        Outcome.bind_ok, hf]
    · simp [TypeBoundPredicate.contains_item, TypeBoundPredicate.get_of_cached hc,
        Outcome.bind_ok, hf]
    · exact ⟨fun _ => hall, fun _ => rfl⟩
    · simp
    · rintro ⟨i, hi, hn⟩
      exact absurd hn (hall i hi)
  | some i =>
    have hmem : i ∈ tref.item_refs := List.mem_of_find?_eq_some hf
    have hname : i.identifier = name := by
      have := List.find?_some hf
      simpa using this
    have hitem : ({ parent := some p, trait_item_ref := some i } : TypeBoundPredicateItem) ≠
        TypeBoundPredicateItem.error := by
      simp [TypeBoundPredicateItem.error]
    refine ⟨tref, { parent := some p, trait_item_ref := some i }, true, hc, ?_, ?_, ?_, ?_, ?_⟩
    · simp [TypeBoundPredicate.lookup_associated_item, TypeBoundPredicate.get_of_cached hc,
        Outcome.bind_ok, hf]
    · simp [TypeBoundPredicate.contains_item, TypeBoundPredicate.get_of_cached hc,
        Outcome.bind_ok, hf]
    · exact ⟨fun h => absurd h hitem, fun h => absurd hname (h i hmem)⟩
    · simp [hitem]
    · intro _
      exact ⟨i, hmem, hname, hf, rfl⟩

theorem C11_lookup_associated_item_witness :
    fnlike_predicate.is_error fnlike_state = false ∧
      fnlike_predicate.lookup_associated_item fnlike_state "call" =
        Outcome.ok { parent := some fnlike_predicate, trait_item_ref := some call_ref } ∧
      fnlike_predicate.lookup_associated_item fnlike_state "missing_name" =
        Outcome.ok TypeBoundPredicateItem.error ∧
      ∃ (tref : TraitReference) (item : TypeBoundPredicateItem) (found : Bool),
        fnlike_state.lookup_trait_reference fnlike_predicate.reference = some tref ∧
        fnlike_predicate.lookup_associated_item fnlike_state "call" = Outcome.ok item ∧
        fnlike_predicate.contains_item fnlike_state "call" = Outcome.ok found ∧
        (item = TypeBoundPredicateItem.error ↔ ∀ i ∈ tref.item_refs, i.identifier ≠ "call") ∧
        (item = TypeBoundPredicateItem.error ↔ found = false) ∧
        ((∃ i ∈ tref.item_refs, i.identifier = "call") →
          ∃ i ∈ tref.item_refs, i.identifier = "call" ∧
            tref.lookup_trait_item "call" = some i ∧
            item = { parent := some fnlike_predicate, trait_item_ref := some i }) :=
  ⟨rfl, rfl, rfl, C11_lookup_associated_item fnlike_state fnlike_predicate "call" rfl⟩

/-- C12, as amended: the five queries `contains_item`,
`lookup_associated_item`, `is_object_safe`, `get_name` and `as_string` do not
test `is_error ()`; each starts with `get ()`. On a predicate whose declaration
id has no entry in the trait cache each of them fails `rust_assert (ok)`; on a
predicate whose declaration id is cached each answers from the cached trait,
whatever its error flag. `needs_implementation ()` on the error item sentinel
dereferences the null trait item. -/
theorem C12_queries_go_through_get (c : Collaborators) (s : State)
    (p : TypeBoundPredicate) (name : String) (emit_error : Bool) (locus : Location) :
    (s.lookup_trait_reference p.reference = none →
      p.contains_item s name = Outcome.abort "ok" ∧
      p.lookup_associated_item s name = Outcome.abort "ok" ∧
      p.is_object_safe c s emit_error locus = Outcome.abort "ok" ∧
      p.get_name c s = Outcome.abort "ok" ∧
      p.as_string c s = Outcome.abort "ok") ∧
    (∀ tref, s.lookup_trait_reference p.reference = some tref →
      p.contains_item s name = Outcome.ok (tref.lookup_trait_item name).isSome ∧
      p.lookup_associated_item s name =
        Outcome.ok
          (match tref.lookup_trait_item name with
           | none => TypeBoundPredicateItem.error
           | some i => { parent := some p, trait_item_ref := some i }) ∧
      p.is_object_safe c s emit_error locus =
        Outcome.ok (c.trait_is_object_safe tref emit_error locus) ∧
      p.get_name c s =
        Outcome.ok ((c.lookup_canonical_path (c.trait_nodeid tref)).getD
          (c.trait_get_name tref)) ∧
      p.as_string c s = Outcome.ok (c.trait_as_string tref ++ c.subst_as_string p)) ∧
    TypeBoundPredicateItem.error.needs_implementation =
      Outcome.abort "get_raw_item () is nullptr" := by
  refine ⟨?_, ?_, rfl⟩
  · intro h
    simp [TypeBoundPredicate.contains_item, TypeBoundPredicate.lookup_associated_item,
      TypeBoundPredicate.is_object_safe, TypeBoundPredicate.get_name,
      TypeBoundPredicate.as_string, TypeBoundPredicate.get_of_absent h, Outcome.bind_abort]
  · intro tref h
    refine ⟨?_, ?_, ?_, ?_, ?_⟩
    · simp [TypeBoundPredicate.contains_item, TypeBoundPredicate.get_of_cached h,
        Outcome.bind_ok]
    · simp only [TypeBoundPredicate.lookup_associated_item,
        TypeBoundPredicate.get_of_cached h, Outcome.bind_ok]
      cases tref.lookup_trait_item name <;> rfl
    · simp [TypeBoundPredicate.is_object_safe, TypeBoundPredicate.get_of_cached h,
        Outcome.bind_ok]
    · simp only [TypeBoundPredicate.get_name, TypeBoundPredicate.get_of_cached h,
        Outcome.bind_ok]
      cases c.lookup_canonical_path (c.trait_nodeid tref) <;> rfl
    · simp [TypeBoundPredicate.as_string, TypeBoundPredicate.get_of_cached h,
        Outcome.bind_ok]

theorem C12_queries_go_through_get_witness :
    TypeBoundPredicate.error.contains_item base_state "base" = Outcome.abort "ok" ∧
      TypeBoundPredicate.error.get_name queries base_state = Outcome.abort "ok" ∧
      flagged_predicate.contains_item base_state "base" = Outcome.ok true ∧
      flagged_predicate.get_name queries base_state = Outcome.ok "example::Base" :=
  have h1 := (C12_queries_go_through_get queries base_state TypeBoundPredicate.error
    "base" false 0).1 rfl
  have h2 := (C12_queries_go_through_get queries base_state flagged_predicate
    "base" false 0).2.1 base_reference rfl
  ⟨h1.1, h1.2.2.2.1, h2.1, h2.2.2.2.1⟩

/-- C12, the claim as stated fails: the predicate returned by
`TypeBoundPredicate::error ()` is in error state and `contains_item` on it ends
in the failed assertion of `get ()`; the predicate of `Base` with its error
flag set is in error state and `contains_item` answers true; and
`needs_implementation ()` on the error item sentinel does not return. -/
theorem C12_counterexample :
    TypeBoundPredicate.error.is_error base_state = true ∧
      TypeBoundPredicate.error.contains_item base_state "base" = Outcome.abort "ok" ∧
      TypeBoundPredicate.error.lookup_associated_item base_state "base" =
        Outcome.abort "ok" ∧
      flagged_predicate.is_error base_state = true ∧
      flagged_predicate.contains_item base_state "base" = Outcome.ok true ∧
      TypeBoundPredicateItem.error.needs_implementation =
        Outcome.abort "get_raw_item () is nullptr" :=
  ⟨rfl, rfl, rfl, rfl, rfl, rfl⟩

/-- C13: `get_tyty_for_receiver` decides between the declared type and the
specialized one by converting the enumerator of the item kind to `bool`: every
kind whose enumerator is not 0 gets the declared type back unchanged, also when
the argument mappings are not empty. The enumerators being distinct, that is
the case of the method or of the associated constant; with the enumerators in
the order `FN, CONST, TYPE, ERROR` it is the associated constant: for `ARITY`
of `FnLike`, with the receiver slot as the one mapping, the declared type is
returned although specialization gives another type, while the method `call`
is specialized under the mappings with slot 0 rebound to the receiver. -/
theorem C13_constant_is_not_specialized :
    (∀ (c : Collaborators) (parent : TypeBoundPredicate) (tref : TraitItemReference)
        (receiver : BaseType), c.enumerator tref.type ≠ 0 →
      TypeBoundPredicateItem.get_tyty_for_receiver c
          { parent := some parent, trait_item_ref := some tref } receiver =
        Outcome.ok (c.get_tyty tref, parent)) ∧
    (∀ c : Collaborators, Function.Injective c.enumerator →
      c.enumerator TraitItemType.FN ≠ 0 ∨ c.enumerator TraitItemType.CONST ≠ 0) ∧
    fnlike_predicate.used_arguments.is_empty = false ∧
    arity_ref.type = TraitItemType.CONST ∧
    TypeBoundPredicateItem.get_tyty_for_receiver queries
        { parent := some fnlike_predicate, trait_item_ref := some arity_ref } point =
      Outcome.ok (BaseType.Other 601 "ARITY", fnlike_predicate) ∧
    queries.specialize (queries.get_tyty arity_ref)
        { mappings := [{ param := 0, argument := some point.clone }], locus := 0 } =
      BaseType.Other 601 "ARITY for Point" ∧
    TypeBoundPredicateItem.get_tyty_for_receiver queries
        { parent := some fnlike_predicate, trait_item_ref := some call_ref } point =
      Outcome.ok (BaseType.Other 602 "call for Point", fnlike_predicate) := by
  refine ⟨?_, ?_, rfl, rfl, rfl, rfl, rfl⟩
  · intro c parent tref receiver hk
    exact TypeBoundPredicateItem.get_tyty_for_receiver_of_nonzero c parent tref receiver hk
  · intro c hinj
    by_cases h : c.enumerator TraitItemType.FN = 0
    · right
      intro h2
      have := hinj (h.trans h2.symm)
      cases this
    · exact Or.inl h

/-- C15: `requires_generic_args` answers true exactly when the predicate is
not in error state and has more than one substitution; and a call of
`apply_generic_arguments` that leaves the error flag clear keeps the
substitutions, so the answer after it is the answer before it. -/
theorem C15_requires_generic_args (s : State) (p : TypeBoundPredicate) :
    (p.requires_generic_args s = true ↔ p.is_error s = false ∧ 1 < p.substitutions.length) ∧
    ∀ (mapper : List SubstitutionParamMapping → SubstitutionArgumentMappings →
          HIR.GenericArgs → SubstitutionArgumentMappings)
        (args : HIR.GenericArgs) (p1 : TypeBoundPredicate),
      TypeBoundPredicate.apply_generic_arguments mapper p args = Outcome.ok p1 →
      p1.error_flag = false →
      p1.substitutions = p.substitutions ∧
        p1.requires_generic_args s = p.requires_generic_args s := by
  constructor
  · unfold TypeBoundPredicate.requires_generic_args
    cases h : p.is_error s <;> simp
  · intro mapper args p1 h hflag
    unfold TypeBoundPredicate.apply_generic_arguments at h
    split at h
    · cases h
    · split at h
      · cases h
      · simp only [Outcome.ok.injEq] at h
        subst h
        simp only [Bool.or_eq_false_iff] at hflag
        refine ⟨rfl, ?_⟩
        simp [TypeBoundPredicate.requires_generic_args, TypeBoundPredicate.is_error, hflag.1,
          hflag.2]

theorem C15_requires_generic_args_witness :
    fnlike_predicate.requires_generic_args fnlike_state = true ∧
      TypeBoundPredicate.apply_generic_arguments get_mappings_from_generic_args
        fnlike_predicate two_args = Outcome.ok fnlike_applied ∧
      fnlike_applied.substitutions = fnlike_predicate.substitutions ∧
      fnlike_applied.requires_generic_args fnlike_state =
        fnlike_predicate.requires_generic_args fnlike_state ∧
      fnlike_applied.requires_generic_args fnlike_state = true :=
  have h := (C15_requires_generic_args fnlike_state fnlike_predicate).2
    get_mappings_from_generic_args two_args fnlike_applied rfl rfl
  ⟨rfl, rfl, h.1, h.2, rfl⟩

/-- C16: `is_error` answers true exactly when the declaration id has no entry
in the trait cache or the error flag is set; the predicate of
`TypeBoundPredicate::error ()` is in error state in every state; and a call of
`apply_generic_arguments` on a predicate whose error flag is set returns, when
it returns, a predicate whose error flag is set. -/
theorem C16_is_error (s : State) (p : TypeBoundPredicate) :
    (p.is_error s = true ↔
      s.lookup_trait_reference p.reference = none ∨ p.error_flag = true) ∧
    (∀ s1 : State, TypeBoundPredicate.error.is_error s1 = true) ∧
    ∀ (mapper : List SubstitutionParamMapping → SubstitutionArgumentMappings →
          HIR.GenericArgs → SubstitutionArgumentMappings)
        (args : HIR.GenericArgs) (p1 : TypeBoundPredicate),
      TypeBoundPredicate.apply_generic_arguments mapper p args = Outcome.ok p1 →
      p.error_flag = true → p1.error_flag = true := by
  refine ⟨?_, ?_, ?_⟩
  · unfold TypeBoundPredicate.is_error
    cases s.lookup_trait_reference p.reference <;> simp
  · intro s1
    simp [TypeBoundPredicate.is_error, TypeBoundPredicate.error]
  · intro mapper args p1 h hflag
    unfold TypeBoundPredicate.apply_generic_arguments at h
    split at h
    · cases h
    · split at h
      · cases h
      · simp only [Outcome.ok.injEq] at h
        subst h
        simp [hflag]

theorem C16_is_error_witness :
    flagged_predicate.is_error base_state = true ∧
      TypeBoundPredicate.error.is_error base_state = true ∧
      (∃ p1, TypeBoundPredicate.apply_generic_arguments get_mappings_from_generic_args
          flagged_predicate { type_args := [], locus := 9 } = Outcome.ok p1 ∧
        p1.error_flag = true) ∧
      TypeBoundPredicate.apply_generic_arguments get_mappings_from_generic_args
          { substitutions := derived_substs
            used_arguments := SubstitutionArgumentMappings.error
            reference := 2
            locus := 7
            error_flag := true } one_arg =
        Outcome.abort "!used_arguments.is_empty ()" :=
  ⟨rfl, (C16_is_error base_state flagged_predicate).2.1 base_state,
    ⟨_, rfl,
      (C16_is_error base_state flagged_predicate).2.2 get_mappings_from_generic_args
        { type_args := [], locus := 9 } _ rfl rfl⟩,
    rfl⟩

/-- C17: when no type parameter of a declaration is named "Self" and the
declaration is not cached, `resolve` on a path to it ends in the failed
`rust_assert (self != nullptr)`: it returns neither a reference nor the error
reference. The state in which the assertion fails has the cache of the state
`resolve` started from. -/
theorem C17_missing_receiver_is_fatal (env : Env) (fuel : Nat) (p : HIR.TypePath)
    (t : HIR.Trait) (s : State)
    (hp : path_declaration env p = some t)
    (hc : s.lookup_trait_reference t.defid = none)
    (hno : ∀ q ∈ type_params t.generic_params, q.type_representation ≠ "Self") :
    Resolve env (fuel + 1) p s = Outcome.abort "self != nullptr" ∧
      (generic_params_loop t.generic_params none [] s).1 = none ∧
      (generic_params_loop t.generic_params none [] s).2.2.trait_context =
        s.trait_context := by
  have hself := generic_params_loop_self_kept t.generic_params none [] s hno
  refine ⟨?_, hself, generic_params_loop_trait_context _ _ _ _⟩
  obtain ⟨ref, hir_node, h1, h2, h3⟩ := path_declaration_eq_some hp
  simp only [Resolve, go, h1, h2, h3, hc]
  generalize generic_params_loop t.generic_params none [] s = g at hself
  obtain ⟨self, substitutions, sg⟩ := g
  simp only at hself
  subst hself
  rfl

theorem C17_missing_receiver_is_fatal_witness :
    Resolve fn_crate 1 (path_to 31) base_state = Outcome.abort "self != nullptr" ∧
      (generic_params_loop no_self_trait.generic_params none [] base_state).1 = none ∧
      (generic_params_loop no_self_trait.generic_params none [] base_state).2.2.trait_context =
        base_state.trait_context :=
  C17_missing_receiver_is_fatal fn_crate 0 (path_to 31) no_self_trait base_state rfl rfl
    (by decide)

/-- C18: after a fresh resolution that returns, the reference cached for the
declaration is the one returned, and its substitution list is the list of the
mappings of the declared type parameters, one each, in declaration order, with
nothing for a lifetime parameter; its length is the number of declared type
parameters. -/
theorem C18_substitutions_are_type_params (env : Env) (fuel : Nat) (p : HIR.TypePath)
    (t : HIR.Trait) (s s1 : State) (r : TraitReference)
    (hp : path_declaration env p = some t)
    (hc : s.lookup_trait_reference t.defid = none)
    (h : Resolve env (fuel + 1) p s = Outcome.ok (r, s1)) :
    s1.lookup_trait_reference t.defid = some r ∧
      r.trait_substs = (type_params t.generic_params).map mapping_of ∧
      r.trait_substs.map (fun m => m.generic) = type_params t.generic_params ∧
      r.trait_substs.length = (type_params t.generic_params).length := by
  have hcached := (Resolve_sound env (fuel + 1) p s r s1 h).2 t hp
  obtain ⟨self, substitutions, sg, self_bound, specified_bounds, super_traits, sl,
    hg, _, _, hr, _⟩ := go_fresh hp hc h
  have hs := generic_params_loop_substs t.generic_params none [] s
  rw [hg] at hs
  simp only [List.nil_append] at hs
  have hsub : r.trait_substs = (type_params t.generic_params).map mapping_of := by
    rw [hr]
    exact hs
  refine ⟨hcached, hsub, ?_, ?_⟩
  · rw [hsub, List.map_map]
    simp [Function.comp_def, mapping_of]
  · rw [hsub, List.length_map]

theorem C18_substitutions_are_type_params_witness :
    Resolve crate 2 (path_to 11) State.empty =
        Outcome.ok (derived_reference, derived_state) ∧
      derived_state.lookup_trait_reference 2 = some derived_reference ∧
      derived_reference.trait_substs =
        (type_params derived_trait.generic_params).map mapping_of ∧
      derived_reference.trait_substs.map (fun m => m.generic) =
        type_params derived_trait.generic_params ∧
      derived_reference.trait_substs.length = 2 :=
  ⟨rfl,
    C18_substitutions_are_type_params crate 1 (path_to 11) derived_trait State.empty
      derived_state derived_reference rfl rfl rfl⟩

/-- C19: when `get_tyty_for_receiver` returns, the parent predicate it leaves
is the parent predicate it was given: its substitutions, its used arguments,
the receiver slot among them, and its error flag are as before the call. The
receiver is written into slot 0 of the working copy only. -/
theorem C19_get_tyty_for_receiver_frame (c : Collaborators)
    (item : TypeBoundPredicateItem) (receiver ty : BaseType) (after : TypeBoundPredicate)
    (h : item.get_tyty_for_receiver c receiver = Outcome.ok (ty, after)) :
    item.parent = some after := by
  unfold TypeBoundPredicateItem.get_tyty_for_receiver at h
  split at h
  · cases h
  · split at h
    · cases h
    · rename_i parent hparent
      rw [hparent]
      have key : ∀ x : BaseType,
          (Outcome.ok (x, parent) : Outcome (BaseType × TypeBoundPredicate)) =
            Outcome.ok (ty, after) → some parent = some after := by
        intro x hx
        simp only [Outcome.ok.injEq, Prod.mk.injEq] at hx
        rw [hx.2]
      simp only at h
      repeat' split at h
      all_goals first | exact key _ h | cases h

theorem C19_get_tyty_for_receiver_frame_witness :
    TypeBoundPredicateItem.get_tyty_for_receiver queries
        { parent := some fnlike_applied, trait_item_ref := some call_ref } point =
      Outcome.ok (BaseType.Other 602 "call for Point", fnlike_applied) ∧
    fnlike_applied.used_arguments.mappings.head? = some { param := 0, argument := none } ∧
    ({ parent := some fnlike_applied, trait_item_ref := some call_ref } :
      TypeBoundPredicateItem).parent = some fnlike_applied :=
  ⟨rfl, rfl,
    C19_get_tyty_for_receiver_frame queries
      { parent := some fnlike_applied, trait_item_ref := some call_ref } point
      (BaseType.Other 602 "call for Point") fnlike_applied rfl⟩

/-- C14: `scan`, started with no trait reference collected, does what the
claim says: of the impl blocks, in iteration order, those that have a trait
reference, a type-checked `Self` type and `can_eq` with the receiver in one
direction or the other have their trait path resolved, one after the other,
and the result holds, in that order and without deduplication, one pair for
each of them whose path resolved to a reference that is not the error
reference. When `scan` returns, `all` pairs every such impl block with the
reference its path resolved to and the result is what is left of `all` without
the error references. -/
theorem C14_scan (env : Env) (fuel : Nat) (pe : ProbeEnv) (receiver : BaseType)
    (s : State) :
    TypeBoundsProbe.scan (Resolve env fuel) pe receiver [] s =
        TypeBoundsProbe.scan_spec (Resolve env fuel) pe receiver s ∧
      ∀ refs s1, TypeBoundsProbe.scan (Resolve env fuel) pe receiver [] s =
          Outcome.ok (refs, s1) →
        ∃ all,
          TypeBoundsProbe.resolve_each (Resolve env fuel)
              (pe.impl_blocks.filter (TypeBoundsProbe.eligible pe receiver)) s =
            Outcome.ok (all, s1) ∧
          all.map (fun x => x.2) =
            pe.impl_blocks.filter (TypeBoundsProbe.eligible pe receiver) ∧
          refs = all.filter (fun x => !x.1.is_error) := by
  have heq : TypeBoundsProbe.scan (Resolve env fuel) pe receiver [] s =
      TypeBoundsProbe.scan_spec (Resolve env fuel) pe receiver s := by
    unfold TypeBoundsProbe.scan TypeBoundsProbe.scan_spec
    rw [TypeBoundsProbe.possible_trait_paths_eq, List.nil_append,
      TypeBoundsProbe.resolve_loop_eq]
    simp
  refine ⟨heq, ?_⟩
  intro refs s1 h
  rw [heq] at h
  simp only [TypeBoundsProbe.scan_spec, Outcome.bind_eq_ok, Outcome.ok.injEq,
    Prod.mk.injEq] at h
  obtain ⟨⟨all, s2⟩, hall, hrefs, hs⟩ := h
  simp only at hrefs hs
  subst hs
  refine ⟨all, hall, ?_, hrefs.symm⟩
  refine TypeBoundsProbe.resolve_each_blocks _ _ _ _ _ ?_ hall
  intro impl hi
  exact TypeBoundsProbe.eligible_has_trait_ref (List.mem_filter.mp hi).2

theorem C14_scan_witness :
    probe.can_eq point (BaseType.ParamType 512 "T") false = false ∧
      probe.can_eq (BaseType.ParamType 512 "T") point false = true ∧
      TypeBoundsProbe.scan (Resolve crate 1) probe point [] State.empty =
        Outcome.ok
          ([(base_reference, impl_point), (base_reference, impl_generic),
            (base_reference, impl_point_again)],
           base_state.emit (Event.rust_error_at 12 "Failed to resolve path to node-id")) ∧
      ∃ all,
        TypeBoundsProbe.resolve_each (Resolve crate 1)
            (probe.impl_blocks.filter (TypeBoundsProbe.eligible probe point)) State.empty =
          Outcome.ok (all,
            base_state.emit (Event.rust_error_at 12 "Failed to resolve path to node-id")) ∧
        all.map (fun x => x.2) =
          probe.impl_blocks.filter (TypeBoundsProbe.eligible probe point) ∧
        [(base_reference, impl_point), (base_reference, impl_generic),
            (base_reference, impl_point_again)] =
          all.filter (fun x => !x.1.is_error) :=
  ⟨rfl, rfl, rfl, (C14_scan crate 1 probe point State.empty).2 _ _ rfl⟩

/-- C20, as amended: with the version `LEGACY`, `mangle_item` returns a symbol,
`_ZN`, the mangled path, the mangled hash and `E`, for every type and every
canonical path in whose segment names each colon is followed by a second
colon; with the version `V0` it returns no symbol for any type and path: once
the crate identifier, the disambiguator and the type prefix are there,
`v0_mangle_item` ends in `rust_unreachable ()`. -/
theorem C20_mangle_item (m : Compile.MangleEnv) (ty : BaseType)
    (path : Compile.CanonicalPath) :
    ((∀ seg ∈ path.segs, Compile.colons_paired seg.2.data = true) →
      ∃ mangled_path hash_sig,
        Compile.legacy_mangle_canonical_path path = Outcome.ok mangled_path ∧
        Compile.legacy_mangle_name (Compile.legacy_hash m (m.mangle_string ty)) =
          Outcome.ok hash_sig ∧
        Compile.mangle_item m Compile.MangleVersion.LEGACY ty path =
          Outcome.ok ("_ZN" ++ mangled_path ++ hash_sig ++ "E")) ∧
    (∀ symbol, Compile.mangle_item m Compile.MangleVersion.V0 ty path ≠ Outcome.ok symbol) ∧
    (∀ crate_name mangled found,
      m.get_crate_name path.crate_num = some crate_name →
      Compile.v0_add_identifier m "" crate_name = Outcome.ok mangled →
      Compile.v0_type_prefix m ty = Outcome.ok found →
      Compile.mangle_item m Compile.MangleVersion.V0 ty path =
        Outcome.abort "rust_unreachable ()") := by
  refine ⟨?_, ?_, ?_⟩
  · intro hsegs
    obtain ⟨mangled_path, hpath⟩ := Compile.legacy_mangle_segments_ok path.segs "" hsegs
    obtain ⟨hash_sig, hhash⟩ := Compile.legacy_mangle_name_ok
      (Compile.legacy_hash m (m.mangle_string ty))
      (Compile.colons_paired_of_no_colon _ (Compile.legacy_hash_no_colon m _))
    refine ⟨mangled_path, hash_sig, hpath, hhash, ?_⟩
    have hpath1 : Compile.legacy_mangle_canonical_path path = Outcome.ok mangled_path := hpath
    simp only [Compile.mangle_item, Compile.legacy_mangle_item, hhash, hpath1,
      Outcome.bind_ok]
    rfl
  · intro symbol h
    simp only [Compile.mangle_item, Compile.v0_mangle_item] at h
    split at h
    · cases h
    · simp only [Outcome.bind_eq_ok] at h
      obtain ⟨_, _, _, _, h⟩ := h
      cases h
  · intro crate_name mangled found h1 h2 h3
    simp only [Compile.mangle_item, Compile.v0_mangle_item, h1, h2, h3, Outcome.bind_ok]

theorem C20_mangle_item_witness :
    Compile.mangle_item mangle_env Compile.MangleVersion.LEGACY point new_path =
        Outcome.ok "_ZN7example12Foo$LT$T$GT$3new17h70811a11f1c94eb9E" ∧
      (∃ mangled_path hash_sig,
        Compile.legacy_mangle_canonical_path new_path = Outcome.ok mangled_path ∧
        Compile.legacy_mangle_name
            (Compile.legacy_hash mangle_env (mangle_env.mangle_string point)) =
          Outcome.ok hash_sig ∧
        Compile.mangle_item mangle_env Compile.MangleVersion.LEGACY point new_path =
          Outcome.ok ("_ZN" ++ mangled_path ++ hash_sig ++ "E")) ∧
      Compile.mangle_item mangle_env Compile.MangleVersion.V0 (BaseType.ParamType 61 "T")
          new_path =
        Outcome.abort "rust_unreachable ()" :=
  have h := C20_mangle_item mangle_env
  ⟨rfl, (h point new_path).1 (by decide),
    (h (BaseType.ParamType 61 "T") new_path).2.2 "example" "7example" "p" rfl rfl rfl⟩

/-- C20, the claim as stated fails: with the version `V0`, for the type
parameter `T` and the path `example::Foo<T>::new` of crate `example`, the crate
identifier is `7example`, the disambiguator `sZ_` and the type prefix `p`, and
`mangle_item` ends in `rust_unreachable ()` instead of returning a symbol; with
the version `LEGACY`, a segment name `a:b` fails the assertion that a colon is
followed by a colon. -/
theorem C20_counterexample :
    Compile.v0_add_identifier mangle_env "" "example" = Outcome.ok "7example" ∧
      Compile.v0_add_disambiguator mangle_env "7example" 62 = "7examplesZ_" ∧
      Compile.v0_type_prefix mangle_env (BaseType.ParamType 61 "T") = Outcome.ok "p" ∧
      Compile.mangle_item mangle_env Compile.MangleVersion.V0 (BaseType.ParamType 61 "T")
          new_path =
        Outcome.abort "rust_unreachable ()" ∧
      (¬ ∃ symbol, Compile.mangle_item mangle_env Compile.MangleVersion.V0
          (BaseType.ParamType 61 "T") new_path = Outcome.ok symbol) ∧
      Compile.mangle_item mangle_env Compile.MangleVersion.LEGACY point lone_colon_path =
        Outcome.abort "chars.at (i + 1) == ':'" := by
  refine ⟨rfl, rfl, rfl, rfl, ?_, rfl⟩
  rintro ⟨symbol, h⟩
  have h1 : Compile.mangle_item mangle_env Compile.MangleVersion.V0
      (BaseType.ParamType 61 "T") new_path = Outcome.abort "rust_unreachable ()" := rfl
  rw [h1] at h
  cases h

/-- C21: for a name in which the colons come in pairs, `legacy_mangle_name`
returns the decimal byte length of `b` followed by `b`, where `b` is the
concatenation of the escapes the claim lists, a pair of colons giving two
dots; `b` and the result hold ASCII characters only, so that the byte length
of `b` is the number of its characters. -/
theorem C21_legacy_mangle_name (name : String)
    (h : Compile.colons_paired name.data = true) :
    Compile.legacy_mangle_name name = Outcome.ok (Compile.legacy_mangle_name_spec name) ∧
      Compile.legacy_mangle_name_spec name =
        toString (Compile.legacy_escapes name.data 0).utf8ByteSize ++
          Compile.legacy_escapes name.data 0 ∧
      (Compile.legacy_escapes name.data 0).utf8ByteSize =
        (Compile.legacy_escapes name.data 0).length ∧
      ∀ c ∈ (Compile.legacy_mangle_name_spec name).data, Compile.is_ascii c = true := by
  have hb := Compile.legacy_escapes_ascii _ name.data (Nat.le_refl _) 0
  refine ⟨?_, rfl, Compile.utf8ByteSize_of_ascii _ hb, ?_⟩
  · simp only [Compile.legacy_mangle_name,
      Compile.legacy_mangle_loop_eq _ name.data (Nat.le_refl _) h 0 "", Outcome.bind_ok,
      Compile.legacy_mangle_name_spec, String.empty_append]
  · intro c hc
    simp only [Compile.legacy_mangle_name_spec, String.data_append, List.mem_append] at hc
    rcases hc with hc | hc
    · exact Compile.toString_ascii _ c hc
    · exact hb c hc

theorem C21_legacy_mangle_name_witness :
    Compile.colons_paired "<example::Bar as example::A>".data = true ∧
      Compile.legacy_mangle_name "<example::Bar as example::A>" =
        Outcome.ok "43_$LT$example..Bar$u20$as$u20$example..A$GT$" ∧
      Compile.legacy_mangle_name "Foo<T>" = Outcome.ok "12Foo$LT$T$GT$" ∧
      Compile.legacy_mangle_name "é[x]\x7by\x7d,*&<::" =
        Outcome.ok "44$ue9$$u5b$x$u5d$$u7b$y$u7d$$C$$BP$$RF$$LT$.." :=
  ⟨by decide, (C21_legacy_mangle_name "<example::Bar as example::A>" (by decide)).1,
    (C21_legacy_mangle_name "Foo<T>" (by decide)).1,
    (C21_legacy_mangle_name "é[x]\x7by\x7d,*&<::" (by decide)).1⟩

/-- C22: `v0_add_integer_62` appends `_` for 0 and `base62 (x - 1)` followed by
`_` for a positive `x`, after what `mangled` held; `v0_add_opt_integer_62`
appends nothing for 0 and the tag followed by that encoding for a positive
`x`; `v0_add_disambiguator` is `v0_add_opt_integer_62` with the tag `s`. -/
theorem C22_base62_integers (m : Compile.MangleEnv) (mangled tag : String) (x : Nat) :
    Compile.v0_add_integer_62 m mangled 0 = mangled ++ "_" ∧
      (0 < x →
        Compile.v0_add_integer_62 m mangled x =
          mangled ++ (m.base62_integer (x - 1) ++ "_")) ∧
      mangled.data <+: (Compile.v0_add_integer_62 m mangled x).data ∧
      Compile.v0_add_opt_integer_62 m mangled tag 0 = mangled ∧
      (0 < x →
        Compile.v0_add_opt_integer_62 m mangled tag x =
          mangled ++ (tag ++ (m.base62_integer (x - 1) ++ "_"))) ∧
      Compile.v0_add_disambiguator m mangled x =
        Compile.v0_add_opt_integer_62 m mangled "s" x ∧
      Compile.v0_add_disambiguator m mangled 0 = mangled ∧
      (0 < x →
        Compile.v0_add_disambiguator m mangled x =
          mangled ++ ("s" ++ (m.base62_integer (x - 1) ++ "_"))) := by
  have hopt : ∀ t : String, 0 < x →
      Compile.v0_add_opt_integer_62 m mangled t x =
        mangled ++ (t ++ (m.base62_integer (x - 1) ++ "_")) := by
    intro t hx
    simp only [Compile.v0_add_opt_integer_62, Compile.v0_add_integer_62, gt_iff_lt, hx,
      if_true, String.append_assoc]
  refine ⟨by simp [Compile.v0_add_integer_62], ?_, ?_, by simp [Compile.v0_add_opt_integer_62],
    hopt tag, rfl, by simp [Compile.v0_add_disambiguator, Compile.v0_add_opt_integer_62],
    hopt "s"⟩
  · intro hx
    simp only [Compile.v0_add_integer_62, gt_iff_lt, hx, if_true, String.append_assoc]
  · simp only [Compile.v0_add_integer_62]
    split
    · simp only [String.append_assoc, String.data_append]
      exact List.prefix_append _ _
    · simp only [String.data_append]
      exact List.prefix_append _ _

theorem C22_base62_integers_witness :
    Compile.v0_add_integer_62 mangle_env "7example" 0 = "7example_" ∧
      Compile.v0_add_integer_62 mangle_env "7example" 63 = "7example10_" ∧
      Compile.v0_add_opt_integer_62 mangle_env "7example" "s" 0 = "7example" ∧
      Compile.v0_add_disambiguator mangle_env "7example" 62 = "7examplesZ_" ∧
      Compile.v0_add_disambiguator mangle_env "7example" 62 =
        "7example" ++ ("s" ++ (mangle_env.base62_integer (62 - 1) ++ "_")) :=
  ⟨rfl, rfl, rfl, rfl, (C22_base62_integers mangle_env "7example" "s" 62).2.2.2.2.2.2.2
    (by decide)⟩

/-- C25: `legacy_hash` returns `h` followed by the first 16 characters of the
digits of `lo`, padded with zeros to at least 8, followed by the digits of
`hi`, padded likewise: 17 characters, the 16 after `h` lowercase hexadecimal
digits. The hash segment of a legacy symbol is therefore `17` and that hash,
and when `lo` is at least `2 ^ 60` the hash is `h` and the 16 digits of `lo`,
the same for every `hi`. -/
theorem C25_legacy_hash (m : Compile.MangleEnv) (fingerprint : String) :
    (Compile.legacy_hash m fingerprint).data =
        'h' :: (Compile.zero_padded_hex ((m.fnv128_sum fingerprint).2 % 2 ^ 64) ++
          Compile.zero_padded_hex ((m.fnv128_sum fingerprint).1 % 2 ^ 64)).take 16 ∧
      (∀ n, Compile.zero_padded_hex n =
          List.replicate (8 - (Compile.hex_digits n).length) '0' ++ Compile.hex_digits n ∧
        8 ≤ (Compile.zero_padded_hex n).length) ∧
      (Compile.legacy_hash m fingerprint).length = 17 ∧
      (∀ c ∈ (Compile.legacy_hash m fingerprint).data.tail, Compile.is_lower_hex c = true) ∧
      Compile.legacy_mangle_name (Compile.legacy_hash m fingerprint) =
        Outcome.ok ("17" ++ Compile.legacy_hash m fingerprint) ∧
      (∀ (ty : BaseType) (path : Compile.CanonicalPath) (mangled_path : String),
        Compile.legacy_mangle_canonical_path path = Outcome.ok mangled_path →
        Compile.legacy_mangle_item m ty path =
          Outcome.ok ("_ZN" ++ mangled_path ++
            ("17" ++ Compile.legacy_hash m (m.mangle_string ty)) ++ "E")) ∧
      (2 ^ 60 ≤ (m.fnv128_sum fingerprint).2 % 2 ^ 64 →
        Compile.legacy_hash m fingerprint =
            "h" ++ String.mk (Compile.hex_digits ((m.fnv128_sum fingerprint).2 % 2 ^ 64)) ∧
          ∀ (m1 : Compile.MangleEnv) (fingerprint1 : String),
            (m1.fnv128_sum fingerprint1).2 % 2 ^ 64 = (m.fnv128_sum fingerprint).2 % 2 ^ 64 →
            Compile.legacy_hash m1 fingerprint1 = Compile.legacy_hash m fingerprint) := by
  have large : ∀ (m0 : Compile.MangleEnv) (fp : String),
      2 ^ 60 ≤ (m0.fnv128_sum fp).2 % 2 ^ 64 →
      Compile.legacy_hash m0 fp =
        "h" ++ String.mk (Compile.hex_digits ((m0.fnv128_sum fp).2 % 2 ^ 64)) := by
    intro m0 fp hle
    obtain ⟨hz, hl⟩ := Compile.zero_padded_hex_of_large _ hle (Nat.mod_lt _ (by positivity))
    apply String.ext
    rw [Compile.legacy_hash_data, hz, List.take_append_of_le_length (Nat.le_of_eq hl.symm),
      List.take_of_length_le (Nat.le_of_eq hl)]
    rfl
  refine ⟨Compile.legacy_hash_data m fingerprint,
    fun n => ⟨rfl, Compile.zero_padded_hex_length n⟩, Compile.legacy_hash_length m fingerprint,
    Compile.legacy_hash_lower m fingerprint, Compile.legacy_mangle_name_hash m fingerprint,
    ?_, ?_⟩
  · intro ty path mangled_path hpath
    simp only [Compile.legacy_mangle_item, Compile.legacy_mangle_name_hash, hpath,
      Outcome.bind_ok]
    rfl
  · intro hle
    refine ⟨large m fingerprint hle, ?_⟩
    intro m1 fingerprint1 heq
    rw [large m fingerprint hle, large m1 fingerprint1 (by rw [heq]; exact hle), heq]

theorem C25_legacy_hash_witness :
    mangle_env.fnv128_sum "Point" = (9658845387502639439, 8106789468616871609) ∧
      Compile.legacy_hash mangle_env "Point" = "h70811a11f1c94eb9" ∧
      Compile.legacy_mangle_name (Compile.legacy_hash mangle_env "Point") =
        Outcome.ok "17h70811a11f1c94eb9" ∧
      Compile.legacy_hash { mangle_env with fnv128_sum := fun _ => (2748, 31) } "Point" =
        "h0000001f00000abc" ∧
      Compile.legacy_hash { mangle_env with fnv128_sum := fun _ => (2748, 2 ^ 32) } "Point" =
        "h10000000000000ab" ∧
      (Compile.legacy_hash mangle_env "Point" =
          "h" ++ String.mk
            (Compile.hex_digits ((mangle_env.fnv128_sum "Point").2 % 2 ^ 64)) ∧
        ∀ (m1 : Compile.MangleEnv) (fingerprint1 : String),
          (m1.fnv128_sum fingerprint1).2 % 2 ^ 64 =
            (mangle_env.fnv128_sum "Point").2 % 2 ^ 64 →
          Compile.legacy_hash m1 fingerprint1 = Compile.legacy_hash mangle_env "Point") :=
  ⟨by decide, by decide, by decide, by decide, by decide,
    (C25_legacy_hash mangle_env "Point").2.2.2.2.2.2 (by decide)⟩

/-- C23: `v0_add_identifier` appends `u` for an identifier that is not ASCII,
the decimal length of the punycode form and the form, as the claim says, but
the extra underscore only when the form starts with an underscore, although
its comment says a digit or an underscore. For the identifier `2048`, of
punycode `2048-`, it gives `42048` where the claim gives `4_2048`; for `é`, of
punycode `9ca`, it gives `u39ca` where the claim gives `u3_9ca`. Whenever the
form does not start with a digit the function does what the claim says. -/
theorem C23_leading_digit_gets_no_underscore :
    mangle_env.encode_punycode "2048" = some "2048-" ∧
      Compile.punycode_form "2048-" = "2048" ∧
      Compile.v0_add_identifier mangle_env "" "2048" = Outcome.ok "42048" ∧
      Compile.v0_add_identifier_spec mangle_env "" "2048" = Outcome.ok "4_2048" ∧
      Compile.v0_add_identifier { mangle_env with encode_punycode := fun _ => some "9ca" }
          "" "é" = Outcome.ok "u39ca" ∧
      Compile.v0_add_identifier_spec
          { mangle_env with encode_punycode := fun _ => some "9ca" } "" "é" =
        Outcome.ok "u3_9ca" ∧
      Compile.v0_add_identifier mangle_env "" "_x" = Outcome.ok "2__x" ∧
      Compile.v0_add_identifier { mangle_env with encode_punycode := fun _ => some "gdel-5qa" }
          "" "gödel" = Outcome.ok "u8gdel_5qa" ∧
      ∀ (m : Compile.MangleEnv) (mangled identifier : String),
        (∀ encoded c, m.encode_punycode identifier = some encoded →
          (Compile.punycode_form encoded).data.head? = some c → c.isDigit = false) →
        Compile.v0_add_identifier m mangled identifier =
          Compile.v0_add_identifier_spec m mangled identifier :=
  ⟨rfl, rfl, rfl, rfl, rfl, rfl, rfl, rfl, Compile.v0_add_identifier_eq_spec⟩

/-- C24: copy assignment gives what copy construction gives, and both read
the trait cache. From a source whose declaration id is cached, whose error flag
is clear and which has no more arguments than parameters, the copy has the
substitutions of the source, cloned, and as many used arguments, argument `i`
pointing at parameter `i` of the copy with its type cloned. From a source whose
declaration id is not cached the copy has no substitution and no used
argument and the error flag of the source; copying it again gives the same in
every state, also once the trait is cached. The self bound built by `go`
before the insertion is such a source. -/
theorem C24_copies_read_the_cache (s : State) (this other : TypeBoundPredicate) :
    TypeBoundPredicate.assign s this other = TypeBoundPredicate.copy s other ∧
      (∀ r, s.lookup_trait_reference other.reference = some r →
        other.error_flag = false →
        other.used_arguments.size ≤ other.substitutions.length →
        ∃ c, TypeBoundPredicate.copy s other = Outcome.ok c ∧
          c.substitutions = other.substitutions.map SubstitutionParamMapping.clone ∧
          c.substitutions.length = other.substitutions.length ∧
          c.used_arguments.size = other.used_arguments.size ∧
          (∀ i oa, other.used_arguments.mappings[i]? = some oa →
            c.used_arguments.mappings[i]? =
              some ({ param := i, argument := oa.argument.map BaseType.clone } :
                SubstitutionArg)) ∧
          c.is_error s = false) ∧
      (s.lookup_trait_reference other.reference = none →
        ∃ c, TypeBoundPredicate.copy s other = Outcome.ok c ∧
          c.substitutions = [] ∧
          c.used_arguments.mappings = [] ∧
          c.error_flag = other.error_flag ∧
          c.reference = other.reference ∧
          ∀ s2 : State, TypeBoundPredicate.copy s2 c = Outcome.ok c ∧
            TypeBoundPredicate.assign s2 this c = Outcome.ok c) ∧
      (∀ t : HIR.Trait, s.lookup_trait_reference t.defid = none →
        TypeBoundPredicate.copy (generic_params_loop t.generic_params none [] s).2.2
            (TypeBoundPredicate.from_defid t.defid
              ((generic_params_loop t.generic_params none [] s).2.1.map
                SubstitutionParamMapping.clone) t.locus) =
          Outcome.ok
            { substitutions := []
              used_arguments := SubstitutionArgumentMappings.error
              reference := t.defid
              locus := t.locus
              error_flag := false }) := by
  refine ⟨TypeBoundPredicate.assign_eq_copy s this other, ?_, ?_, ?_⟩
  · intro r hr hflag hfit
    refine ⟨_, TypeBoundPredicate.copy_of_cached hr hflag hfit, rfl, by simp, ?_, ?_, ?_⟩
    · simp [SubstitutionArgumentMappings.size, TypeBoundPredicate.rebuilt_mappings_length]
    · intro i oa hoa
      have := TypeBoundPredicate.rebuilt_mappings_getElem? _ 0 i oa hoa
      simpa using this
    · simp [TypeBoundPredicate.is_error, hr, hflag]
  · intro hnone
    refine ⟨_, TypeBoundPredicate.copy_of_absent hnone, rfl, rfl, rfl, rfl, ?_⟩
    intro s2
    have hc := TypeBoundPredicate.copy_of_empty s2 other.reference other.locus other.error_flag
    exact ⟨hc, by rw [TypeBoundPredicate.assign_eq_copy]; exact hc⟩
  · intro t hnone
    have hl : (generic_params_loop t.generic_params none [] s).2.2.lookup_trait_reference
        (TypeBoundPredicate.from_defid t.defid
          ((generic_params_loop t.generic_params none [] s).2.1.map
            SubstitutionParamMapping.clone) t.locus).reference = none := by
      rw [State.lookup_of_trait_context_eq
        (generic_params_loop_trait_context t.generic_params none [] s)]
      exact hnone
    rw [TypeBoundPredicate.copy_of_absent hl]
    rfl

theorem C24_copies_read_the_cache_witness :
    TypeBoundPredicate.copy State.empty (TypeBoundPredicate.from_defid 1 base_substs 100) =
        Outcome.ok
          { substitutions := [], used_arguments := SubstitutionArgumentMappings.error,
            reference := 1, locus := 100, error_flag := false } ∧
      TypeBoundPredicate.is_error base_state
          { substitutions := [], used_arguments := SubstitutionArgumentMappings.error,
            reference := 1, locus := 100, error_flag := false } = false ∧
      TypeBoundPredicate.copy base_state (TypeBoundPredicate.from_defid 1 base_substs 100) =
        Outcome.ok (TypeBoundPredicate.from_defid 1 base_substs 100) ∧
      TypeBoundPredicate.copy derived_state derived_applied = Outcome.ok derived_applied ∧
      (∃ c, TypeBoundPredicate.copy State.empty
            (TypeBoundPredicate.from_defid 1 base_substs 100) = Outcome.ok c ∧
          c.substitutions = [] ∧
          c.used_arguments.mappings = [] ∧
          c.error_flag = false ∧
          c.reference = 1 ∧
          ∀ s2 : State, TypeBoundPredicate.copy s2 c = Outcome.ok c ∧
            TypeBoundPredicate.assign s2 derived_applied c = Outcome.ok c) :=
  ⟨rfl, rfl, rfl, rfl,
    (C24_copies_read_the_cache State.empty derived_applied
      (TypeBoundPredicate.from_defid 1 base_substs 100)).2.2.1 rfl⟩

/-- C26: when the resolution of the trait path returns the error reference,
`get_predicate_from_bound` returns the error predicate; otherwise it builds
the predicate of the reference and calls `apply_generic_arguments`, with the
arguments of the use site, only when `requires_generic_args` answers true. For
a reference with the receiver as its only parameter, as a fresh resolution
gives for a declaration with one type parameter, the arguments of the use site
are not looked at: the predicate returned is the one built from the reference,
it is not in error state and its used arguments are the one unbound receiver
slot. This holds with and without copy elision at the return. -/
theorem C26_get_predicate_from_bound
    (mapper : List SubstitutionParamMapping → SubstitutionArgumentMappings →
      HIR.GenericArgs → SubstitutionArgumentMappings)
    (elided : Bool) (p : HIR.TypePath) :
    (∀ (resolve : ResolveFn) (s s1 : State) (r : TraitReference),
      resolve p s = Outcome.ok (r, s1) → r.is_error = true →
      get_predicate_from_bound resolve mapper elided p s =
          Outcome.ok (TypeBoundPredicate.error, s1) ∧
        ∀ s2 : State, TypeBoundPredicate.error.is_error s2 = true) ∧
    (∀ (resolve : ResolveFn) (s s1 : State) (r : TraitReference),
      resolve p s = Outcome.ok (r, s1) → r.is_error = false →
      get_predicate_from_bound resolve mapper elided p s =
        if (TypeBoundPredicate.from_trait_reference r p.locus).requires_generic_args s1 then
          (TypeBoundPredicate.apply_generic_arguments mapper
            (TypeBoundPredicate.from_trait_reference r p.locus)
            (p.generic_args.getD (HIR.GenericArgs.create_empty p.locus))).bind fun applied =>
          (return_by_value elided s1 applied).bind fun returned => Outcome.ok (returned, s1)
        else
          (return_by_value elided s1 (TypeBoundPredicate.from_trait_reference r p.locus)).bind
            fun returned => Outcome.ok (returned, s1)) ∧
    (∀ (env : Env) (fuel : Nat) (t : HIR.Trait) (s s1 : State) (r : TraitReference),
      s.wf → path_declaration env p = some t →
      Resolve env fuel p s = Outcome.ok (r, s1) →
      r.is_error = false → r.trait_substs.length = 1 →
      get_predicate_from_bound (Resolve env fuel) mapper elided p s =
          Outcome.ok (TypeBoundPredicate.from_trait_reference r p.locus, s1) ∧
        (TypeBoundPredicate.from_trait_reference r p.locus).is_error s1 = false ∧
        (TypeBoundPredicate.from_trait_reference r p.locus).used_arguments.mappings =
          [{ param := 0, argument := none }] ∧
        (TypeBoundPredicate.from_trait_reference r p.locus).substitutions = r.trait_substs) ∧
    (∀ (env : Env) (fuel : Nat) (t : HIR.Trait) (s s1 : State) (r : TraitReference),
      path_declaration env p = some t →
      s.lookup_trait_reference t.defid = none →
      Resolve env (fuel + 1) p s = Outcome.ok (r, s1) →
      (type_params t.generic_params).length = 1 →
      r.is_error = false ∧ r.trait_substs.length = 1) := by
  refine ⟨?_, ?_, ?_, ?_⟩
  · intro resolve s s1 r h hr
    refine ⟨?_, fun s2 => by simp [TypeBoundPredicate.is_error, TypeBoundPredicate.error]⟩
    simp only [get_predicate_from_bound, h, Outcome.bind_ok, hr, if_true]
  · intro resolve s s1 r h hr
    simp only [get_predicate_from_bound, h, Outcome.bind_ok, hr, Bool.false_eq_true, if_false]
    cases p.generic_args <;> rfl
  · intro env fuel t s s1 r hw hp h hr hl
    obtain ⟨hlater, hcached⟩ := Resolve_sound env fuel p s r s1 h
    have hc := hcached t hp
    have hid : r.get_defid = t.defid := hlater.2.1 hw _ _ hc
    have hc1 : s1.lookup_trait_reference r.get_defid = some r := by rw [hid]; exact hc
    refine ⟨get_predicate_from_bound_receiver_only mapper elided h hr hc1 hl, ?_, rfl, rfl⟩
    simp [TypeBoundPredicate.is_error, TypeBoundPredicate.from_trait_reference, hc1]
  · intro env fuel t s s1 r hp hc h hk
    obtain ⟨self, substitutions, sg, self_bound, specified_bounds, super_traits, sl,
      hg, _, _, hr, _⟩ := go_fresh hp hc h
    have hs := generic_params_loop_substs t.generic_params none [] s
    rw [hg] at hs
    simp only [List.nil_append] at hs
    rw [hr]
    refine ⟨rfl, ?_⟩
    show substitutions.length = 1
    rw [hs, List.length_map, hk]

theorem C26_get_predicate_from_bound_witness :
    get_predicate_from_bound (Resolve crate 1) get_mappings_from_generic_args false
        (path_to 12) State.empty =
      Outcome.ok (TypeBoundPredicate.error,
        State.empty.emit (Event.rust_error_at 12 "Failed to resolve path to node-id")) ∧
    get_predicate_from_bound (Resolve fn_crate 1) get_mappings_from_generic_args false
        fnlike_with_args State.empty =
      Outcome.ok ({ fnlike_applied with locus := 30 }, fnlike_state) ∧
    base_with_arg.generic_args = some one_arg ∧
    Resolve crate 1 base_with_arg State.empty = Outcome.ok (base_reference, base_state) ∧
    (get_predicate_from_bound (Resolve crate 1) get_mappings_from_generic_args false
          base_with_arg State.empty =
        Outcome.ok (TypeBoundPredicate.from_trait_reference base_reference base_with_arg.locus,
          base_state) ∧
      (TypeBoundPredicate.from_trait_reference base_reference base_with_arg.locus).is_error
          base_state = false ∧
      (TypeBoundPredicate.from_trait_reference base_reference
          base_with_arg.locus).used_arguments.mappings =
        [{ param := 0, argument := none }] ∧
      (TypeBoundPredicate.from_trait_reference base_reference base_with_arg.locus).substitutions =
        base_reference.trait_substs) :=
  ⟨rfl, rfl, rfl, rfl,
    (C26_get_predicate_from_bound get_mappings_from_generic_args false base_with_arg).2.2.1
      crate 1 base_trait State.empty base_state base_reference State.wf_empty rfl rfl rfl rfl⟩

end Claims

end Rust
